import Mathlib

/-!
# Audio conversion engine (intel_audio)

Shallow embedding of `AudioConversion.cpp` (chain planning, serial application and the
pull buffering protocol) and of `AudioRemapper.cpp` (channel remapping strategies).

Conventions of the embedding:

* `status_t` is an `Int`; the constants are those of Android's `utils/Errors.h`.
* `size_t`, `uint32_t` quantities are natural numbers; where a computation of the source can
  wrap around (the 64-bit accumulator of the remapper, the capacity and the allocation size
  of the accumulation buffer) the reduction modulo `2^w` is explicit.
* The three converter objects are external to the translated files as far as their
  `configure`/`convert` bodies are concerned (`AudioConverter`, `AudioReformatter`,
  `AudioResampler` are not part of the sources at hand): they are parameters of the model.
-/

namespace intel_audio

abbrev status_t := Int

def NO_ERROR : status_t := 0

def OK : status_t := 0

def NO_MEMORY : status_t := -12

def INVALID_OPERATION : status_t := -38

def BAD_VALUE : status_t := -22

def NO_INIT : status_t := -19

/-- Modelled from the spec: the channel policy enumeration of `SampleSpec.hpp`
(glossary: "per-channel directive {Copy, Average, Ignore}"). -/
inductive ChannelsPolicy where
  | Copy
  | Average
  | Ignore
  deriving DecidableEq, Repr

/-- Modelled from the spec: the attribute ("sample spec item") indices of `SampleSpec.hpp`,
in the fixed order [channel count, format, rate] of the planning algorithm. An item is kept
as a natural number because the source does arithmetic on it (`sampleSpecItem + 1`). -/
def ChannelCountSampleSpecItem : Nat := 0

def FormatSampleSpecItem : Nat := 1

def RateSampleSpecItem : Nat := 2

def NbSampleSpecItems : Nat := 3

/-- Modelled from the spec: the `SampleSpec` value type of `SampleSpec.hpp` (StreamFormat in
the spec): channel count, sample format (the numeric `audio_format_t` value), sample rate and
the per-channel policy array. Equality is structural over all fields. -/
structure SampleSpec where
  channelCount : Nat
  format : Nat
  sampleRate : Nat
  channelsPolicy : List ChannelsPolicy
  deriving DecidableEq, Repr

namespace SampleSpec

/-- Modelled from the spec: per-attribute accessor `SampleSpec::getSampleSpecItem`. -/
def getSampleSpecItem (s : SampleSpec) (item : Nat) : Nat :=
  if item = ChannelCountSampleSpecItem then s.channelCount
  else if item = FormatSampleSpecItem then s.format
  else if item = RateSampleSpecItem then s.sampleRate
  else 0

/-- Modelled from the spec: per-attribute mutator `SampleSpec::setSampleSpecItem`. -/
def setSampleSpecItem (s : SampleSpec) (item : Nat) (value : Nat) : SampleSpec :=
  if item = ChannelCountSampleSpecItem then { s with channelCount := value }
  else if item = FormatSampleSpecItem then { s with format := value }
  else if item = RateSampleSpecItem then { s with sampleRate := value }
  else s

/-- Modelled from the spec: `SampleSpec::setChannelsPolicy`, replaces the policy array. -/
def setChannelsPolicy (s : SampleSpec) (p : List ChannelsPolicy) : SampleSpec :=
  { s with channelsPolicy := p }

/-- Modelled from the spec: `SampleSpec::getChannelsPolicy(index)`. The source asserts that
the index is in range; out of range the model answers `Copy`. -/
def getChannelsPolicy (s : SampleSpec) (channel : Nat) : ChannelsPolicy :=
  s.channelsPolicy.getD channel ChannelsPolicy.Copy

/-- Modelled from the spec: `SampleSpec::isSampleSpecItemEqual`. Two specs agree on an item
when the item values are equal and, for the channel item, the channel policies are equal too
(spec 4.2, and the comment above the last test of `configureAndAddConverter`). -/
def isSampleSpecItemEqual (item : Nat) (ssSrc ssDst : SampleSpec) : Bool :=
  if ssSrc.getSampleSpecItem item ≠ ssDst.getSampleSpecItem item then false
  else (decide (item ≠ ChannelCountSampleSpecItem)) ||
    decide (ssSrc.channelsPolicy = ssDst.channelsPolicy)

def isMono (s : SampleSpec) : Bool := decide (s.channelCount = 1)

def isStereo (s : SampleSpec) : Bool := decide (s.channelCount = 2)

/-- Modelled from the spec: bytes per sample of a sample format, `audio_bytes_per_sample` of
Android's `system/audio.h` (16 bit: 2 bytes, 8 bit: 1, 32 bit and 8.24: 4, float: 4,
24 bit packed: 3, anything else: 0). -/
def audio_bytes_per_sample (format : Nat) : Nat :=
  if format = 1 then 2
  else if format = 2 then 1
  else if format = 3 then 4
  else if format = 4 then 4
  else if format = 5 then 4
  else if format = 6 then 3
  else 0

/-- Modelled from the spec: `SampleSpec::getFrameSize`,
bytes per frame = channelCount x bytesPerSample(format). -/
def getFrameSize (s : SampleSpec) : Nat :=
  s.channelCount * audio_bytes_per_sample s.format

/-- Modelled from the spec: `SampleSpec::convertFramesToBytes`,
bytes = frames x channelCount x bytesPerSample(format). -/
def convertFramesToBytes (s : SampleSpec) (frames : Nat) : Nat :=
  frames * s.getFrameSize

end SampleSpec

def AUDIO_FORMAT_PCM_16_BIT : Nat := 1

def AUDIO_FORMAT_PCM_8_24_BIT : Nat := 4

/-- The configure entry point of the three converter objects
(`mAudioConverter[item]->configure(ssSrc, ssDst)`), a parameter of the model. -/
abbrev ConverterConfigure := Nat → SampleSpec → SampleSpec → status_t

/-- State of an `AudioConversion` object.

* `mActiveAudioConvList` holds the converters of the chain; a converter pointer
  `mAudioConverter[i]` is represented by its index `i`.
* `configuredWith i` records the arguments of the latest `configure` call made on
  `mAudioConverter[i]` (the source and destination sample specs the converter holds).
* `mConvOutBuffer` is the accumulation buffer, as the bytes of the current allocation
  (no byte when the pointer is `NULL`). -/
structure AudioConversion where
  mActiveAudioConvList : List Nat
  configuredWith : Nat → Option (SampleSpec × SampleSpec)
  mConvOutBuffer : List Nat
  mConvOutBufferIndex : Nat
  mConvOutFrames : Nat
  mConvOutBufferSizeInFrames : Nat
  mSsSrc : SampleSpec
  mSsDst : SampleSpec

def emptyConversionChain (self : AudioConversion) : AudioConversion :=
  { self with mActiveAudioConvList := [] }

/-- `AudioConversion::doConfigureAndAddConverter`. Returns the status, the new object state
and the new value of the in/out parameter `*ssSrc`. -/
def doConfigureAndAddConverter (cfg : ConverterConfigure) (sampleSpecItem : Nat)
    (self : AudioConversion) (ssSrc ssDst : SampleSpec) :
    status_t × AudioConversion × SampleSpec :=
  let tmpSsDst0 := ssSrc.setSampleSpecItem sampleSpecItem (ssDst.getSampleSpecItem sampleSpecItem)
  let tmpSsDst :=
    if sampleSpecItem = ChannelCountSampleSpecItem then
      tmpSsDst0.setChannelsPolicy ssDst.channelsPolicy
    else tmpSsDst0
  let ret := cfg sampleSpecItem ssSrc tmpSsDst
  let self1 := { self with
    configuredWith := Function.update self.configuredWith sampleSpecItem (some (ssSrc, tmpSsDst)) }
  if ret ≠ NO_ERROR then (ret, self1, ssSrc)
  else
    (NO_ERROR,
      { self1 with mActiveAudioConvList := self1.mActiveAudioConvList ++ [sampleSpecItem] },
      tmpSsDst)

/-- Body of `AudioConversion::configureAndAddConverter`, by recursion on the number of items
left, `NbSampleSpecItems - sampleSpecItem`: it is `0` exactly when the item is out of range
(the first test of the source), and the recursive call on `sampleSpecItem + 1` has one
item less left. -/
def configureAndAddConverterAux (cfg : ConverterConfigure) (ssDst : SampleSpec) :
    Nat → Nat → AudioConversion → SampleSpec → status_t × AudioConversion × SampleSpec
  | 0, _, self, ssSrc => (INVALID_OPERATION, self, ssSrc)
  | left + 1, sampleSpecItem, self, ssSrc =>
    let r1 : status_t × AudioConversion × SampleSpec :=
      if ssSrc.getSampleSpecItem sampleSpecItem > ssDst.getSampleSpecItem sampleSpecItem then
        doConfigureAndAddConverter cfg sampleSpecItem self ssSrc ssDst
      else (NO_ERROR, self, ssSrc)
    if r1.1 ≠ NO_ERROR then r1
    else
      let r2 : status_t × AudioConversion × SampleSpec :=
        if sampleSpecItem + 1 < NbSampleSpecItems then
          configureAndAddConverterAux cfg ssDst left (sampleSpecItem + 1) r1.2.1 r1.2.2
        else (NO_ERROR, r1.2.1, r1.2.2)
      if r2.1 ≠ NO_ERROR then r2
      else if !SampleSpec.isSampleSpecItemEqual sampleSpecItem r2.2.2 ssDst then
        doConfigureAndAddConverter cfg sampleSpecItem r2.2.1 r2.2.2 ssDst
      else (NO_ERROR, r2.2.1, r2.2.2)

/-- `AudioConversion::configureAndAddConverter`. -/
def configureAndAddConverter (cfg : ConverterConfigure) (sampleSpecItem : Nat)
    (self : AudioConversion) (ssSrc ssDst : SampleSpec) :
    status_t × AudioConversion × SampleSpec :=
  configureAndAddConverterAux cfg ssDst (NbSampleSpecItems - sampleSpecItem) sampleSpecItem
    self ssSrc

/-- `AudioConversion::configure`. -/
def configure (cfg : ConverterConfigure) (self : AudioConversion) (ssSrc ssDst : SampleSpec) :
    status_t × AudioConversion :=
  let self0 := emptyConversionChain self
  let self1 : AudioConversion := { self0 with
    mConvOutBuffer := []
    mConvOutBufferIndex := 0
    mConvOutFrames := 0
    mConvOutBufferSizeInFrames := 0
    mSsSrc := ssSrc
    mSsDst := ssDst }
  if ssSrc = ssDst then (NO_ERROR, self1)
  else
    let r := configureAndAddConverter cfg ChannelCountSampleSpecItem self1 ssSrc ssDst
    if r.1 ≠ NO_ERROR then (r.1, r.2.1)
    else (if r.2.2 = ssDst then OK else INVALID_OPERATION, r.2.1)

/-- The destination spec handed to a converter by `doConfigureAndAddConverter`
(`tmpSsDst` in the source): the running source spec with the converter's item, and for the
remapper the channel policy, taken from the destination. -/
def nextSpec (sampleSpecItem : Nat) (ssSrc ssDst : SampleSpec) : SampleSpec :=
  let tmpSsDst0 := ssSrc.setSampleSpecItem sampleSpecItem (ssDst.getSampleSpecItem sampleSpecItem)
  if sampleSpecItem = ChannelCountSampleSpecItem then
    tmpSsDst0.setChannelsPolicy ssDst.channelsPolicy
  else tmpSsDst0

/-- Inserting the converters of a list of items one after the other with
`doConfigureAndAddConverter`, stopping at the first failure. -/
def runItems (cfg : ConverterConfigure) (ssDst : SampleSpec) :
    List Nat → AudioConversion → SampleSpec → status_t × AudioConversion × SampleSpec
  | [], self, ssSrc => (NO_ERROR, self, ssSrc)
  | item :: rest, self, ssSrc =>
    let r := doConfigureAndAddConverter cfg item self ssSrc ssDst
    if r.1 ≠ NO_ERROR then r else runItems cfg ssDst rest r.2.1 r.2.2

/-- The items whose converters a configuration from `ssSrc` to `ssDst` inserts, in order. -/
def planItems (ssSrc ssDst : SampleSpec) : List Nat :=
  (if ssSrc.channelCount > ssDst.channelCount then [ChannelCountSampleSpecItem] else []) ++
  (if ssSrc.format > ssDst.format then [FormatSampleSpecItem] else []) ++
  (if ssSrc.sampleRate ≠ ssDst.sampleRate then [RateSampleSpecItem] else []) ++
  (if ssSrc.format < ssDst.format then [FormatSampleSpecItem] else []) ++
  (if ssSrc.channelCount < ssDst.channelCount ∨
      (ssSrc.channelCount = ssDst.channelCount ∧ ssSrc.channelsPolicy ≠ ssDst.channelsPolicy)
    then [ChannelCountSampleSpecItem] else [])

/-- The chain is a path from `a` to `b`: every converter of the chain was configured with the
destination of its predecessor as source, the first with `a`, the last with destination `b`. -/
def chainPath (cw : Nat → Option (SampleSpec × SampleSpec)) :
    List Nat → SampleSpec → SampleSpec → Prop
  | [], a, b => a = b
  | c :: cs, a, b => ∃ d, cw c = some (a, d) ∧ chainPath cw cs d b

/-- The running source spec after the items of a list were inserted with success. -/
def specAfter (d : SampleSpec) : List Nat → SampleSpec → SampleSpec
  | [], a => a
  | i :: rest, a => specAfter d rest (nextSpec i a d)

/-- The part of a sample spec that belongs to an item: the item value and, for the channel
item, the channel policy. -/
def attr (i : Nat) (s : SampleSpec) : Nat × List ChannelsPolicy :=
  (s.getSampleSpecItem i, if i = ChannelCountSampleSpecItem then s.channelsPolicy else [])

/-- Items of one level around the items `inner` of the deeper levels. -/
def levelItems (i : Nat) (inner : List Nat) (a d : SampleSpec) : List Nat :=
  (if a.getSampleSpecItem i > d.getSampleSpecItem i then [i] else []) ++ inner ++
    (if a.getSampleSpecItem i > d.getSampleSpecItem i then []
      else if attr i a = attr i d then [] else [i])

/-- The fields of the object that the planning never touches. -/
def sameBuffering (s t : AudioConversion) : Prop :=
  t.mConvOutBuffer = s.mConvOutBuffer ∧ t.mConvOutBufferIndex = s.mConvOutBufferIndex ∧
  t.mConvOutFrames = s.mConvOutFrames ∧
  t.mConvOutBufferSizeInFrames = s.mConvOutBufferSizeInFrames ∧
  t.mSsSrc = s.mSsSrc ∧ t.mSsDst = s.mSsDst

/-- The object state right after the resets that open `configure`. -/
def resetState (self : AudioConversion) (ssSrc ssDst : SampleSpec) : AudioConversion :=
  { self with
    mActiveAudioConvList := []
    mConvOutBuffer := []
    mConvOutBufferIndex := 0
    mConvOutFrames := 0
    mConvOutBufferSizeInFrames := 0
    mSsSrc := ssSrc
    mSsDst := ssDst }

/-- Converters that accept every configuration. -/
def acceptAll : ConverterConfigure := fun _ _ _ => NO_ERROR

/-- A freshly constructed `AudioConversion` object. -/
def newAudioConversion : AudioConversion :=
  { mActiveAudioConvList := []
    configuredWith := fun _ => none
    mConvOutBuffer := []
    mConvOutBufferIndex := 0
    mConvOutFrames := 0
    mConvOutBufferSizeInFrames := 0
    mSsSrc := ⟨0, 0, 0, []⟩
    mSsDst := ⟨0, 0, 0, []⟩ }

/-- Stereo, 8.24 PCM, 48 kHz. -/
def stereo824at48k : SampleSpec := ⟨2, 4, 48000, [ChannelsPolicy.Copy, ChannelsPolicy.Copy]⟩

/-- Mono, 16 bit PCM, 8 kHz. -/
def mono16at8k : SampleSpec := ⟨1, 1, 8000, [ChannelsPolicy.Copy]⟩

/-- An object whose chain is not empty and whose converters were configured before. -/
def usedAudioConversion : AudioConversion :=
  { mActiveAudioConvList := [RateSampleSpecItem, FormatSampleSpecItem]
    configuredWith := fun _ => some (mono16at8k, stereo824at48k)
    mConvOutBuffer := [1, 2, 3, 4]
    mConvOutBufferIndex := 0
    mConvOutFrames := 1
    mConvOutBufferSizeInFrames := 1
    mSsSrc := mono16at8k
    mSsDst := stereo824at48k }

/-! ## AudioConversion::convert -/

/-- Memory as seen by `convert`: the byte stored at each address. Address `0` is `NULL`. -/
abbrev Mem := Nat → Nat

/-- `memcpy(dst, src, n)`: the `n` bytes at `dst` become the `n` bytes found at `src` before
the call (the regions do not overlap, as `memcpy` requires). -/
def memcpy (mem : Mem) (dst src n : Nat) : Mem :=
  fun x => if dst ≤ x ∧ x < dst + n then mem (src + (x - dst)) else mem x

/-- What a converter of the chain returns from
`pConv->convert(srcBuf, &dstBuf, srcFrames, &dstFrames)`: the status, the values of the two
out parameters, the new state of the converters and the new memory. -/
structure StageResult (σ : Type) where
  status : status_t
  dstBuf : Nat
  dstFrames : Nat
  conv : σ
  mem : Mem

/-- The `convert` entry point of the converter objects, a parameter of the model: converter
index, state of the converters, memory, `srcBuf`, value of `dstBuf` at entry, `srcFrames`. -/
abbrev StageConvert (σ : Type) := Nat → σ → Mem → Nat → Nat → Nat → StageResult σ

/-- One call of a converter of the chain, as made by `AudioConversion::convert`. -/
structure StageCall where
  converter : Nat
  srcBuf : Nat
  dstBuf : Nat
  srcFrames : Nat
  deriving DecidableEq, Repr

/-- Result of `AudioConversion::convert`: status, `*dst` and `*outFrames` after the call, the
state of the converters, the memory, and the converter calls that were made, in order. -/
structure ConvertResult (σ : Type) where
  status : status_t
  dst : Nat
  outFrames : Nat
  conv : σ
  mem : Mem
  calls : List StageCall

/-- The `for` loop of `AudioConversion::convert` over the converters that are left.
`back` is `mActiveAudioConvList.back()`, `dst` and `outFrames0` are the values of `*dst` and
`*outFrames` at entry; the loop variables are `srcBuf`, `srcFrames`, `dstBuf`, `dstFrames`
and `status`. -/
def convertLoop {σ : Type} (stage : StageConvert σ) (back dst outFrames0 : Nat) :
    List Nat → Nat → Nat → Nat → Nat → status_t → σ → Mem → List StageCall → ConvertResult σ
  | [], _, _, dstBuf, dstFrames, status, conv, mem, calls =>
    { status := status, dst := dstBuf, outFrames := dstFrames, conv := conv, mem := mem,
      calls := calls }
  | pConv :: rest, srcBuf, srcFrames, _, _, _, conv, mem, calls =>
    let dstBuf := if dst ≠ 0 ∧ pConv = back then dst else 0
    let r := stage pConv conv mem srcBuf dstBuf srcFrames
    let calls1 := calls ++ [{ converter := pConv, srcBuf := srcBuf, dstBuf := dstBuf,
                              srcFrames := srcFrames }]
    if r.status ≠ NO_ERROR then
      { status := r.status, dst := dst, outFrames := outFrames0, conv := r.conv, mem := r.mem,
        calls := calls1 }
    else
      convertLoop stage back dst outFrames0 rest r.dstBuf r.dstFrames r.dstBuf r.dstFrames
        r.status r.conv r.mem calls1

/-- `AudioConversion::convert(src, dst, inFrames, outFrames)`; `dst` and `outFrames0` are the
values of `*dst` and `*outFrames` at entry. -/
def convert {σ : Type} (stage : StageConvert σ) (self : AudioConversion) (conv : σ) (mem : Mem)
    (src dst inFrames outFrames0 : Nat) : ConvertResult σ :=
  if src = 0 then
    { status := BAD_VALUE, dst := dst, outFrames := outFrames0, conv := conv, mem := mem,
      calls := [] }
  else if self.mActiveAudioConvList.isEmpty then
    if dst ≠ 0 then
      { status := NO_ERROR, dst := dst, outFrames := inFrames, conv := conv,
        mem := memcpy mem dst src (self.mSsSrc.convertFramesToBytes inFrames), calls := [] }
    else
      { status := NO_ERROR, dst := src, outFrames := inFrames, conv := conv, mem := mem,
        calls := [] }
  else
    convertLoop stage (self.mActiveAudioConvList.getLastD 0) dst outFrames0
      self.mActiveAudioConvList src inFrames 0 0 NO_ERROR conv mem []

/-- The serial application of the chain as the specification words it: the source buffer and
frame count go to the first converter, the output buffer and frame count of each converter go
to the next one, only the last converter of the chain is handed the caller's destination
buffer, and the first failing converter ends the run with its status (the out parameters of
the caller are then left as they were). -/
def convertSpec {σ : Type} (stage : StageConvert σ) (dst outFrames0 : Nat) :
    List Nat → Nat → Nat → σ → Mem → List StageCall → ConvertResult σ
  | [], srcBuf, srcFrames, conv, mem, calls =>
    { status := NO_ERROR, dst := srcBuf, outFrames := srcFrames, conv := conv, mem := mem,
      calls := calls }
  | c :: rest, srcBuf, srcFrames, conv, mem, calls =>
    let handed := if rest = [] then dst else 0
    let r := stage c conv mem srcBuf handed srcFrames
    let calls1 := calls ++ [{ converter := c, srcBuf := srcBuf, dstBuf := handed,
                              srcFrames := srcFrames }]
    if r.status ≠ NO_ERROR then
      { status := r.status, dst := dst, outFrames := outFrames0, conv := r.conv, mem := r.mem,
        calls := calls1 }
    else convertSpec stage dst outFrames0 rest r.dstBuf r.dstFrames r.conv r.mem calls1

/-- The last converter of the list is `back`, and no converter before it is. -/
def lastIs (back : Nat) : List Nat → Prop
  | [] => True
  | [c] => c = back
  | c :: c2 :: rest => c ≠ back ∧ lastIs back (c2 :: rest)

/-- Converters for the examples: each writes nothing, returns the buffer it was handed (its
own buffer at address 1000 + index when it was handed none) and as many frames as it got;
the converter of index 1 fails with status -5 when `failing` is set. -/
def sampleStage (failing : Bool) : StageConvert Unit :=
  fun c conv mem _ dstBuf srcFrames =>
    { status := if failing ∧ c = 1 then -5 else NO_ERROR
      dstBuf := if dstBuf ≠ 0 then dstBuf else 1000 + c
      dstFrames := srcFrames
      conv := conv
      mem := mem }

/-- An object whose chain is [remapper, reformatter, resampler]. -/
def chainedAudioConversion : AudioConversion :=
  (configure acceptAll newAudioConversion stereo824at48k mono16at8k).2

/-! ## AudioRemapper -/

/-- The sample container types the remapper templates are instantiated with: `int16_t`
(16 bit PCM) and `uint32_t` (8.24 PCM). A sample is modelled by its value as a value of the
container type: an integer in [-2^15, 2^15) for `int16_t`, in [0, 2^32) for `uint32_t`. -/
inductive SampleType where
  | int16
  | uint32
  deriving DecidableEq, Repr

/-- The values of the member function pointer `mConvertSamplesFct`: the three strategies,
each instantiated for a container type. -/
inductive SampleConverter where
  | convertMonoToStereo (ty : SampleType)
  | convertStereoToMono (ty : SampleType)
  | convertChannelsPolicyInStereo (ty : SampleType)
  deriving DecidableEq, Repr

/-- The part of an `AudioRemapper` object that `configure` and the conversions use: the
source and destination sample specs stored by `configure`, and the selected strategy
(`none` is `NULL`). -/
structure AudioRemapper where
  mSsSrc : SampleSpec
  mSsDst : SampleSpec
  mConvertSamplesFct : Option SampleConverter := none

/-- Conversion of a sample to `uint64_t`, as in `dst += src[iSrcChannels]`: the value
modulo 2^64 (a negative `int16_t` is sign extended). -/
def toUInt64 (x : Int) : Nat := (x % 2 ^ 64).toNat

/-- Conversion of a `uint64_t` to the container type, as in `return dst`: the low 16 bits read
as a signed value for `int16_t`, the low 32 bits for `uint32_t`. -/
def SampleType.ofUInt64 : SampleType → Nat → Int
  | SampleType.int16, n =>
    if n % 2 ^ 16 < 2 ^ 15 then ((n % 2 ^ 16 : Nat) : Int) else ((n % 2 ^ 16 : Nat) : Int) - 2 ^ 16
  | SampleType.uint32, n => ((n % 2 ^ 32 : Nat) : Int)

/-- `AudioRemapper::getAveragedSrcFrame<type>(src)`. The loop state is the pair
(`dst`, `validSrcChannels`), a `uint64_t` and a `uint32_t`. -/
def getAveragedSrcFrame (ty : SampleType) (self : AudioRemapper) (src : Nat → Int) : Int :=
  let acc := (List.range self.mSsSrc.channelCount).foldl
    (fun (acc : Nat × Nat) iSrcChannels =>
      if self.mSsSrc.getChannelsPolicy iSrcChannels ≠ ChannelsPolicy.Ignore then
        ((acc.1 + toUInt64 (src iSrcChannels)) % 2 ^ 64, (acc.2 + 1) % 2 ^ 32)
      else acc) (0, 0)
  let dst := if acc.2 ≠ 0 then acc.1 / acc.2 else acc.1
  ty.ofUInt64 dst

/-- `AudioRemapper::convertStereoToMono<type>(src, dst, inFrames, outFrames)`: the buffers are
arrays of samples of the container type; returns the status, the destination array and
`*outFrames`. -/
def convertStereoToMono (ty : SampleType) (self : AudioRemapper) (src dst : Nat → Int)
    (inFrames : Nat) : status_t × (Nat → Int) × Nat :=
  let srcChannels := self.mSsSrc.channelCount
  let dstTyped := (List.range inFrames).foldl
    (fun (d : Nat → Int) frames =>
      Function.update d frames
        (getAveragedSrcFrame ty self (fun i => src (srcChannels * frames + i)))) dst
  (NO_ERROR, dstTyped, inFrames)

/-- A stereo 16 bit remapper source spec with the given channel policies. -/
def stereoRemapper (p0 p1 : ChannelsPolicy) : AudioRemapper :=
  { mSsSrc := ⟨2, AUDIO_FORMAT_PCM_16_BIT, 48000, [p0, p1]⟩
    mSsDst := ⟨1, AUDIO_FORMAT_PCM_16_BIT, 48000, [ChannelsPolicy.Copy]⟩ }

/-- Two stereo frames: (-32768, -32768) and (-3, 0). -/
def sampleStereo : Nat → Int := fun i => if i < 2 then -32768 else if i = 2 then -3 else 0

/-! ## AudioConversion::getConvertedBuffer -/

def mMaxRate : Nat := 92000

def mMinRate : Nat := 8000

def mAllocBufferMultFactor : Nat := 2

/-- Modelled from the spec: `AudioUtils::convertSrcToDstInFrames(frames, ssSrc, ssDst)`, the
frame count of the same duration at the rate of `ssDst`, rounded up (only its declaration
is in `AudioUtils.hpp`). -/
def convertSrcToDstInFrames (frames : Nat) (ssSrc ssDst : SampleSpec) : Nat :=
  (frames * ssDst.sampleRate + ssSrc.sampleRate - 1) / ssSrc.sampleRate

/-- An `AudioBufferProvider::Buffer`: the bytes found at `raw` (those of the frames the
provider granted) and `frameCount`. -/
structure Buffer where
  raw : List Nat
  frameCount : Nat
  deriving DecidableEq, Repr

/-- What `getConvertedBuffer` calls outside of the object, on an external state `ω` (provider,
converters, allocator):

* `getNextBuffer w n` is `bufferProvider->getNextBuffer(&buffer)` with
  `buffer.frameCount = n`: status, the buffer as the provider filled it, new state;
* `releaseBuffer w b` is `bufferProvider->releaseBuffer(&buffer)`;
* `convert w b` is `convert(buffer.raw, &convBuf, buffer.frameCount, &convertedFrames)` with
  `convBuf` inside the accumulation buffer: status, `convertedFrames`, the bytes the chain
  wrote at `convBuf` (byte `i` of the output, for `i` below the size of `convertedFrames`
  frames) and the new state;
* `realloc w n` is `realloc(mConvOutBuffer, n)`: `none` when it fails, otherwise the
  content of the bytes that the block gains (the bytes it had are kept). -/
structure Externals (ω : Type) where
  getNextBuffer : ω → Nat → status_t × Buffer × ω
  releaseBuffer : ω → Buffer → ω
  convert : ω → Buffer → status_t × Nat × (Nat → Nat) × ω
  realloc : ω → Nat → Option (Nat → Nat) × ω

/-- The external calls made by `getConvertedBuffer`, in order. -/
inductive Event where
  | realloc (bytes : Nat) (ok : Bool)
  | getNextBuffer (requested : Nat) (status : status_t) (buffer : Buffer)
  | convert (buffer : Buffer) (status : status_t) (convertedFrames : Nat) (written : List Nat)
  | releaseBuffer (buffer : Buffer)
  deriving DecidableEq, Repr

/-- Runs that have no result in the model: the loop did not end within the fuel, or an access
fell outside of the accumulation buffer (undefined behaviour in the source). -/
inductive Abort where
  | outOfFuel
  | outOfBounds
  deriving DecidableEq, Repr

/-- Result of `getConvertedBuffer`: status, the bytes copied into the caller's buffer (`none`
when the copy was not reached), the object, the external state, the external calls. -/
structure PullResult (ω : Type) where
  status : status_t
  dst : Option (List Nat)
  self : AudioConversion
  world : ω
  events : List Event

/-- The block after a successful `realloc(buf, n)`: the first `n` bytes of the old block, then
the bytes gained. -/
def reallocBlock (buf : List Nat) (n : Nat) (fresh : Nat → Nat) : List Nat :=
  buf.take n ++ (List.range (n - buf.length)).map fresh

/-- Writing `data` at byte offset `off` of the accumulation buffer; `none` when the bytes do
not fit in the allocation. -/
def writeAt (buf : List Nat) (off : Nat) (data : List Nat) : Option (List Nat) :=
  if off + data.length ≤ buf.length then
    some (buf.take off ++ data ++ buf.drop (off + data.length))
  else none

/-- The `while (framesRequested != 0)` loop of `getConvertedBuffer`. -/
def pullLoop {ω : Type} (ext : Externals ω) :
    Nat → AudioConversion → ω → Nat → List Event →
      Except Abort (status_t × AudioConversion × ω × List Event)
  | _, self, w, 0, events => Except.ok (NO_ERROR, self, w, events)
  | 0, _, _, _ + 1, _ => Except.error Abort.outOfFuel
  | fuel + 1, self, w, n + 1, events =>
    let framesRequested := n + 1
    let frameCount := convertSrcToDstInFrames framesRequested self.mSsDst self.mSsSrc
    let got := ext.getNextBuffer w frameCount
    let events1 := events ++ [Event.getNextBuffer frameCount got.1 got.2.1]
    if got.1 ≠ NO_ERROR then Except.ok (got.1, self, got.2.2, events1)
    else
      let buffer := got.2.1
      let cv := ext.convert got.2.2 buffer
      let convertedFrames := cv.2.1
      let written :=
        (List.range (self.mSsDst.convertFramesToBytes convertedFrames)).map cv.2.2.1
      if cv.1 ≠ NO_ERROR then
        Except.ok (cv.1, self, ext.releaseBuffer cv.2.2.2 buffer,
          events1 ++ [Event.convert buffer cv.1 convertedFrames [], Event.releaseBuffer buffer])
      else
        match writeAt self.mConvOutBuffer self.mConvOutBufferIndex written with
        | none => Except.error Abort.outOfBounds
        | some buf =>
          let self1 := { self with
            mConvOutBuffer := buf
            mConvOutFrames := self.mConvOutFrames + convertedFrames
            mConvOutBufferIndex :=
              self.mConvOutBufferIndex + self.mSsDst.convertFramesToBytes convertedFrames }
          let framesToCopy := min framesRequested convertedFrames
          pullLoop ext fuel self1 (ext.releaseBuffer cv.2.2.2 buffer)
            (framesRequested - framesToCopy)
            (events1 ++ [Event.convert buffer cv.1 convertedFrames written,
              Event.releaseBuffer buffer])

/-- The end of `getConvertedBuffer`: copy of `outFrames` frames to the caller, move of the
remaining frames to the start of the buffer, reset of the index. Returns the bytes copied
and the object. The subtraction `mConvOutFrames -= outFrames` is reached from the loop with
`mConvOutFrames` at least `outFrames` (see `getConvertedBuffer_ok`), so that it does not
wrap. -/
def copyOut (self : AudioConversion) (outFrames : Nat) :
    Except Abort (List Nat × AudioConversion) :=
  let n := self.mSsDst.convertFramesToBytes outFrames
  if n > self.mConvOutBuffer.length then Except.error Abort.outOfBounds
  else
    let dst := self.mConvOutBuffer.take n
    let self1 := { self with mConvOutFrames := self.mConvOutFrames - outFrames }
    if self1.mConvOutFrames ≠ 0 then
      let m := self1.mSsDst.convertFramesToBytes self1.mConvOutFrames
      if n + m > self1.mConvOutBuffer.length then Except.error Abort.outOfBounds
      else
        let moved := (self1.mConvOutBuffer.drop n).take m
        Except.ok (dst, { self1 with
          mConvOutBuffer := moved ++ self1.mConvOutBuffer.drop m
          mConvOutBufferIndex := 0 })
    else Except.ok (dst, { self1 with mConvOutBufferIndex := 0 })

/-- The value of a `size_t` expression (64 bits): the arithmetic is modulo 2^64. -/
def sizeT (n : Nat) : Nat := n % 2 ^ 64

/-- First block of `getConvertedBuffer`: "Realloc the Output of the conversion if required
(with margin of the worst case)". The new capacity and the size handed to `realloc` are
`size_t` values. Returns whether the block went through (`false` when `realloc` failed),
the object, the external state and the external calls. -/
def growBuffer {ω : Type} (ext : Externals ω) (self : AudioConversion) (w : ω)
    (outFrames : Nat) : Bool × AudioConversion × ω × List Event :=
  if self.mConvOutBufferSizeInFrames < outFrames then
    let self1 := { self with
      mConvOutBufferSizeInFrames :=
        sizeT (outFrames + (mMaxRate / mMinRate) * mAllocBufferMultFactor) }
    let bytes := sizeT (self1.mSsDst.convertFramesToBytes self1.mConvOutBufferSizeInFrames)
    let re := ext.realloc w bytes
    match re.1 with
    | none => (false, self1, re.2, [Event.realloc bytes false])
    | some fresh =>
      (true, { self1 with mConvOutBuffer := reallocBlock self1.mConvOutBuffer bytes fresh },
        re.2, [Event.realloc bytes true])
  else (true, self, w, [])

/-- Second block of `getConvertedBuffer`: "Frames are already available from the
ConvOutBuffer, empty it first!". Returns `framesRequested` and the object. -/
def drainBuffered (self : AudioConversion) (outFrames : Nat) : Nat × AudioConversion :=
  if self.mConvOutFrames ≠ 0 then
    let frameToCopy := min outFrames self.mConvOutFrames
    (outFrames - frameToCopy, { self with
      mConvOutBufferIndex :=
        self.mConvOutBufferIndex + self.mSsDst.convertFramesToBytes frameToCopy })
  else (outFrames, self)

/-- `AudioConversion::getConvertedBuffer(dst, outFrames, bufferProvider)`. `dstValid` and
`providerValid` tell whether the two pointers are not null; `fuel` bounds the number of
iterations of the loop. -/
def getConvertedBuffer {ω : Type} (ext : Externals ω) (fuel : Nat) (self : AudioConversion)
    (w : ω) (dstValid providerValid : Bool) (outFrames : Nat) :
    Except Abort (PullResult ω) :=
  if !providerValid || !dstValid then
    Except.ok { status := BAD_VALUE, dst := none, self := self, world := w, events := [] }
  else if self.mActiveAudioConvList.isEmpty then
    Except.ok { status := NO_INIT, dst := none, self := self, world := w, events := [] }
  else
    let grown := growBuffer ext self w outFrames
    if !grown.1 then
      Except.ok { status := NO_MEMORY, dst := none, self := grown.2.1, world := grown.2.2.1,
                  events := grown.2.2.2 }
    else
      let drained := drainBuffered grown.2.1 outFrames
      match pullLoop ext fuel drained.2 grown.2.2.1 drained.1 grown.2.2.2 with
      | Except.error e => Except.error e
      | Except.ok (status, self3, w3, events3) =>
        if status ≠ NO_ERROR then
          Except.ok { status := status, dst := none, self := self3, world := w3,
                      events := events3 }
        else
          match copyOut self3 outFrames with
          | Except.error e => Except.error e
          | Except.ok (dst, self4) =>
            Except.ok { status := NO_ERROR, dst := some dst, self := self4, world := w3,
                        events := events3 }

/-- The bytes written into the accumulation buffer by the conversions of a list of events. -/
def writtenBytes : List Event → List Nat
  | [] => []
  | Event.convert _ _ _ written :: rest => written ++ writtenBytes rest
  | _ :: rest => writtenBytes rest

/-- The number of frames converted with success in a list of events. -/
def convertedFrames : List Event → Nat
  | [] => 0
  | Event.convert _ status n _ :: rest =>
    (if status = NO_ERROR then n else 0) + convertedFrames rest
  | _ :: rest => convertedFrames rest

/-! ### A concrete provider and conversion -/

/-- Mono, 8 bit PCM, 16 kHz. -/
def mono8at16k : SampleSpec := ⟨1, 2, 16000, [ChannelsPolicy.Copy]⟩

/-- Stereo, 8 bit PCM, 8 kHz. -/
def stereo8at8k : SampleSpec := ⟨2, 2, 8000, [ChannelsPolicy.Copy, ChannelsPolicy.Copy]⟩

/-- Every byte twice: a conversion that works frame by frame. -/
def twice : List Nat → List Nat
  | [] => []
  | x :: xs => x :: x :: twice xs

/-- A provider that serves a fixed stream of one-byte source frames, at most three per call
(the external state is what is left of the stream; an exhausted stream is an error), a
conversion that writes every source byte twice, and an allocator that never fails. -/
def streamExternals : Externals (List Nat) :=
  { getNextBuffer := fun w n =>
      if w = [] then (-1, ⟨[], 0⟩, w)
      else (NO_ERROR, ⟨w.take (min n 3), (w.take (min n 3)).length⟩, w.drop (min n 3))
    releaseBuffer := fun w _ => w
    convert := fun w b => (NO_ERROR, b.raw.length, fun i => (twice b.raw).getD i 0, w)
    realloc := fun w _ => (some (fun _ => 0), w) }

/-- An object configured from mono 8 bit 16 kHz to stereo 8 bit 8 kHz. -/
def pullEngine : AudioConversion :=
  (configure acceptAll newAudioConversion mono8at16k stereo8at8k).2

/-- The result of a run, for runs that have one. -/
def resultOf {ω : Type} (d : PullResult ω) : Except Abort (PullResult ω) → PullResult ω
  | Except.ok r => r
  | Except.error _ => d

/-- Result of a first request of 2 frames on the stream 1, 2, ..., 9. -/
def firstPull : PullResult (List Nat) :=
  resultOf ⟨0, none, pullEngine, [], []⟩
    (getConvertedBuffer streamExternals 10 pullEngine [1, 2, 3, 4, 5, 6, 7, 8, 9] true true 2)

/-- Result of a second request, of 3 frames, after `firstPull`. -/
def secondPull : PullResult (List Nat) :=
  resultOf ⟨0, none, pullEngine, [], []⟩
    (getConvertedBuffer streamExternals 10 firstPull.self firstPull.world true true 3)

/-- Result of a single request of 5 frames on the stream 1, 2, ..., 9. -/
def singlePull : PullResult (List Nat) :=
  resultOf ⟨0, none, pullEngine, [], []⟩
    (getConvertedBuffer streamExternals 10 pullEngine [1, 2, 3, 4, 5, 6, 7, 8, 9] true true 5)

/-- The provider of `streamExternals` with one transient failure: the external state is the
rest of the stream and a countdown; the call of `getNextBuffer` made when the countdown is 1
fails with status -11 and consumes nothing, every other call serves the stream. -/
def flakyExternals : Externals (List Nat × Nat) :=
  { getNextBuffer := fun w n =>
      if w.2 = 1 then (-11, ⟨[], 0⟩, (w.1, 0))
      else if w.1 = [] then (-1, ⟨[], 0⟩, w)
      else (NO_ERROR, ⟨w.1.take (min n 3), (w.1.take (min n 3)).length⟩,
        (w.1.drop (min n 3), w.2 - 1))
    releaseBuffer := fun w _ => w
    convert := fun w b => (NO_ERROR, b.raw.length, fun i => (twice b.raw).getD i 0, w)
    realloc := fun w _ => (some (fun _ => 0), w) }

/-- A first request of 2 frames on the stream 1, 2, ..., 9: it succeeds and leaves one frame
buffered. -/
def flakyFirst : PullResult (List Nat × Nat) :=
  resultOf ⟨0, none, pullEngine, ([], 0), []⟩
    (getConvertedBuffer flakyExternals 10 pullEngine ([1, 2, 3, 4, 5, 6, 7, 8, 9], 2)
      true true 2)

/-- A request of 3 frames after `flakyFirst`: the provider fails, and so does the request. -/
def flakyFailed : PullResult (List Nat × Nat) :=
  resultOf ⟨0, none, pullEngine, ([], 0), []⟩
    (getConvertedBuffer flakyExternals 10 flakyFirst.self flakyFirst.world true true 3)

/-- After the failed request: a request of 1 frame. -/
def afterFailureN : PullResult (List Nat × Nat) :=
  resultOf ⟨0, none, pullEngine, ([], 0), []⟩
    (getConvertedBuffer flakyExternals 10 flakyFailed.self flakyFailed.world true true 1)

/-- After the failed request and the request of 1 frame: another request of 1 frame. -/
def afterFailureM : PullResult (List Nat × Nat) :=
  resultOf ⟨0, none, pullEngine, ([], 0), []⟩
    (getConvertedBuffer flakyExternals 10 afterFailureN.self afterFailureN.world true true 1)

/-- After the failed request: a single request of 2 frames. -/
def afterFailureSingle : PullResult (List Nat × Nat) :=
  resultOf ⟨0, none, pullEngine, ([], 0), []⟩
    (getConvertedBuffer flakyExternals 10 flakyFailed.self flakyFailed.world true true (1 + 1))

/-! ## AudioRemapper: configure and the other strategies -/

/-- Modelled from the spec: the `Channel` enumeration of `AudioRemapper.hpp`, the position of
a channel in an interleaved stereo frame (left first). -/
def Left : Nat := 0

/-- Modelled from the spec: see `Left`. -/
def Right : Nat := 1

/-- Modelled from the spec: the base class `AudioConverter::configure(ssSrc, ssDst)`
(`AudioConverter.cpp` is not among the sources). The converter keeps "its own src/dst
StreamFormat snapshot (set at configure time)" and "resets" its strategy (spec 3 and 4.2);
the status of its check is the parameter `baseCheck`. -/
def AudioConverter.configure (baseCheck : SampleSpec → SampleSpec → status_t)
    (self : AudioRemapper) (ssSrc ssDst : SampleSpec) : status_t × AudioRemapper :=
  (baseCheck ssSrc ssDst,
    { self with mSsSrc := ssSrc, mSsDst := ssDst, mConvertSamplesFct := none })

/-- The template `AudioRemapper::configure<type>()`. -/
def AudioRemapper.configureTyped (ty : SampleType) (self : AudioRemapper) :
    status_t × AudioRemapper :=
  if self.mSsSrc.isMono && self.mSsDst.isStereo then
    (OK, { self with mConvertSamplesFct := some (SampleConverter.convertMonoToStereo ty) })
  else if self.mSsSrc.isStereo && self.mSsDst.isMono then
    (OK, { self with mConvertSamplesFct := some (SampleConverter.convertStereoToMono ty) })
  else if self.mSsSrc.isStereo && self.mSsDst.isStereo then
    -- Iso channel, checks the channels policy
    if !SampleSpec.isSampleSpecItemEqual ChannelCountSampleSpecItem self.mSsSrc self.mSsDst then
      (OK, { self with
        mConvertSamplesFct := some (SampleConverter.convertChannelsPolicyInStereo ty) })
    else (OK, self)
  else (INVALID_OPERATION, self)

/-- `AudioRemapper::configure(ssSrc, ssDst)`. -/
def AudioRemapper.configure (baseCheck : SampleSpec → SampleSpec → status_t)
    (self : AudioRemapper) (ssSrc ssDst : SampleSpec) : status_t × AudioRemapper :=
  let r := AudioConverter.configure baseCheck self ssSrc ssDst
  if r.1 ≠ NO_ERROR then r
  else if ssSrc.format = AUDIO_FORMAT_PCM_16_BIT then
    AudioRemapper.configureTyped SampleType.int16 r.2
  else if ssSrc.format = AUDIO_FORMAT_PCM_8_24_BIT then
    AudioRemapper.configureTyped SampleType.uint32 r.2
  else (INVALID_OPERATION, r.2)

/-- `AudioRemapper::convertMonoToStereo<type>(src, dst, inFrames, outFrames)`; returns the
status, the destination array and `*outFrames`. -/
def convertMonoToStereo (_ty : SampleType) (self : AudioRemapper) (src dst : Nat → Int)
    (inFrames : Nat) : status_t × (Nat → Int) × Nat :=
  let dstChannels := self.mSsDst.channelCount
  let dstTyped := (List.range inFrames).foldl
    (fun (d : Nat → Int) frames =>
      (List.range dstChannels).foldl
        (fun (d : Nat → Int) channels =>
          if self.mSsDst.getChannelsPolicy channels ≠ ChannelsPolicy.Ignore then
            Function.update d (dstChannels * frames + channels) (src frames)
          else d) d) dst
  (NO_ERROR, dstTyped, inFrames)

/-- `AudioRemapper::convertSample<type>(src, channel)`. -/
def convertSample (ty : SampleType) (self : AudioRemapper) (src : Nat → Int) (channel : Nat) :
    Int :=
  let dstPolicy := self.mSsDst.getChannelsPolicy channel
  if dstPolicy = ChannelsPolicy.Ignore then
    -- Destination policy is Ignore, so set to null dest sample
    0
  else if dstPolicy = ChannelsPolicy.Average then
    -- Destination policy is average, so average on all channels of the source frame
    getAveragedSrcFrame ty self src
  -- Destination policy is Copy, so copy only if source channel policy is not ignore
  else if self.mSsSrc.getChannelsPolicy channel ≠ ChannelsPolicy.Ignore then
    src channel
  -- Even if policy is Copy, if the source channel is Ignore,
  -- take the average of the other source channels
  else getAveragedSrcFrame ty self src

/-- `AudioRemapper::convertChannelsPolicyInStereo<type>(src, dst, inFrames, outFrames)`: the
destination is an array of `struct Stereo { type leftCh; type rightCh; }`, that is of pairs
of samples; returns the status, the destination array and `*outFrames`. -/
def convertChannelsPolicyInStereo (ty : SampleType) (self : AudioRemapper)
    (src dst : Nat → Int) (inFrames : Nat) : status_t × (Nat → Int) × Nat :=
  let srcChannels := self.mSsSrc.channelCount
  let dstTyped := (List.range inFrames).foldl
    (fun (d : Nat → Int) frames =>
      Function.update
        (Function.update d (2 * frames)
          (convertSample ty self (fun i => src (srcChannels * frames + i)) Left))
        (2 * frames + 1)
        (convertSample ty self (fun i => src (srcChannels * frames + i)) Right)) dst
  (NO_ERROR, dstTyped, inFrames)

/-- A sample value is a value of the container type. -/
def SampleType.holds : SampleType → Int → Prop
  | SampleType.int16, x => -32768 ≤ x ∧ x ≤ 32767
  | SampleType.uint32, x => 0 ≤ x ∧ x < 4294967296

instance SampleType.decidableHolds (ty : SampleType) (x : Int) : Decidable (ty.holds x) := by
  cases ty <;> unfold SampleType.holds <;> infer_instance

/-- The average of the source channels of a stereo frame whose policy is not Ignore, as the
specification words it: the integer (floor) mean of the counted samples, the counted sample
when one counts, 0 when none counts. -/
def averageOfCounted (p0 p1 : ChannelsPolicy) (a b : Int) : Int :=
  if p0 ≠ ChannelsPolicy.Ignore ∧ p1 ≠ ChannelsPolicy.Ignore then Int.fdiv (a + b) 2
  else if p0 ≠ ChannelsPolicy.Ignore then a
  else if p1 ≠ ChannelsPolicy.Ignore then b
  else 0

/-- The signed value of an 8.24 sample held in a 32 bit container (two's complement). -/
def signed32 (u : Int) : Int := if u < 2147483648 then u else u - 4294967296

/-- A remapper configured from mono to stereo, 16 bit, with the given destination policies. -/
def monoToStereoRemapper (q0 q1 : ChannelsPolicy) : AudioRemapper :=
  { mSsSrc := ⟨1, AUDIO_FORMAT_PCM_16_BIT, 48000, [ChannelsPolicy.Copy]⟩
    mSsDst := ⟨2, AUDIO_FORMAT_PCM_16_BIT, 48000, [q0, q1]⟩ }

/-- A stereo to stereo 16 bit remapper with the given source and destination policies. -/
def policyRemapper (p0 p1 q0 q1 : ChannelsPolicy) : AudioRemapper :=
  { mSsSrc := ⟨2, AUDIO_FORMAT_PCM_16_BIT, 48000, [p0, p1]⟩
    mSsDst := ⟨2, AUDIO_FORMAT_PCM_16_BIT, 48000, [q0, q1]⟩ }

/-- A stereo to mono remapper for 8.24 PCM, both source channels at Copy. -/
def stereo824Remapper : AudioRemapper :=
  { mSsSrc := ⟨2, AUDIO_FORMAT_PCM_8_24_BIT, 48000, [ChannelsPolicy.Copy, ChannelsPolicy.Copy]⟩
    mSsDst := ⟨1, AUDIO_FORMAT_PCM_8_24_BIT, 48000, [ChannelsPolicy.Copy]⟩ }

/-- One stereo 8.24 frame: the samples -1 (0xFFFFFFFF in the container) and 1. -/
def oppositeSigns : Nat → Int := fun i => if i = 0 then 4294967295 else 1

/-- A base class check that passes. -/
def basePasses : SampleSpec → SampleSpec → status_t := fun _ _ => NO_ERROR

/-! ### The provider protocol on the external calls -/

/-- The provider protocol read on a list of external calls, `held` being the buffer acquired
and not yet released: `getNextBuffer` is called with no buffer held and acquires one exactly
when it returns NO_ERROR, `releaseBuffer` is called on the buffer held and on nothing else,
and no buffer is held at the end. -/
def releasesBalanced : Option Buffer → List Event → Bool
  | held, [] => held.isNone
  | held, Event.getNextBuffer _ status buffer :: rest =>
    held.isNone && releasesBalanced (if status = NO_ERROR then some buffer else none) rest
  | held, Event.releaseBuffer buffer :: rest =>
    decide (held = some buffer) && releasesBalanced none rest
  | held, Event.realloc _ _ :: rest => releasesBalanced held rest
  | held, Event.convert _ _ _ _ :: rest => releasesBalanced held rest

/-- The number of `getNextBuffer` calls that returned NO_ERROR. -/
def acquiredCount : List Event → Nat
  | [] => 0
  | Event.getNextBuffer _ status _ :: rest =>
    (if status = NO_ERROR then 1 else 0) + acquiredCount rest
  | Event.releaseBuffer _ :: rest => acquiredCount rest
  | Event.realloc _ _ :: rest => acquiredCount rest
  | Event.convert _ _ _ _ :: rest => acquiredCount rest

/-- The number of `releaseBuffer` calls. -/
def releasedCount : List Event → Nat
  | [] => 0
  | Event.releaseBuffer _ :: rest => 1 + releasedCount rest
  | Event.getNextBuffer _ _ _ :: rest => releasedCount rest
  | Event.realloc _ _ :: rest => releasedCount rest
  | Event.convert _ _ _ _ :: rest => releasedCount rest

/-- The externals of `streamExternals` with a conversion that fails with status -5. -/
def failingConvertExternals : Externals (List Nat) :=
  { streamExternals with convert := fun w _ => (-5, 0, fun _ => 0, w) }

/-- A request of 2 frames whose conversion fails. -/
def failedConvertPull : PullResult (List Nat) :=
  resultOf ⟨0, none, pullEngine, [], []⟩
    (getConvertedBuffer failingConvertExternals 10 pullEngine [1, 2, 3, 4, 5, 6, 7, 8, 9]
      true true 2)

/-! ### A configuration that fails -/

/-- Converters of which the reformatter rejects every configuration with BAD_VALUE. -/
def rejectReformat : ConverterConfigure :=
  fun i _ _ => if i = FormatSampleSpecItem then BAD_VALUE else NO_ERROR

/-- The object left by a `configure` from stereo 8.24 48 kHz to mono 16 bit 8 kHz whose
reformatter fails. -/
def partialAudioConversion : AudioConversion :=
  (configure rejectReformat newAudioConversion stereo824at48k mono16at8k).2

/-- A request of 1 frame on the object left by the failed `configure`. -/
def partialPull : PullResult (List Nat) :=
  resultOf ⟨0, none, partialAudioConversion, [], []⟩
    (getConvertedBuffer streamExternals 10 partialAudioConversion [1, 2, 3, 4, 5, 6, 7, 8, 9]
      true true 1)

/-! ### Reading the external calls of the pull loop -/

/-- Whether an external call is a `realloc`. -/
def isRealloc : Event → Bool
  | Event.realloc _ _ => true
  | _ => false

/-- The number of `getNextBuffer` calls, whatever their status: the number of iterations of
the pull loop that were started. -/
def pullCount : List Event → Nat
  | [] => 0
  | Event.getNextBuffer _ _ _ :: rest => 1 + pullCount rest
  | Event.releaseBuffer _ :: rest => pullCount rest
  | Event.realloc _ _ :: rest => pullCount rest
  | Event.convert _ _ _ _ :: rest => pullCount rest

/-- The frame counts requested from the provider, read on the external calls of a request
with `remaining` destination frames still needed: each `getNextBuffer` asks for
`convertSrcToDstInFrames remaining ssDst ssSrc` frames, and each successful conversion
of `convertedFrames` frames leaves `remaining - min remaining convertedFrames` frames
needed. -/
def requestsFollow (ssDst ssSrc : SampleSpec) : Nat → List Event → Bool
  | _, [] => true
  | remaining, Event.getNextBuffer requested _ _ :: rest =>
    decide (requested = convertSrcToDstInFrames remaining ssDst ssSrc) &&
      requestsFollow ssDst ssSrc remaining rest
  | remaining, Event.convert _ status convertedFrames _ :: rest =>
    requestsFollow ssDst ssSrc
      (if status = NO_ERROR then remaining - min remaining convertedFrames else remaining) rest
  | remaining, Event.releaseBuffer _ :: rest => requestsFollow ssDst ssSrc remaining rest
  | remaining, Event.realloc _ _ :: rest => requestsFollow ssDst ssSrc remaining rest

/-- The stream of the one-byte source frames 0, 1, ..., 39. -/
def longStream : List Nat := List.range 40

/-- A first request, of 1 frame, on the stream 0, 1, ..., 39. -/
def smallPull : PullResult (List Nat) :=
  resultOf ⟨0, none, pullEngine, [], []⟩
    (getConvertedBuffer streamExternals 20 pullEngine longStream true true 1)

/-- A first request, of 25 frames, on the stream 0, 1, ..., 39 with a provider whose ninth
call fails. -/
def longFailed : PullResult (List Nat × Nat) :=
  resultOf ⟨0, none, pullEngine, ([], 0), []⟩
    (getConvertedBuffer flakyExternals 20 pullEngine (longStream, 9) true true 25)

/-- The outcome of a run of the pull loop, for runs that have one. -/
def loopOutcome {ω : Type} (d : status_t × AudioConversion × ω × List Event) :
    Except Abort (status_t × AudioConversion × ω × List Event) →
      status_t × AudioConversion × ω × List Event
  | Except.ok r => r
  | Except.error _ => d

/-- The pull loop of the request of 3 frames made after `firstPull`. -/
def secondLoop : status_t × AudioConversion × List Nat × List Event :=
  loopOutcome (0, pullEngine, [], [])
    (pullLoop streamExternals 10
      (drainBuffered (growBuffer streamExternals firstPull.self firstPull.world 3).2.1 3).2
      (growBuffer streamExternals firstPull.self firstPull.world 3).2.2.1
      (drainBuffered (growBuffer streamExternals firstPull.self firstPull.world 3).2.1 3).1
      (growBuffer streamExternals firstPull.self firstPull.world 3).2.2.2)

/-! ### A request near the top of `size_t` -/

/-- Stereo, 8.24 PCM, 48 kHz, with the policies Average and Copy. -/
def stereo824Averaged : SampleSpec :=
  ⟨2, AUDIO_FORMAT_PCM_8_24_BIT, 48000, [ChannelsPolicy.Average, ChannelsPolicy.Copy]⟩

/-- The remapper after `configure` from stereo 8.24 with both channels at Copy to stereo 8.24
with the left channel at Average and the right channel at Copy. -/
def average824Remapper : AudioRemapper :=
  (AudioRemapper.configure basePasses stereo824Remapper stereo824at48k stereo824Averaged).2

theorem doConfigure_eq (cfg : ConverterConfigure) (i : Nat) (self : AudioConversion)
    (a d : SampleSpec) :
    doConfigureAndAddConverter cfg i self a d =
      if cfg i a (nextSpec i a d) ≠ NO_ERROR then
        (cfg i a (nextSpec i a d),
          { self with configuredWith :=
              Function.update self.configuredWith i (some (a, nextSpec i a d)) }, a)
      else
        (NO_ERROR,
          { self with
            configuredWith := Function.update self.configuredWith i (some (a, nextSpec i a d))
            mActiveAudioConvList := self.mActiveAudioConvList ++ [i] }, nextSpec i a d) := by
  unfold doConfigureAndAddConverter nextSpec
  by_cases h : i = ChannelCountSampleSpecItem <;> simp [h]

theorem runItems_append (cfg : ConverterConfigure) (d : SampleSpec) (xs ys : List Nat) :
    ∀ (self : AudioConversion) (a : SampleSpec),
      runItems cfg d (xs ++ ys) self a =
        if (runItems cfg d xs self a).1 ≠ NO_ERROR then runItems cfg d xs self a
        else runItems cfg d ys (runItems cfg d xs self a).2.1 (runItems cfg d xs self a).2.2 := by
  induction xs with
  | nil => intro self a; simp [runItems]
  | cons x xs ih =>
    intro self a
    simp only [List.cons_append, runItems]
    by_cases h : (doConfigureAndAddConverter cfg x self a d).1 ≠ NO_ERROR
    · simp [h]
    · simp only [h, if_false]
      exact ih _ _

@[simp] theorem nextSpec_rate (a d : SampleSpec) :
    nextSpec 2 a d = { a with sampleRate := d.sampleRate } := by
  simp [nextSpec, SampleSpec.setSampleSpecItem, SampleSpec.getSampleSpecItem,
    ChannelCountSampleSpecItem, FormatSampleSpecItem, RateSampleSpecItem]

@[simp] theorem nextSpec_format (a d : SampleSpec) :
    nextSpec 1 a d = { a with format := d.format } := by
  simp [nextSpec, SampleSpec.setSampleSpecItem, SampleSpec.getSampleSpecItem,
    ChannelCountSampleSpecItem, FormatSampleSpecItem, RateSampleSpecItem]

@[simp] theorem nextSpec_channels (a d : SampleSpec) :
    nextSpec 0 a d =
      { a with channelCount := d.channelCount, channelsPolicy := d.channelsPolicy } := by
  simp [nextSpec, SampleSpec.setSampleSpecItem, SampleSpec.getSampleSpecItem,
    SampleSpec.setChannelsPolicy, ChannelCountSampleSpecItem, FormatSampleSpecItem,
    RateSampleSpecItem]

@[simp] theorem getItem_channels (a : SampleSpec) : a.getSampleSpecItem 0 = a.channelCount := by
  simp [SampleSpec.getSampleSpecItem, ChannelCountSampleSpecItem]

@[simp] theorem getItem_format (a : SampleSpec) : a.getSampleSpecItem 1 = a.format := by
  simp [SampleSpec.getSampleSpecItem, ChannelCountSampleSpecItem, FormatSampleSpecItem]

@[simp] theorem getItem_rate (a : SampleSpec) : a.getSampleSpecItem 2 = a.sampleRate := by
  simp [SampleSpec.getSampleSpecItem, ChannelCountSampleSpecItem, FormatSampleSpecItem,
    RateSampleSpecItem]

theorem isEqual_rate (a d : SampleSpec) :
    SampleSpec.isSampleSpecItemEqual 2 a d = decide (a.sampleRate = d.sampleRate) := by
  by_cases h : a.sampleRate = d.sampleRate <;>
    simp [SampleSpec.isSampleSpecItemEqual, ChannelCountSampleSpecItem, h]

theorem isEqual_format (a d : SampleSpec) :
    SampleSpec.isSampleSpecItemEqual 1 a d = decide (a.format = d.format) := by
  by_cases h : a.format = d.format <;>
    simp [SampleSpec.isSampleSpecItemEqual, ChannelCountSampleSpecItem, h]

theorem isEqual_channels (a d : SampleSpec) :
    SampleSpec.isSampleSpecItemEqual 0 a d =
      decide (a.channelCount = d.channelCount ∧ a.channelsPolicy = d.channelsPolicy) := by
  by_cases h : a.channelCount = d.channelCount <;>
    simp [SampleSpec.isSampleSpecItemEqual, ChannelCountSampleSpecItem, h]

theorem runItems_rate_level (cfg : ConverterConfigure) (d : SampleSpec) (self : AudioConversion)
    (a : SampleSpec) :
    configureAndAddConverterAux cfg d 1 2 self a =
      runItems cfg d (if a.sampleRate ≠ d.sampleRate then [2] else []) self a := by
  simp only [configureAndAddConverterAux, doConfigure_eq, NbSampleSpecItems, getItem_rate,
    isEqual_rate, nextSpec_rate]
  by_cases h1 : a.sampleRate = d.sampleRate
  · simp [h1, runItems]
  · by_cases h2 : a.sampleRate > d.sampleRate
    · by_cases h3 : cfg 2 a { a with sampleRate := d.sampleRate } = NO_ERROR
      · simp [h1, h2, h3, runItems, doConfigure_eq]
      · simp [h1, h2, h3, runItems, doConfigure_eq]
    · by_cases h3 : cfg 2 a { a with sampleRate := d.sampleRate } = NO_ERROR
      · simp [h1, h2, h3, runItems, doConfigure_eq]
      · simp [h1, h2, h3, runItems, doConfigure_eq]

theorem aux_succ (cfg : ConverterConfigure) (d : SampleSpec) (left i : Nat)
    (self : AudioConversion) (a : SampleSpec) :
    configureAndAddConverterAux cfg d (left + 1) i self a =
      (let r1 : status_t × AudioConversion × SampleSpec :=
        if a.getSampleSpecItem i > d.getSampleSpecItem i then
          doConfigureAndAddConverter cfg i self a d
        else (NO_ERROR, self, a)
      if r1.1 ≠ NO_ERROR then r1
      else
        let r2 : status_t × AudioConversion × SampleSpec :=
          if i + 1 < NbSampleSpecItems then
            configureAndAddConverterAux cfg d left (i + 1) r1.2.1 r1.2.2
          else (NO_ERROR, r1.2.1, r1.2.2)
        if r2.1 ≠ NO_ERROR then r2
        else if !SampleSpec.isSampleSpecItemEqual i r2.2.2 d then
          doConfigureAndAddConverter cfg i r2.2.1 r2.2.2 d
        else (NO_ERROR, r2.2.1, r2.2.2)) := rfl

theorem isEqual_iff_attr (i : Nat) (a d : SampleSpec) :
    SampleSpec.isSampleSpecItemEqual i a d = decide (attr i a = attr i d) := by
  unfold SampleSpec.isSampleSpecItemEqual attr
  by_cases h : a.getSampleSpecItem i = d.getSampleSpecItem i <;>
    by_cases h0 : i = ChannelCountSampleSpecItem <;> simp [h, h0]

theorem attr_nextSpec_same (i : Nat) (a d : SampleSpec) : attr i (nextSpec i a d) = attr i d := by
  unfold attr nextSpec SampleSpec.setSampleSpecItem SampleSpec.getSampleSpecItem
    SampleSpec.setChannelsPolicy
  by_cases h0 : i = ChannelCountSampleSpecItem
  · simp [h0]
  · by_cases h1 : i = FormatSampleSpecItem
    · simp [h1, FormatSampleSpecItem, ChannelCountSampleSpecItem]
    · by_cases h2 : i = RateSampleSpecItem
      · simp [h2, FormatSampleSpecItem, ChannelCountSampleSpecItem, RateSampleSpecItem]
      · simp [h0, h1, h2]

theorem attr_nextSpec_other (i j : Nat) (hij : i ≠ j) (a d : SampleSpec) :
    attr i (nextSpec j a d) = attr i a := by
  unfold attr nextSpec SampleSpec.setSampleSpecItem SampleSpec.getSampleSpecItem
    SampleSpec.setChannelsPolicy
  simp only [ChannelCountSampleSpecItem, FormatSampleSpecItem, RateSampleSpecItem] at *
  by_cases h0 : j = 0
  · subst h0
    have : i ≠ 0 := hij
    simp [this]
  · by_cases h1 : j = 1
    · subst h1
      have : i ≠ 1 := hij
      simp [this]
    · by_cases h2 : j = 2
      · subst h2
        have : i ≠ 2 := hij
        simp [this]
      · simp [h0, h1, h2]

theorem doConfigure_spec_ok (cfg : ConverterConfigure) (i : Nat) (self : AudioConversion)
    (a d : SampleSpec) (h : (doConfigureAndAddConverter cfg i self a d).1 = NO_ERROR) :
    (doConfigureAndAddConverter cfg i self a d).2.2 = nextSpec i a d := by
  rw [doConfigure_eq] at h ⊢
  by_cases c : cfg i a (nextSpec i a d) = NO_ERROR
  · simp [c]
  · simp [c] at h

theorem doConfigure_spec_fail (cfg : ConverterConfigure) (i : Nat) (self : AudioConversion)
    (a d : SampleSpec) (h : (doConfigureAndAddConverter cfg i self a d).1 ≠ NO_ERROR) :
    (doConfigureAndAddConverter cfg i self a d).2.2 = a := by
  rw [doConfigure_eq] at h ⊢
  by_cases c : cfg i a (nextSpec i a d) = NO_ERROR
  · simp [c] at h
  · simp [c]

theorem runItems_attr (cfg : ConverterConfigure) (d : SampleSpec) (i : Nat) (items : List Nat) :
    ∀ (self : AudioConversion) (a : SampleSpec), i ∉ items →
      attr i (runItems cfg d items self a).2.2 = attr i a := by
  induction items with
  | nil => intro self a _; rfl
  | cons j rest ih =>
    intro self a hi
    have hj : i ≠ j := fun e => hi (e ▸ List.mem_cons_self _ _)
    have hr : i ∉ rest := fun e => hi (List.mem_cons_of_mem _ e)
    simp only [runItems]
    by_cases h : (doConfigureAndAddConverter cfg j self a d).1 = NO_ERROR
    · simp only [h, ne_eq, not_true_eq_false, if_false]
      rw [ih _ _ hr, doConfigure_spec_ok cfg j self a d h, attr_nextSpec_other i j hj a d]
    · simp only [h, ne_eq, not_false_eq_true, if_true]
      rw [doConfigure_spec_fail cfg j self a d h]

theorem runItems_single (cfg : ConverterConfigure) (d : SampleSpec) (i : Nat)
    (self : AudioConversion) (a : SampleSpec) :
    runItems cfg d [i] self a = doConfigureAndAddConverter cfg i self a d := by
  simp only [runItems]
  by_cases h : (doConfigureAndAddConverter cfg i self a d).1 = NO_ERROR
  · simp only [h, ne_eq, not_true_eq_false, if_false]
    exact Prod.ext h.symm rfl
  · simp only [h, ne_eq, not_false_eq_true, if_true]

/-- One level of `configureAndAddConverter` in terms of `runItems`: the item before the items
of the deeper levels when the source value is greater, after them when the specs still differ
on the item. -/
theorem aux_level (cfg : ConverterConfigure) (d : SampleSpec) (left i : Nat)
    (L : SampleSpec → List Nat)
    (hin : ∀ (self : AudioConversion) (a : SampleSpec),
      (if i + 1 < NbSampleSpecItems then configureAndAddConverterAux cfg d left (i + 1) self a
        else (NO_ERROR, self, a)) = runItems cfg d (L a) self a)
    (hL : ∀ a, L (nextSpec i a d) = L a) (hi : ∀ a, i ∉ L a)
    (self : AudioConversion) (a : SampleSpec) :
    configureAndAddConverterAux cfg d (left + 1) i self a =
      runItems cfg d
        ((if a.getSampleSpecItem i > d.getSampleSpecItem i then [i] else []) ++ L a ++
          (if a.getSampleSpecItem i > d.getSampleSpecItem i then []
            else if attr i a = attr i d then [] else [i])) self a := by
  rw [aux_succ]
  simp only [hin]
  by_cases hgt : a.getSampleSpecItem i > d.getSampleSpecItem i
  · simp only [hgt, if_true, List.append_nil, List.singleton_append, runItems]
    by_cases h1 : (doConfigureAndAddConverter cfg i self a d).1 = NO_ERROR
    · have hs := doConfigure_spec_ok cfg i self a d h1
      simp only [h1, ne_eq, not_true_eq_false, if_false, hs, hL]
      have hattr : attr i (runItems cfg d (L a) (doConfigureAndAddConverter cfg i self a d).2.1
          (nextSpec i a d)).2.2 = attr i d := by
        rw [runItems_attr cfg d i (L a) _ _ (hi a), attr_nextSpec_same]
      by_cases h2 : (runItems cfg d (L a) (doConfigureAndAddConverter cfg i self a d).2.1
          (nextSpec i a d)).1 = NO_ERROR
      · simp only [h2, not_true_eq_false, if_false, isEqual_iff_attr, hattr, decide_True,
          Bool.not_true, Bool.false_eq_true]
        exact Prod.ext h2.symm rfl
      · simp only [h2, not_false_eq_true, if_true]
    · simp only [h1, ne_eq, not_false_eq_true, if_true]
  · simp only [hgt, if_false, List.nil_append, ne_eq, not_true_eq_false]
    rw [runItems_append]
    have hattr : attr i (runItems cfg d (L a) self a).2.2 = attr i a :=
      runItems_attr cfg d i (L a) _ _ (hi a)
    by_cases h2 : (runItems cfg d (L a) self a).1 = NO_ERROR
    · simp only [h2, ne_eq, not_true_eq_false, if_false, isEqual_iff_attr, hattr]
      by_cases he : attr i a = attr i d
      · simp only [he, decide_True, Bool.not_true, Bool.false_eq_true, if_false, if_true,
          runItems]
      · simp only [he, decide_False, Bool.not_false, if_true, if_false, runItems_single]
    · simp only [h2, ne_eq, not_false_eq_true, if_true]

theorem mem_levelItems (i j : Nat) (inner : List Nat) (a d : SampleSpec)
    (h : j ∈ levelItems i inner a d) : j = i ∨ j ∈ inner := by
  unfold levelItems at h
  simp only [List.mem_append] at h
  rcases h with (h | h) | h
  · split_ifs at h <;> simp_all
  · exact Or.inr h
  · split_ifs at h <;> simp_all

theorem attr_rate (a : SampleSpec) : attr 2 a = (a.sampleRate, []) := by
  simp [attr, ChannelCountSampleSpecItem]

theorem attr_format (a : SampleSpec) : attr 1 a = (a.format, []) := by
  simp [attr, ChannelCountSampleSpecItem]

theorem attr_channels (a : SampleSpec) : attr 0 a = (a.channelCount, a.channelsPolicy) := by
  simp [attr, ChannelCountSampleSpecItem]

theorem aux_rate (cfg : ConverterConfigure) (d : SampleSpec) (self : AudioConversion)
    (a : SampleSpec) :
    configureAndAddConverterAux cfg d 1 2 self a =
      runItems cfg d (levelItems 2 [] a d) self a := by
  have h := aux_level cfg d 0 2 (fun _ => [])
    (by intro self a; simp [NbSampleSpecItems, runItems]) (by intro a; rfl)
    (by intro a; simp) self a
  simpa [levelItems] using h

theorem aux_format (cfg : ConverterConfigure) (d : SampleSpec) (self : AudioConversion)
    (a : SampleSpec) :
    configureAndAddConverterAux cfg d 2 1 self a =
      runItems cfg d (levelItems 1 (levelItems 2 [] a d) a d) self a := by
  have h := aux_level cfg d 1 1 (fun a => levelItems 2 [] a d)
    (by intro self a; simp [NbSampleSpecItems, aux_rate])
    (by intro a; simp [levelItems, attr_rate])
    (by
      intro a hmem
      rcases mem_levelItems _ _ _ _ _ hmem with h | h
      · omega
      · simp at h) self a
  simpa [levelItems] using h

theorem aux_channels (cfg : ConverterConfigure) (d : SampleSpec) (self : AudioConversion)
    (a : SampleSpec) :
    configureAndAddConverterAux cfg d 3 0 self a =
      runItems cfg d (levelItems 0 (levelItems 1 (levelItems 2 [] a d) a d) a d) self a := by
  have h := aux_level cfg d 2 0 (fun a => levelItems 1 (levelItems 2 [] a d) a d)
    (by intro self a; simp [NbSampleSpecItems, aux_format])
    (by intro a; simp [levelItems, attr_rate, attr_format])
    (by
      intro a hmem
      rcases mem_levelItems _ _ _ _ _ hmem with h | h
      · omega
      · rcases mem_levelItems _ _ _ _ _ h with h | h
        · omega
        · simp at h) self a
  simpa [levelItems] using h

theorem levelItems_eq_planItems (a d : SampleSpec) :
    levelItems 0 (levelItems 1 (levelItems 2 [] a d) a d) a d = planItems a d := by
  unfold levelItems planItems
  simp only [getItem_channels, getItem_format, getItem_rate, attr_rate, attr_format,
    attr_channels, ChannelCountSampleSpecItem, FormatSampleSpecItem, RateSampleSpecItem,
    Prod.mk.injEq, and_true, List.append_nil, List.append_assoc]
  have k0 : a.channelCount > d.channelCount ∨ a.channelCount = d.channelCount ∨
      a.channelCount < d.channelCount := by omega
  have k1 : a.format > d.format ∨ a.format = d.format ∨ a.format < d.format := by omega
  have k2 : a.sampleRate > d.sampleRate ∨ a.sampleRate = d.sampleRate ∨
      a.sampleRate < d.sampleRate := by omega
  rcases k0 with h0 | h0 | h0 <;> rcases k1 with h1 | h1 | h1 <;> rcases k2 with h2 | h2 | h2 <;>
    simp [h0, h1, h2, Nat.lt_asymm, Nat.ne_of_gt, Nat.ne_of_lt]

/-- Planning from the channel item is the insertion, in order, of the items of `planItems`. -/
theorem configureAndAddConverter_eq_runItems (cfg : ConverterConfigure)
    (self : AudioConversion) (a d : SampleSpec) :
    configureAndAddConverter cfg ChannelCountSampleSpecItem self a d =
      runItems cfg d (planItems a d) self a := by
  unfold configureAndAddConverter
  rw [← levelItems_eq_planItems]
  exact aux_channels cfg d self a

theorem doConfigure_cw (cfg : ConverterConfigure) (i : Nat) (self : AudioConversion)
    (a d : SampleSpec) :
    (doConfigureAndAddConverter cfg i self a d).2.1.configuredWith =
      Function.update self.configuredWith i (some (a, nextSpec i a d)) := by
  rw [doConfigure_eq]
  by_cases c : cfg i a (nextSpec i a d) = NO_ERROR <;> simp [c]

theorem doConfigure_chain_ok (cfg : ConverterConfigure) (i : Nat) (self : AudioConversion)
    (a d : SampleSpec) (h : (doConfigureAndAddConverter cfg i self a d).1 = NO_ERROR) :
    (doConfigureAndAddConverter cfg i self a d).2.1.mActiveAudioConvList =
      self.mActiveAudioConvList ++ [i] := by
  rw [doConfigure_eq] at h ⊢
  by_cases c : cfg i a (nextSpec i a d) = NO_ERROR
  · simp [c]
  · simp [c] at h

theorem doConfigure_chain_fail (cfg : ConverterConfigure) (i : Nat) (self : AudioConversion)
    (a d : SampleSpec) (h : (doConfigureAndAddConverter cfg i self a d).1 ≠ NO_ERROR) :
    (doConfigureAndAddConverter cfg i self a d).2.1.mActiveAudioConvList =
      self.mActiveAudioConvList := by
  rw [doConfigure_eq] at h ⊢
  by_cases c : cfg i a (nextSpec i a d) = NO_ERROR
  · simp [c] at h
  · simp [c]

theorem doConfigure_sameBuffering (cfg : ConverterConfigure) (i : Nat) (self : AudioConversion)
    (a d : SampleSpec) :
    sameBuffering self (doConfigureAndAddConverter cfg i self a d).2.1 := by
  rw [doConfigure_eq]
  by_cases c : cfg i a (nextSpec i a d) = NO_ERROR <;> simp [c, sameBuffering]

theorem runItems_sameBuffering (cfg : ConverterConfigure) (d : SampleSpec) (items : List Nat) :
    ∀ (self : AudioConversion) (a : SampleSpec),
      sameBuffering self (runItems cfg d items self a).2.1 := by
  induction items with
  | nil => intro self a; simp [runItems, sameBuffering]
  | cons j rest ih =>
    intro self a
    simp only [runItems]
    have h1 := doConfigure_sameBuffering cfg j self a d
    by_cases h : (doConfigureAndAddConverter cfg j self a d).1 = NO_ERROR
    · simp only [h, ne_eq, not_true_eq_false, if_false]
      have h2 := ih (doConfigureAndAddConverter cfg j self a d).2.1
        (doConfigureAndAddConverter cfg j self a d).2.2
      unfold sameBuffering at *
      refine ⟨?_, ?_, ?_, ?_, ?_, ?_⟩
      · rw [h2.1, h1.1]
      · rw [h2.2.1, h1.2.1]
      · rw [h2.2.2.1, h1.2.2.1]
      · rw [h2.2.2.2.1, h1.2.2.2.1]
      · rw [h2.2.2.2.2.1, h1.2.2.2.2.1]
      · rw [h2.2.2.2.2.2, h1.2.2.2.2.2]
    · simp only [h, ne_eq, not_false_eq_true, if_true]
      exact h1

/-- Whatever the outcome, the chain grows by a beginning of the list of items. -/
theorem runItems_chain_grows (cfg : ConverterConfigure) (d : SampleSpec) (items : List Nat) :
    ∀ (self : AudioConversion) (a : SampleSpec),
      ∃ done, done <+: items ∧
        (runItems cfg d items self a).2.1.mActiveAudioConvList =
          self.mActiveAudioConvList ++ done := by
  induction items with
  | nil => intro self a; exact ⟨[], List.prefix_refl _, by simp [runItems]⟩
  | cons j rest ih =>
    intro self a
    simp only [runItems]
    by_cases h : (doConfigureAndAddConverter cfg j self a d).1 = NO_ERROR
    · simp only [h, ne_eq, not_true_eq_false, if_false]
      obtain ⟨done, hp, hc⟩ := ih (doConfigureAndAddConverter cfg j self a d).2.1
        (doConfigureAndAddConverter cfg j self a d).2.2
      refine ⟨j :: done, ?_, ?_⟩
      · exact (List.prefix_cons_inj j).mpr hp
      · rw [hc, doConfigure_chain_ok cfg j self a d h]; simp
    · simp only [h, ne_eq, not_false_eq_true, if_true]
      exact ⟨[], List.nil_prefix, by rw [doConfigure_chain_fail cfg j self a d h]; simp⟩

/-- On success the chain grows by exactly the items, and the running source spec is the one
reached after all of them. -/
theorem runItems_ok (cfg : ConverterConfigure) (d : SampleSpec) (items : List Nat) :
    ∀ (self : AudioConversion) (a : SampleSpec),
      (runItems cfg d items self a).1 = NO_ERROR →
        (runItems cfg d items self a).2.1.mActiveAudioConvList =
            self.mActiveAudioConvList ++ items ∧
          (runItems cfg d items self a).2.2 = specAfter d items a := by
  induction items with
  | nil => intro self a _; simp [runItems, specAfter]
  | cons j rest ih =>
    intro self a
    simp only [runItems]
    by_cases h : (doConfigureAndAddConverter cfg j self a d).1 = NO_ERROR
    · simp only [h, ne_eq, not_true_eq_false, if_false]
      intro hok
      obtain ⟨hc, hs⟩ := ih _ _ hok
      refine ⟨?_, ?_⟩
      · rw [hc, doConfigure_chain_ok cfg j self a d h]; simp
      · rw [hs, doConfigure_spec_ok cfg j self a d h]; rfl
    · simp only [h, ne_eq, not_false_eq_true, if_true]
      intro hok
      exact hok.elim

/-- Converters whose item is not in the list are not configured. -/
theorem runItems_cw_other (cfg : ConverterConfigure) (d : SampleSpec) (i : Nat)
    (items : List Nat) :
    ∀ (self : AudioConversion) (a : SampleSpec), i ∉ items →
      (runItems cfg d items self a).2.1.configuredWith i = self.configuredWith i := by
  induction items with
  | nil => intro self a _; rfl
  | cons j rest ih =>
    intro self a hi
    have hj : i ≠ j := fun e => hi (e ▸ List.mem_cons_self _ _)
    have hr : i ∉ rest := fun e => hi (List.mem_cons_of_mem _ e)
    simp only [runItems]
    by_cases h : (doConfigureAndAddConverter cfg j self a d).1 = NO_ERROR
    · simp only [h, ne_eq, not_true_eq_false, if_false]
      rw [ih _ _ hr, doConfigure_cw, Function.update_noteq hj]
    · simp only [h, ne_eq, not_false_eq_true, if_true]
      rw [doConfigure_cw, Function.update_noteq hj]

/-- On success, with no item twice in the list, the inserted converters form a path from
the running source spec at the start to the one at the end. -/
theorem runItems_path (cfg : ConverterConfigure) (d : SampleSpec) (items : List Nat) :
    ∀ (self : AudioConversion) (a : SampleSpec), items.Nodup →
      (runItems cfg d items self a).1 = NO_ERROR →
        chainPath (runItems cfg d items self a).2.1.configuredWith items a
          (runItems cfg d items self a).2.2 := by
  induction items with
  | nil => intro self a _ _; simp [runItems, chainPath]
  | cons j rest ih =>
    intro self a hnd
    have hj : j ∉ rest := (List.nodup_cons.mp hnd).1
    have hr : rest.Nodup := (List.nodup_cons.mp hnd).2
    simp only [runItems]
    by_cases h : (doConfigureAndAddConverter cfg j self a d).1 = NO_ERROR
    · simp only [h, ne_eq, not_true_eq_false, if_false]
      intro hok
      refine ⟨nextSpec j a d, ?_, ?_⟩
      · rw [runItems_cw_other cfg d j rest _ _ hj, doConfigure_cw, Function.update_same]
      · have := ih (doConfigureAndAddConverter cfg j self a d).2.1
          (doConfigureAndAddConverter cfg j self a d).2.2 hr hok
        rw [doConfigure_spec_ok cfg j self a d h] at this
        rw [doConfigure_spec_ok cfg j self a d h]
        exact this
    · simp only [h, ne_eq, not_false_eq_true, if_true]
      intro hok
      exact hok.elim

/-- Whatever the outcome, a converter that entered the chain was configured from the spec
reached after the items that precede it in the list. -/
theorem runItems_cw_mem (cfg : ConverterConfigure) (d : SampleSpec) (i : Nat)
    (items : List Nat) :
    ∀ (self : AudioConversion) (a : SampleSpec), items.Nodup →
      i ∉ self.mActiveAudioConvList →
      i ∈ (runItems cfg d items self a).2.1.mActiveAudioConvList →
        (runItems cfg d items self a).2.1.configuredWith i =
          some (specAfter d (items.takeWhile (fun j => decide (j ≠ i))) a,
            nextSpec i (specAfter d (items.takeWhile (fun j => decide (j ≠ i))) a) d) := by
  induction items with
  | nil => intro self a _ h1 h2; exact absurd h2 h1
  | cons j rest ih =>
    intro self a hnd hnot
    have hj : j ∉ rest := (List.nodup_cons.mp hnd).1
    have hr : rest.Nodup := (List.nodup_cons.mp hnd).2
    simp only [runItems]
    by_cases h : (doConfigureAndAddConverter cfg j self a d).1 = NO_ERROR
    · simp only [h, ne_eq, not_true_eq_false, if_false]
      intro hmem
      by_cases hij : j = i
      · subst hij
        rw [runItems_cw_other cfg d j rest _ _ hj, doConfigure_cw, Function.update_same]
        simp [List.takeWhile, specAfter]
      · have hnot1 : i ∉ (doConfigureAndAddConverter cfg j self a d).2.1.mActiveAudioConvList := by
          rw [doConfigure_chain_ok cfg j self a d h]
          simp only [List.mem_append, List.mem_singleton, not_or]
          exact ⟨hnot, fun e => hij e.symm⟩
        have := ih _ _ hr hnot1 hmem
        rw [this, doConfigure_spec_ok cfg j self a d h]
        simp [List.takeWhile, hij, specAfter]
    · simp only [h, ne_eq, not_false_eq_true, if_true]
      intro hmem
      rw [doConfigure_chain_fail cfg j self a d h] at hmem
      exact absurd hmem hnot

theorem planItems_nodup (a d : SampleSpec) : (planItems a d).Nodup := by
  unfold planItems
  simp only [ChannelCountSampleSpecItem, FormatSampleSpecItem, RateSampleSpecItem]
  have k0 : a.channelCount > d.channelCount ∨ a.channelCount = d.channelCount ∨
      a.channelCount < d.channelCount := by omega
  have k1 : a.format > d.format ∨ a.format = d.format ∨ a.format < d.format := by omega
  by_cases h2 : a.sampleRate = d.sampleRate <;>
  by_cases hp : a.channelsPolicy = d.channelsPolicy <;>
  rcases k0 with h0 | h0 | h0 <;> rcases k1 with h1 | h1 | h1 <;>
    simp [h0, h1, h2, hp, Nat.lt_asymm, Nat.ne_of_gt, Nat.ne_of_lt]

theorem configure_eq (cfg : ConverterConfigure) (self : AudioConversion)
    (src dst : SampleSpec) :
    configure cfg self src dst =
      if src = dst then (NO_ERROR, resetState self src dst)
      else if (runItems cfg dst (planItems src dst) (resetState self src dst) src).1 ≠ NO_ERROR
        then ((runItems cfg dst (planItems src dst) (resetState self src dst) src).1,
          (runItems cfg dst (planItems src dst) (resetState self src dst) src).2.1)
      else (if (runItems cfg dst (planItems src dst) (resetState self src dst) src).2.2 = dst
          then OK else INVALID_OPERATION,
        (runItems cfg dst (planItems src dst) (resetState self src dst) src).2.1) := by
  unfold configure
  simp only [configureAndAddConverter_eq_runItems]
  rfl

theorem configure_same (cfg : ConverterConfigure) (self : AudioConversion) (s : SampleSpec) :
    configure cfg self s s = (NO_ERROR, resetState self s s) := by
  rw [configure_eq]; simp

theorem configure_state (cfg : ConverterConfigure) (self : AudioConversion)
    (src dst : SampleSpec) (hne : src ≠ dst) :
    (configure cfg self src dst).2 =
      (runItems cfg dst (planItems src dst) (resetState self src dst) src).2.1 := by
  rw [configure_eq]
  simp only [hne, if_false]
  split_ifs <;> rfl

theorem configure_status (cfg : ConverterConfigure) (self : AudioConversion)
    (src dst : SampleSpec) (hne : src ≠ dst) :
    (configure cfg self src dst).1 =
      if (runItems cfg dst (planItems src dst) (resetState self src dst) src).1 ≠ NO_ERROR then
        (runItems cfg dst (planItems src dst) (resetState self src dst) src).1
      else if (runItems cfg dst (planItems src dst) (resetState self src dst) src).2.2 = dst
        then OK else INVALID_OPERATION := by
  rw [configure_eq]
  simp only [hne, if_false]
  split_ifs <;> rfl

/-- A successful `configure` ran all the planned insertions with success and ended on the
destination spec. -/
theorem configure_ok_run (cfg : ConverterConfigure) (self : AudioConversion)
    (src dst : SampleSpec) (hne : src ≠ dst) (h : (configure cfg self src dst).1 = OK) :
    (runItems cfg dst (planItems src dst) (resetState self src dst) src).1 = NO_ERROR ∧
      (runItems cfg dst (planItems src dst) (resetState self src dst) src).2.2 = dst := by
  rw [configure_status cfg self src dst hne] at h
  by_cases h1 : (runItems cfg dst (planItems src dst) (resetState self src dst) src).1 = NO_ERROR
  · refine ⟨h1, ?_⟩
    by_cases h2 : (runItems cfg dst (planItems src dst) (resetState self src dst) src).2.2 = dst
    · exact h2
    · simp [h1, h2, OK, INVALID_OPERATION] at h
  · simp only [h1, ne_eq, not_false_eq_true, if_true] at h
    exact absurd h h1

theorem planItems_same (s : SampleSpec) : planItems s s = [] := by
  simp [planItems]

/-- The chain of a successful `configure` is the planned list of items. -/
theorem configure_ok_chain (cfg : ConverterConfigure) (self : AudioConversion)
    (src dst : SampleSpec) (h : (configure cfg self src dst).1 = OK) :
    (configure cfg self src dst).2.mActiveAudioConvList = planItems src dst := by
  by_cases hne : src = dst
  · subst hne
    rw [configure_same, planItems_same]
    rfl
  · obtain ⟨h1, _⟩ := configure_ok_run cfg self src dst hne h
    rw [configure_state cfg self src dst hne, (runItems_ok cfg dst _ _ _ h1).1]
    simp [resetState]

theorem specAfter_before_rate (a d : SampleSpec) (hr : a.sampleRate ≠ d.sampleRate) :
    (specAfter d ((planItems a d).takeWhile (fun j => decide (j ≠ RateSampleSpecItem))) a).channelCount
        = min a.channelCount d.channelCount ∧
      (specAfter d ((planItems a d).takeWhile (fun j => decide (j ≠ RateSampleSpecItem))) a).format
        = min a.format d.format ∧
      (specAfter d ((planItems a d).takeWhile (fun j => decide (j ≠ RateSampleSpecItem))) a).sampleRate
        = a.sampleRate := by
  unfold planItems
  simp only [ChannelCountSampleSpecItem, FormatSampleSpecItem, RateSampleSpecItem]
  by_cases h0 : a.channelCount > d.channelCount <;> by_cases h1 : a.format > d.format <;>
    simp [h0, h1, hr, List.takeWhile, specAfter] <;> omega

theorem planItems_mem_rate (a d : SampleSpec) :
    RateSampleSpecItem ∈ planItems a d ↔ a.sampleRate ≠ d.sampleRate := by
  unfold planItems
  simp only [ChannelCountSampleSpecItem, FormatSampleSpecItem, RateSampleSpecItem]
  by_cases h2 : a.sampleRate = d.sampleRate <;> simp [h2]

theorem planItems_mem_format (a d : SampleSpec) :
    FormatSampleSpecItem ∈ planItems a d ↔ a.format ≠ d.format := by
  unfold planItems
  simp only [ChannelCountSampleSpecItem, FormatSampleSpecItem, RateSampleSpecItem]
  have k1 : a.format > d.format ∨ a.format = d.format ∨ a.format < d.format := by omega
  rcases k1 with h1 | h1 | h1 <;>
    simp [h1, Nat.lt_asymm, Nat.ne_of_gt, Nat.ne_of_lt]

theorem planItems_mem_channels (a d : SampleSpec) :
    ChannelCountSampleSpecItem ∈ planItems a d ↔
      (a.channelCount ≠ d.channelCount ∨ a.channelsPolicy ≠ d.channelsPolicy) := by
  unfold planItems
  simp only [ChannelCountSampleSpecItem, FormatSampleSpecItem, RateSampleSpecItem]
  have k0 : a.channelCount > d.channelCount ∨ a.channelCount = d.channelCount ∨
      a.channelCount < d.channelCount := by omega
  by_cases hp : a.channelsPolicy = d.channelsPolicy <;>
  rcases k0 with h0 | h0 | h0 <;>
    simp [h0, hp, Nat.lt_asymm, Nat.ne_of_gt, Nat.ne_of_lt]

theorem planItems_length (a d : SampleSpec) : (planItems a d).length ≤ 3 := by
  unfold planItems
  simp only [ChannelCountSampleSpecItem, FormatSampleSpecItem, RateSampleSpecItem]
  have k0 : a.channelCount > d.channelCount ∨ a.channelCount = d.channelCount ∨
      a.channelCount < d.channelCount := by omega
  have k1 : a.format > d.format ∨ a.format = d.format ∨ a.format < d.format := by omega
  by_cases h2 : a.sampleRate = d.sampleRate <;>
  by_cases hp : a.channelsPolicy = d.channelsPolicy <;>
  rcases k0 with h0 | h0 | h0 <;> rcases k1 with h1 | h1 | h1 <;>
    simp [h0, h1, h2, hp, Nat.lt_asymm, Nat.ne_of_gt, Nat.ne_of_lt]

theorem planItems_items (a d : SampleSpec) (i : Nat) (h : i ∈ planItems a d) :
    i = ChannelCountSampleSpecItem ∨ i = FormatSampleSpecItem ∨ i = RateSampleSpecItem := by
  unfold planItems at h
  simp only [List.mem_append] at h
  rcases h with (((h | h) | h) | h) | h <;> split_ifs at h <;> simp_all

/-- C1: whenever `configure(src, dst)` returns OK, the active chain is a path from `src` to
`dst`: the first converter was configured with source `src`, the configured destination of
each converter is the configured source of the next, the last destination is `dst`; for
`src = dst` the chain is empty. -/
theorem configure_chain_is_path (cfg : ConverterConfigure) (self : AudioConversion)
    (src dst : SampleSpec) (h : (configure cfg self src dst).1 = OK) :
    chainPath (configure cfg self src dst).2.configuredWith
        (configure cfg self src dst).2.mActiveAudioConvList src dst ∧
      (src = dst → (configure cfg self src dst).2.mActiveAudioConvList = []) := by
  by_cases hne : src = dst
  · subst hne
    rw [configure_same]
    exact ⟨rfl, fun _ => rfl⟩
  · obtain ⟨h1, h2⟩ := configure_ok_run cfg self src dst hne h
    refine ⟨?_, fun e => absurd e hne⟩
    have hp := runItems_path cfg dst (planItems src dst) (resetState self src dst) src
      (planItems_nodup src dst) h1
    rw [h2] at hp
    rw [configure_ok_chain cfg self src dst h, configure_state cfg self src dst hne]
    exact hp

theorem configure_chain_is_path_witness :
    (configure acceptAll newAudioConversion stereo824at48k mono16at8k).1 = OK ∧
      chainPath (configure acceptAll newAudioConversion stereo824at48k mono16at8k).2.configuredWith
        (configure acceptAll newAudioConversion stereo824at48k mono16at8k).2.mActiveAudioConvList
        stereo824at48k mono16at8k :=
  ⟨by decide,
    (configure_chain_is_path acceptAll newAudioConversion stereo824at48k mono16at8k
      (by decide)).1⟩

/-- C4: for every sample spec `s`, `configure(s, s)` returns OK and leaves the chain empty,
whatever the object state before the call; no converter is configured. -/
theorem configure_identity (cfg : ConverterConfigure) (self : AudioConversion) (s : SampleSpec) :
    (configure cfg self s s).1 = OK ∧
      (configure cfg self s s).2.mActiveAudioConvList = [] ∧
      (configure cfg self s s).2.configuredWith = self.configuredWith := by
  rw [configure_same]
  exact ⟨rfl, rfl, rfl⟩

/-- C7: in the chain built by a successful `configure(src, dst)` the stages appear in the
order remapper (source has more channels), reformatter (source format value greater),
resampler (rates differ), reformatter (source format value smaller), remapper (source has
fewer channels, or as many with another channel policy), each only under its condition.
When the source exceeds the destination on the three attributes the chain is
[remapper, reformatter, resampler]; when it is below on the three it is
[resampler, reformatter, remapper]. -/
theorem configure_chain_order (cfg : ConverterConfigure) (self : AudioConversion)
    (src dst : SampleSpec) (h : (configure cfg self src dst).1 = OK) :
    (configure cfg self src dst).2.mActiveAudioConvList =
        (if src.channelCount > dst.channelCount then [ChannelCountSampleSpecItem] else []) ++
        (if src.format > dst.format then [FormatSampleSpecItem] else []) ++
        (if src.sampleRate ≠ dst.sampleRate then [RateSampleSpecItem] else []) ++
        (if src.format < dst.format then [FormatSampleSpecItem] else []) ++
        (if src.channelCount < dst.channelCount ∨
            (src.channelCount = dst.channelCount ∧ src.channelsPolicy ≠ dst.channelsPolicy)
          then [ChannelCountSampleSpecItem] else []) ∧
      (src.channelCount > dst.channelCount → src.format > dst.format →
        src.sampleRate > dst.sampleRate →
        (configure cfg self src dst).2.mActiveAudioConvList =
          [ChannelCountSampleSpecItem, FormatSampleSpecItem, RateSampleSpecItem]) ∧
      (src.channelCount < dst.channelCount → src.format < dst.format →
        src.sampleRate < dst.sampleRate →
        (configure cfg self src dst).2.mActiveAudioConvList =
          [RateSampleSpecItem, FormatSampleSpecItem, ChannelCountSampleSpecItem]) := by
  rw [configure_ok_chain cfg self src dst h]
  refine ⟨rfl, ?_, ?_⟩
  · intro h0 h1 h2
    simp [planItems, h0, h1, Nat.ne_of_gt h2, Nat.lt_asymm h0, Nat.lt_asymm h1, Nat.ne_of_gt h0]
  · intro h0 h1 h2
    simp [planItems, h0, h1, Nat.ne_of_lt h2, Nat.lt_asymm h0, Nat.lt_asymm h1]

theorem configure_chain_order_witness :
    (configure acceptAll newAudioConversion stereo824at48k mono16at8k).1 = OK ∧
      (configure acceptAll newAudioConversion stereo824at48k mono16at8k).2.mActiveAudioConvList =
        [ChannelCountSampleSpecItem, FormatSampleSpecItem, RateSampleSpecItem] :=
  ⟨by decide,
    (configure_chain_order acceptAll newAudioConversion stereo824at48k mono16at8k
      (by decide)).2.1 (by decide) (by decide) (by decide)⟩

/-- C8: after a successful `configure(src, dst)` each of the three converters is in the chain
at most once, and is in it exactly when `src` and `dst` differ on its attribute (channel
count or channel policy for the remapper); the chain has at most 3 stages, holds the
resampler at most once, and is the same for any other successful `configure(src, dst)`,
whatever the object state and the chain before. -/
theorem configure_chain_members (cfg cfg2 : ConverterConfigure) (self self2 : AudioConversion)
    (src dst : SampleSpec) (h : (configure cfg self src dst).1 = OK)
    (h2 : (configure cfg2 self2 src dst).1 = OK) :
    (configure cfg self src dst).2.mActiveAudioConvList.Nodup ∧
      (ChannelCountSampleSpecItem ∈ (configure cfg self src dst).2.mActiveAudioConvList ↔
        (src.channelCount ≠ dst.channelCount ∨ src.channelsPolicy ≠ dst.channelsPolicy)) ∧
      (FormatSampleSpecItem ∈ (configure cfg self src dst).2.mActiveAudioConvList ↔
        src.format ≠ dst.format) ∧
      (RateSampleSpecItem ∈ (configure cfg self src dst).2.mActiveAudioConvList ↔
        src.sampleRate ≠ dst.sampleRate) ∧
      (∀ i ∈ (configure cfg self src dst).2.mActiveAudioConvList,
        i = ChannelCountSampleSpecItem ∨ i = FormatSampleSpecItem ∨ i = RateSampleSpecItem) ∧
      (configure cfg self src dst).2.mActiveAudioConvList.length ≤ 3 ∧
      (configure cfg self src dst).2.mActiveAudioConvList.count RateSampleSpecItem ≤ 1 ∧
      (configure cfg2 self2 src dst).2.mActiveAudioConvList =
        (configure cfg self src dst).2.mActiveAudioConvList := by
  rw [configure_ok_chain cfg self src dst h, configure_ok_chain cfg2 self2 src dst h2]
  exact ⟨planItems_nodup src dst, planItems_mem_channels src dst, planItems_mem_format src dst,
    planItems_mem_rate src dst, planItems_items src dst, planItems_length src dst,
    List.nodup_iff_count_le_one.mp (planItems_nodup src dst) _, rfl⟩

theorem configure_chain_members_witness :
    (configure acceptAll newAudioConversion stereo824at48k mono16at8k).1 = OK ∧
      (configure acceptAll usedAudioConversion stereo824at48k mono16at8k).1 = OK ∧
      (configure acceptAll usedAudioConversion stereo824at48k mono16at8k).2.mActiveAudioConvList =
        (configure acceptAll newAudioConversion stereo824at48k mono16at8k).2.mActiveAudioConvList :=
  ⟨by decide, by decide,
    (configure_chain_members acceptAll acceptAll newAudioConversion usedAudioConversion
      stereo824at48k mono16at8k (by decide) (by decide)).2.2.2.2.2.2.2⟩

/-- C9: whenever the resampler is in the chain built by `configure(src, dst)`, it was
configured with a source and a destination spec whose channel count is the smaller of the
channel counts of `src` and `dst` and whose format value is the smaller of their format
values (its source rate is that of `src`, its destination rate that of `dst`). -/
theorem configure_resampler_on_smallest (cfg : ConverterConfigure) (self : AudioConversion)
    (src dst : SampleSpec)
    (h : RateSampleSpecItem ∈ (configure cfg self src dst).2.mActiveAudioConvList) :
    ∃ s t, (configure cfg self src dst).2.configuredWith RateSampleSpecItem = some (s, t) ∧
      s.channelCount = min src.channelCount dst.channelCount ∧
      s.format = min src.format dst.format ∧
      t.channelCount = min src.channelCount dst.channelCount ∧
      t.format = min src.format dst.format ∧
      s.sampleRate = src.sampleRate ∧ t.sampleRate = dst.sampleRate := by
  by_cases hne : src = dst
  · subst hne
    rw [configure_same] at h
    simp [resetState] at h
  · rw [configure_state cfg self src dst hne] at h ⊢
    have hr : src.sampleRate ≠ dst.sampleRate := by
      obtain ⟨done, hp, hc⟩ :=
        runItems_chain_grows cfg dst (planItems src dst) (resetState self src dst) src
      rw [hc] at h
      have : RateSampleSpecItem ∈ planItems src dst := by
        have h3 : RateSampleSpecItem ∈ done := by simpa [resetState] using h
        exact hp.subset h3
      exact (planItems_mem_rate src dst).mp this
    have hcw := runItems_cw_mem cfg dst RateSampleSpecItem (planItems src dst)
      (resetState self src dst) src (planItems_nodup src dst) (by simp [resetState]) h
    obtain ⟨k1, k2, k3⟩ := specAfter_before_rate src dst hr
    refine ⟨_, _, hcw, k1, k2, ?_, ?_, k3, ?_⟩
    · rw [show RateSampleSpecItem = 2 from rfl, nextSpec_rate]; exact k1
    · rw [show RateSampleSpecItem = 2 from rfl, nextSpec_rate]; exact k2
    · rw [show RateSampleSpecItem = 2 from rfl, nextSpec_rate]

theorem configure_resampler_on_smallest_witness :
    RateSampleSpecItem ∈
        (configure acceptAll newAudioConversion stereo824at48k mono16at8k).2.mActiveAudioConvList ∧
      ∃ s t, (configure acceptAll newAudioConversion stereo824at48k mono16at8k).2.configuredWith
          RateSampleSpecItem = some (s, t) ∧
        s.channelCount = min stereo824at48k.channelCount mono16at8k.channelCount ∧
        s.format = min stereo824at48k.format mono16at8k.format ∧
        t.channelCount = min stereo824at48k.channelCount mono16at8k.channelCount ∧
        t.format = min stereo824at48k.format mono16at8k.format ∧
        s.sampleRate = stereo824at48k.sampleRate ∧ t.sampleRate = mono16at8k.sampleRate :=
  ⟨by decide,
    configure_resampler_on_smallest acceptAll newAudioConversion stereo824at48k mono16at8k
      (by decide)⟩

/-! ### Serial application of the chain -/

/-- Whatever its outcome, `configure` leaves a chain without repetition. -/
theorem configure_chain_nodup (cfg : ConverterConfigure) (self : AudioConversion)
    (src dst : SampleSpec) : (configure cfg self src dst).2.mActiveAudioConvList.Nodup := by
  by_cases hne : src = dst
  · subst hne
    rw [configure_same]
    simp [resetState]
  · rw [configure_state cfg self src dst hne]
    obtain ⟨done, hp, hc⟩ :=
      runItems_chain_grows cfg dst (planItems src dst) (resetState self src dst) src
    rw [hc]
    simpa [resetState] using (planItems_nodup src dst).sublist hp.sublist

theorem lastIs_of_nodup : ∀ (l : List Nat), l ≠ [] → l.Nodup → lastIs (l.getLastD 0) l
  | [], h, _ => absurd rfl h
  | [c], _, _ => by simp [lastIs]
  | c :: c2 :: rest, _, hnd => by
    have h1 : c ∉ c2 :: rest := (List.nodup_cons.mp hnd).1
    have h2 : (c2 :: rest).Nodup := (List.nodup_cons.mp hnd).2
    have ih := lastIs_of_nodup (c2 :: rest) (by simp) h2
    have hl : (c :: c2 :: rest).getLastD 0 = (c2 :: rest).getLastD 0 := by
      rw [List.getLastD_cons, List.getLastD_cons, List.getLastD_cons]
    rw [hl]
    refine ⟨?_, ih⟩
    intro e
    apply h1
    rw [e, List.getLastD_cons]
    exact List.getLastD_mem_cons rest c2

theorem convertLoop_eq_spec {σ : Type} (stage : StageConvert σ) (back dst outFrames0 : Nat) :
    ∀ (l : List Nat), l ≠ [] → lastIs back l →
      ∀ (srcBuf srcFrames dstBuf dstFrames : Nat) (status : status_t) (conv : σ) (mem : Mem)
        (calls : List StageCall),
        convertLoop stage back dst outFrames0 l srcBuf srcFrames dstBuf dstFrames status conv
            mem calls =
          convertSpec stage dst outFrames0 l srcBuf srcFrames conv mem calls
  | [], h, _ => absurd rfl h
  | [c], _, hl => by
    intro srcBuf srcFrames dstBuf dstFrames status conv mem calls
    have hc : c = back := hl
    subst hc
    have hd : (if dst ≠ 0 ∧ c = c then dst else 0) = dst := by
      by_cases h0 : dst = 0 <;> simp [h0]
    have hd2 : (if dst = 0 then 0 else dst) = dst := by
      by_cases h0 : dst = 0 <;> simp [h0]
    rw [convertLoop, convertSpec]
    by_cases hs : (stage c conv mem srcBuf dst srcFrames).status = NO_ERROR
    · simp [hs, hd2, convertLoop, convertSpec]
    · simp [hs, hd2]
  | c :: c2 :: rest, _, hl => by
    intro srcBuf srcFrames dstBuf dstFrames status conv mem calls
    have hc : c ≠ back := hl.1
    have ih := convertLoop_eq_spec stage back dst outFrames0 (c2 :: rest) (by simp) hl.2
    have hd : (if dst ≠ 0 ∧ c = back then dst else 0) = 0 := by simp [hc]
    rw [convertLoop, convertSpec]
    simp only [hd, reduceCtorEq, if_false]
    by_cases hs : (stage c conv mem srcBuf 0 srcFrames).status = NO_ERROR
    · simp only [hs, ne_eq, not_true_eq_false, if_false]
      exact ih _ _ _ _ _ _ _ _
    · simp only [hs, ne_eq, not_false_eq_true, if_true]

/-- C5: with an empty chain and a non-null source buffer, `convert` returns NO_ERROR with
`*outFrames = inFrames` and calls no converter; when the caller supplied a destination buffer
it receives exactly the first `inFrames` x (source frame size) bytes of the source (nothing
else in memory changes, `*dst` is unchanged), otherwise `*dst` is set to the source buffer
itself and the memory is unchanged. -/
theorem convert_empty_chain {σ : Type} (stage : StageConvert σ) (self : AudioConversion)
    (conv : σ) (mem : Mem) (src dst inFrames outFrames0 : Nat)
    (hchain : self.mActiveAudioConvList = []) (hsrc : src ≠ 0) :
    (convert stage self conv mem src dst inFrames outFrames0).status = NO_ERROR ∧
      (convert stage self conv mem src dst inFrames outFrames0).outFrames = inFrames ∧
      (convert stage self conv mem src dst inFrames outFrames0).calls = [] ∧
      (convert stage self conv mem src dst inFrames outFrames0).conv = conv ∧
      (dst ≠ 0 →
        (convert stage self conv mem src dst inFrames outFrames0).dst = dst ∧
        (∀ i, i < inFrames * self.mSsSrc.getFrameSize →
          (convert stage self conv mem src dst inFrames outFrames0).mem (dst + i) =
            mem (src + i)) ∧
        (∀ x, (x < dst ∨ dst + inFrames * self.mSsSrc.getFrameSize ≤ x) →
          (convert stage self conv mem src dst inFrames outFrames0).mem x = mem x)) ∧
      (dst = 0 →
        (convert stage self conv mem src dst inFrames outFrames0).dst = src ∧
        (convert stage self conv mem src dst inFrames outFrames0).mem = mem) := by
  unfold convert
  simp only [hsrc, hchain, if_false, List.isEmpty_nil, if_true]
  by_cases hd : dst = 0
  · simp [hd]
  · simp only [hd, ne_eq, not_false_eq_true, if_true, true_and, forall_true_left,
      false_implies, and_true, SampleSpec.convertFramesToBytes, memcpy]
    refine ⟨?_, ?_⟩
    · intro i hi
      have : dst ≤ dst + i ∧ dst + i < dst + inFrames * self.mSsSrc.getFrameSize :=
        ⟨Nat.le_add_right _ _, by omega⟩
      simp [this]
    · intro x hx
      have : ¬ (dst ≤ x ∧ x < dst + inFrames * self.mSsSrc.getFrameSize) := by omega
      simp [this]

theorem convert_empty_chain_witness :
    newAudioConversion.mActiveAudioConvList = [] ∧ (5 : Nat) ≠ 0 ∧
      (convert (sampleStage false) newAudioConversion () (fun x => x) 5 0 3 0).dst = 5 :=
  ⟨rfl, by decide,
    ((convert_empty_chain (sampleStage false) newAudioConversion () (fun x => x) 5 0 3 0
      rfl (by decide)).2.2.2.2.2 rfl).1⟩

/-- C6: with a non-empty chain (of distinct converters, as every chain built by `configure`)
and a non-null source, `convert` behaves as the serial application `convertSpec`: the source
buffer and frame count go to the first converter, each output buffer and frame count to the
next converter, the result is the buffer and frame count of the last converter, only the
last converter is handed the caller's destination buffer, and the first converter that
fails ends the call with its status, no later converter being called. -/
theorem convert_chain {σ : Type} (stage : StageConvert σ) (self : AudioConversion)
    (conv : σ) (mem : Mem) (src dst inFrames outFrames0 : Nat)
    (hchain : self.mActiveAudioConvList ≠ []) (hnd : self.mActiveAudioConvList.Nodup)
    (hsrc : src ≠ 0) :
    convert stage self conv mem src dst inFrames outFrames0 =
      convertSpec stage dst outFrames0 self.mActiveAudioConvList src inFrames conv mem [] := by
  unfold convert
  have he : self.mActiveAudioConvList.isEmpty = false := by
    cases h : self.mActiveAudioConvList with
    | nil => exact absurd h hchain
    | cons a l => rfl
  simp only [hsrc, if_false, he, Bool.false_eq_true]
  exact convertLoop_eq_spec stage _ dst outFrames0 _ hchain
    (lastIs_of_nodup _ hchain hnd) _ _ _ _ _ _ _ _

theorem convert_chain_witness :
    chainedAudioConversion.mActiveAudioConvList ≠ [] ∧
      chainedAudioConversion.mActiveAudioConvList.Nodup ∧ (5 : Nat) ≠ 0 ∧
      (convert (sampleStage false) chainedAudioConversion () (fun x => x) 5 70 3 0).calls =
        [⟨0, 5, 0, 3⟩, ⟨1, 1000, 0, 3⟩, ⟨2, 1001, 70, 3⟩] ∧
      (convert (sampleStage true) chainedAudioConversion () (fun x => x) 5 70 3 0).calls =
        [⟨0, 5, 0, 3⟩, ⟨1, 1000, 0, 3⟩] ∧
      (convert (sampleStage true) chainedAudioConversion () (fun x => x) 5 70 3 0).status = -5 :=
  ⟨by decide, by decide, by decide,
    by rw [convert_chain (sampleStage false) chainedAudioConversion () (fun x => x) 5 70 3 0
      (by decide) (by decide) (by decide)]; decide,
    by decide, by decide⟩

/-! ### Remapper -/

theorem foldl_update_range {α : Type} (g : Nat → α) :
    ∀ (n : Nat) (d : Nat → α) (j : Nat),
      ((List.range n).foldl (fun (d : Nat → α) k => Function.update d k (g k)) d) j =
        if j < n then g j else d j := by
  intro n
  induction n with
  | zero => intro d j; simp
  | succ n ih =>
    intro d j
    rw [List.range_succ, List.foldl_append]
    simp only [List.foldl_cons, List.foldl_nil]
    by_cases hj : j = n
    · subst hj
      simp
    · rw [Function.update_noteq hj, ih]
      by_cases h1 : j < n
      · have : j < n + 1 := by omega
        simp [h1, this]
      · have : ¬ j < n + 1 := by omega
        simp [h1, this]

theorem convertStereoToMono_frame (ty : SampleType) (self : AudioRemapper) (src dst : Nat → Int)
    (inFrames f : Nat) :
    (convertStereoToMono ty self src dst inFrames).2.1 f =
      if f < inFrames then
        getAveragedSrcFrame ty self (fun i => src (self.mSsSrc.channelCount * f + i))
      else dst f := by
  unfold convertStereoToMono
  exact foldl_update_range
    (fun k => getAveragedSrcFrame ty self (fun i => src (self.mSsSrc.channelCount * k + i)))
    inFrames dst f

theorem average_int16_two (a b : Int) (ha : -32768 ≤ a ∧ a ≤ 32767)
    (hb : -32768 ≤ b ∧ b ≤ 32767) :
    SampleType.int16.ofUInt64 (((0 + toUInt64 a) % 2 ^ 64 + toUInt64 b) % 2 ^ 64 / 2) =
      Int.fdiv (a + b) 2 := by
  rw [Int.fdiv_eq_ediv _ (by decide)]
  unfold SampleType.ofUInt64 toUInt64
  have hA : (((a % 2 ^ 64).toNat : Nat) : Int) = a % 2 ^ 64 :=
    Int.toNat_of_nonneg (Int.emod_nonneg _ (by norm_num))
  have hB : (((b % 2 ^ 64).toNat : Nat) : Int) = b % 2 ^ 64 :=
    Int.toNat_of_nonneg (Int.emod_nonneg _ (by norm_num))
  generalize (a % 2 ^ 64).toNat = x at hA ⊢
  generalize (b % 2 ^ 64).toNat = y at hB ⊢
  norm_num at hA hB ⊢
  split_ifs <;> omega

theorem average_int16_one (a : Int) (ha : -32768 ≤ a ∧ a ≤ 32767) :
    SampleType.int16.ofUInt64 ((0 + toUInt64 a) % 2 ^ 64 / 1) = a := by
  unfold SampleType.ofUInt64 toUInt64
  have hA : (((a % 2 ^ 64).toNat : Nat) : Int) = a % 2 ^ 64 :=
    Int.toNat_of_nonneg (Int.emod_nonneg _ (by norm_num))
  generalize (a % 2 ^ 64).toNat = x at hA ⊢
  norm_num at hA ⊢
  split_ifs <;> omega

/-- The average of a stereo 16 bit frame, by the channel policies of the source. -/
theorem getAveragedSrcFrame_int16_stereo (self : AudioRemapper) (src : Nat → Int)
    (p0 p1 : ChannelsPolicy) (hch : self.mSsSrc.channelCount = 2)
    (hpol : self.mSsSrc.channelsPolicy = [p0, p1])
    (ha : -32768 ≤ src 0 ∧ src 0 ≤ 32767) (hb : -32768 ≤ src 1 ∧ src 1 ≤ 32767) :
    getAveragedSrcFrame SampleType.int16 self src =
      if p0 ≠ ChannelsPolicy.Ignore ∧ p1 ≠ ChannelsPolicy.Ignore then
        Int.fdiv (src 0 + src 1) 2
      else if p0 ≠ ChannelsPolicy.Ignore then src 0
      else if p1 ≠ ChannelsPolicy.Ignore then src 1
      else 0 := by
  unfold getAveragedSrcFrame
  have hr : List.range 2 = [0, 1] := by decide
  have h0 : self.mSsSrc.getChannelsPolicy 0 = p0 := by
    simp [SampleSpec.getChannelsPolicy, hpol]
  have h1 : self.mSsSrc.getChannelsPolicy 1 = p1 := by
    simp [SampleSpec.getChannelsPolicy, hpol]
  simp only [hch, hr, List.foldl_cons, List.foldl_nil, h0, h1]
  by_cases c0 : p0 = ChannelsPolicy.Ignore <;> by_cases c1 : p1 = ChannelsPolicy.Ignore
  · simp [c0, c1, SampleType.ofUInt64]
  · have := average_int16_one (src 1) hb
    simpa [c0, c1] using this
  · have := average_int16_one (src 0) ha
    simpa [c0, c1] using this
  · have := average_int16_two (src 0) (src 1) ha hb
    simpa [c0, c1] using this

theorem fdiv_two_between (a b : Int) :
    min a b ≤ Int.fdiv (a + b) 2 ∧ Int.fdiv (a + b) 2 ≤ max a b := by
  rw [Int.fdiv_eq_ediv _ (by decide)]
  constructor
  · rcases le_total a b with h | h
    · rw [min_eq_left h]; omega
    · rw [min_eq_right h]; omega
  · rcases le_total a b with h | h
    · rw [max_eq_right h]; omega
    · rw [max_eq_left h]; omega

/-- C10: for 16 bit PCM the stereo to mono strategy writes, for every frame, the floor of the
exact mean of the source samples whose channel policy is not Ignore: floor((a+b)/2) when both
channels count, the counted sample when one counts, 0 when none counts, for all signed 16 bit
`a` and `b`; when both count the result lies between the smaller and the greater sample. The
call returns NO_ERROR and reports `inFrames` frames. -/
theorem stereoToMono_int16_floor_mean (self : AudioRemapper) (src dst : Nat → Int)
    (inFrames f : Nat) (p0 p1 : ChannelsPolicy) (hch : self.mSsSrc.channelCount = 2)
    (hpol : self.mSsSrc.channelsPolicy = [p0, p1]) (hf : f < inFrames)
    (ha : -32768 ≤ src (2 * f) ∧ src (2 * f) ≤ 32767)
    (hb : -32768 ≤ src (2 * f + 1) ∧ src (2 * f + 1) ≤ 32767) :
    (convertStereoToMono SampleType.int16 self src dst inFrames).2.1 f =
        (if p0 ≠ ChannelsPolicy.Ignore ∧ p1 ≠ ChannelsPolicy.Ignore then
          Int.fdiv (src (2 * f) + src (2 * f + 1)) 2
        else if p0 ≠ ChannelsPolicy.Ignore then src (2 * f)
        else if p1 ≠ ChannelsPolicy.Ignore then src (2 * f + 1)
        else 0) ∧
      (p0 ≠ ChannelsPolicy.Ignore → p1 ≠ ChannelsPolicy.Ignore →
        min (src (2 * f)) (src (2 * f + 1)) ≤
            (convertStereoToMono SampleType.int16 self src dst inFrames).2.1 f ∧
          (convertStereoToMono SampleType.int16 self src dst inFrames).2.1 f ≤
            max (src (2 * f)) (src (2 * f + 1))) ∧
      (convertStereoToMono SampleType.int16 self src dst inFrames).1 = NO_ERROR ∧
      (convertStereoToMono SampleType.int16 self src dst inFrames).2.2 = inFrames := by
  have key : (convertStereoToMono SampleType.int16 self src dst inFrames).2.1 f =
      (if p0 ≠ ChannelsPolicy.Ignore ∧ p1 ≠ ChannelsPolicy.Ignore then
        Int.fdiv (src (2 * f) + src (2 * f + 1)) 2
      else if p0 ≠ ChannelsPolicy.Ignore then src (2 * f)
      else if p1 ≠ ChannelsPolicy.Ignore then src (2 * f + 1)
      else 0) := by
    rw [convertStereoToMono_frame, if_pos hf, hch]
    exact getAveragedSrcFrame_int16_stereo self (fun i => src (2 * f + i)) p0 p1 hch hpol ha hb
  refine ⟨key, ?_, rfl, rfl⟩
  intro c0 c1
  rw [key, if_pos ⟨c0, c1⟩]
  exact fdiv_two_between _ _

theorem stereoToMono_int16_floor_mean_witness :
    (stereoRemapper ChannelsPolicy.Copy ChannelsPolicy.Copy).mSsSrc.channelCount = 2 ∧
      (0 : Nat) < 2 ∧
      (convertStereoToMono SampleType.int16
          (stereoRemapper ChannelsPolicy.Copy ChannelsPolicy.Copy) sampleStereo (fun _ => 0)
          2).2.1 0 =
        (if ChannelsPolicy.Copy ≠ ChannelsPolicy.Ignore ∧
            ChannelsPolicy.Copy ≠ ChannelsPolicy.Ignore then
          Int.fdiv (sampleStereo (2 * 0) + sampleStereo (2 * 0 + 1)) 2
        else if ChannelsPolicy.Copy ≠ ChannelsPolicy.Ignore then sampleStereo (2 * 0)
        else if ChannelsPolicy.Copy ≠ ChannelsPolicy.Ignore then sampleStereo (2 * 0 + 1)
        else 0) :=
  ⟨rfl, by decide,
    (stereoToMono_int16_floor_mean (stereoRemapper ChannelsPolicy.Copy ChannelsPolicy.Copy)
      sampleStereo (fun _ => 0) 2 0 ChannelsPolicy.Copy ChannelsPolicy.Copy rfl rfl (by decide)
      (by decide) (by decide)).1⟩

/-! ### Pull buffering -/

theorem writeAt_take (buf : List Nat) (off : Nat) (data buf1 : List Nat)
    (h : writeAt buf off data = some buf1) :
    buf1.take (off + data.length) = buf.take off ++ data ∧ buf1.length = buf.length := by
  unfold writeAt at h
  by_cases hb : off + data.length ≤ buf.length
  · simp only [hb, if_true, Option.some.injEq] at h
    subst h
    have hl : (buf.take off ++ data).length = off + data.length := by
      simp [List.length_take]; omega
    constructor
    · rw [← hl, List.take_left']
      rfl
    · simp [List.length_take, List.length_drop]; omega
  · simp [hb] at h

theorem reallocBlock_length (buf : List Nat) (n : Nat) (fresh : Nat → Nat) :
    (reallocBlock buf n fresh).length = n := by
  simp [reallocBlock, List.length_take]; omega

theorem reallocBlock_take (buf : List Nat) (n k : Nat) (fresh : Nat → Nat)
    (h1 : k ≤ buf.length) (h2 : k ≤ n) :
    (reallocBlock buf n fresh).take k = buf.take k := by
  unfold reallocBlock
  rw [List.take_append_of_le_length (by simp [List.length_take]; omega), List.take_take]
  congr 1
  omega

theorem writtenBytes_append (xs ys : List Event) :
    writtenBytes (xs ++ ys) = writtenBytes xs ++ writtenBytes ys := by
  induction xs with
  | nil => rfl
  | cons e rest ih => cases e <;> simp [writtenBytes, ih]

theorem convertedFrames_append (xs ys : List Event) :
    convertedFrames (xs ++ ys) = convertedFrames xs + convertedFrames ys := by
  induction xs with
  | nil => simp [convertedFrames]
  | cons e rest ih => cases e <;> simp [convertedFrames, ih]; omega

theorem convertFramesToBytes_add (s : SampleSpec) (a b : Nat) :
    s.convertFramesToBytes (a + b) = s.convertFramesToBytes a + s.convertFramesToBytes b := by
  simp [SampleSpec.convertFramesToBytes, Nat.add_mul]

theorem convertFramesToBytes_mono (s : SampleSpec) (a b : Nat) (h : a ≤ b) :
    s.convertFramesToBytes a ≤ s.convertFramesToBytes b := by
  unfold SampleSpec.convertFramesToBytes
  exact Nat.mul_le_mul_right _ h

/-- What a run of the pull loop that ends with NO_ERROR did: the bytes written by the
conversions were appended, in order, at the index; the index and the frame count advanced by
what was converted, which covers the frames requested. -/
theorem pullLoop_ok {ω : Type} (ext : Externals ω) :
    ∀ (fuel : Nat) (self : AudioConversion) (w : ω) (framesRequested : Nat)
      (events : List Event) (self1 : AudioConversion) (w1 : ω) (events1 : List Event),
      pullLoop ext fuel self w framesRequested events = Except.ok (NO_ERROR, self1, w1, events1) →
      ∃ new, events1 = events ++ new ∧
        self1.mConvOutBufferIndex = self.mConvOutBufferIndex + (writtenBytes new).length ∧
        self1.mConvOutBuffer.take self1.mConvOutBufferIndex =
          self.mConvOutBuffer.take self.mConvOutBufferIndex ++ writtenBytes new ∧
        self1.mConvOutBuffer.length = self.mConvOutBuffer.length ∧
        self1.mConvOutFrames = self.mConvOutFrames + convertedFrames new ∧
        (writtenBytes new).length = self.mSsDst.convertFramesToBytes (convertedFrames new) ∧
        framesRequested ≤ convertedFrames new ∧
        self1.mSsDst = self.mSsDst ∧ self1.mSsSrc = self.mSsSrc ∧
        self1.mActiveAudioConvList = self.mActiveAudioConvList ∧
        self1.mConvOutBufferSizeInFrames = self.mConvOutBufferSizeInFrames := by
  intro fuel
  induction fuel with
  | zero =>
    intro self w fr events self1 w1 events1 h
    cases fr with
    | zero =>
      simp only [pullLoop, Except.ok.injEq, Prod.mk.injEq, true_and] at h
      obtain ⟨h1, h2, h3⟩ := h
      subst h1 h2 h3
      exact ⟨[], by simp [writtenBytes, convertedFrames, SampleSpec.convertFramesToBytes]⟩
    | succ n => simp [pullLoop] at h
  | succ fuel ih =>
    intro self w fr events self1 w1 events1 h
    cases fr with
    | zero =>
      simp only [pullLoop, Except.ok.injEq, Prod.mk.injEq, true_and] at h
      obtain ⟨h1, h2, h3⟩ := h
      subst h1 h2 h3
      exact ⟨[], by simp [writtenBytes, convertedFrames, SampleSpec.convertFramesToBytes]⟩
    | succ n =>
      simp only [pullLoop] at h
      rcases hgd : ext.getNextBuffer w
          (convertSrcToDstInFrames (n + 1) self.mSsDst self.mSsSrc) with ⟨gs, gb, gw⟩
      simp only [hgd] at h
      by_cases hg : gs = NO_ERROR
      · simp only [hg, ne_eq, not_true_eq_false, if_false] at h
        rcases hcd : ext.convert gw gb with ⟨cs, cf, content, cw⟩
        simp only [hcd] at h
        by_cases hc : cs = NO_ERROR
        · simp only [hc, not_true_eq_false, if_false] at h
          cases hw : writeAt self.mConvOutBuffer self.mConvOutBufferIndex
              ((List.range (self.mSsDst.convertFramesToBytes cf)).map content) with
          | none => simp [hw] at h
          | some buf =>
            simp only [hw] at h
            obtain ⟨new, e1, e2, e3, e4, e5, e6, e7, e8, e9, e10, e11⟩ := ih _ _ _ _ _ _ _ h
            dsimp only at e2 e3 e4 e5 e6 e7 e8 e9 e10 e11
            obtain ⟨t1, t2⟩ := writeAt_take _ _ _ _ hw
            simp only [List.length_map, List.length_range] at t1
            have wb : writtenBytes (Event.getNextBuffer
                (convertSrcToDstInFrames (n + 1) self.mSsDst self.mSsSrc) NO_ERROR gb ::
              Event.convert gb NO_ERROR cf
                ((List.range (self.mSsDst.convertFramesToBytes cf)).map content) ::
              Event.releaseBuffer gb :: new) =
                (List.range (self.mSsDst.convertFramesToBytes cf)).map content ++
                  writtenBytes new := rfl
            have cfr : convertedFrames (Event.getNextBuffer
                (convertSrcToDstInFrames (n + 1) self.mSsDst self.mSsSrc) NO_ERROR gb ::
              Event.convert gb NO_ERROR cf
                ((List.range (self.mSsDst.convertFramesToBytes cf)).map content) ::
              Event.releaseBuffer gb :: new) = cf + convertedFrames new := by
              simp [convertedFrames]
            refine ⟨Event.getNextBuffer
                (convertSrcToDstInFrames (n + 1) self.mSsDst self.mSsSrc) NO_ERROR gb ::
              Event.convert gb NO_ERROR cf
                ((List.range (self.mSsDst.convertFramesToBytes cf)).map content) ::
              Event.releaseBuffer gb :: new, ?_, ?_, ?_, ?_, ?_, ?_, ?_, e8, e9, e10, e11⟩
            · rw [e1]; simp
            · rw [e2, wb]
              simp only [List.length_append, List.length_map, List.length_range]
              omega
            · rw [e3, wb, t1, List.append_assoc]
            · rw [e4, t2]
            · rw [e5, cfr]
              omega
            · rw [wb, cfr, convertFramesToBytes_add]
              simp only [List.length_append, List.length_map, List.length_range, e6]
            · rw [cfr]
              omega
        · simp only [hc, not_false_eq_true, if_true, Except.ok.injEq, Prod.mk.injEq] at h
          exact h.1.elim
      · simp only [hg, ne_eq, not_false_eq_true, if_true, Except.ok.injEq, Prod.mk.injEq] at h
        exact h.1.elim

theorem pullLoop_zero {ω : Type} (ext : Externals ω) (fuel : Nat) (self : AudioConversion)
    (w : ω) (events : List Event) :
    pullLoop ext fuel self w 0 events = Except.ok (NO_ERROR, self, w, events) := by
  cases fuel <;> rfl

/-- The growth block, when it goes through, keeps the object but for the buffer and its
recorded capacity; the bytes of the buffer are kept as far as the new block reaches. -/
theorem growBuffer_ok {ω : Type} (ext : Externals ω) (self : AudioConversion) (w : ω)
    (outFrames : Nat) (h : (growBuffer ext self w outFrames).1 = true) :
    (growBuffer ext self w outFrames).2.1.mConvOutBufferIndex = self.mConvOutBufferIndex ∧
      (growBuffer ext self w outFrames).2.1.mConvOutFrames = self.mConvOutFrames ∧
      (growBuffer ext self w outFrames).2.1.mSsDst = self.mSsDst ∧
      (growBuffer ext self w outFrames).2.1.mSsSrc = self.mSsSrc ∧
      (growBuffer ext self w outFrames).2.1.mActiveAudioConvList = self.mActiveAudioConvList ∧
      writtenBytes (growBuffer ext self w outFrames).2.2.2 = [] ∧
      convertedFrames (growBuffer ext self w outFrames).2.2.2 = 0 ∧
      ((growBuffer ext self w outFrames).2.1.mConvOutBuffer = self.mConvOutBuffer ∨
        ((growBuffer ext self w outFrames).2.1.mConvOutBuffer.length =
            sizeT (self.mSsDst.convertFramesToBytes (sizeT (outFrames + 22))) ∧
          ∀ k, k ≤ self.mConvOutBuffer.length →
            k ≤ sizeT (self.mSsDst.convertFramesToBytes (sizeT (outFrames + 22))) →
            (growBuffer ext self w outFrames).2.1.mConvOutBuffer.take k =
              self.mConvOutBuffer.take k)) := by
  unfold growBuffer at h ⊢
  by_cases hlt : self.mConvOutBufferSizeInFrames < outFrames
  · simp only [hlt, if_true] at h ⊢
    have h22 : mMaxRate / mMinRate * mAllocBufferMultFactor = 22 := by decide
    cases hre : (ext.realloc w (sizeT (self.mSsDst.convertFramesToBytes
        (sizeT (outFrames + mMaxRate / mMinRate * mAllocBufferMultFactor))))).1 with
    | none => simp [hre] at h
    | some fresh =>
      simp only [hre, writtenBytes, convertedFrames, true_and]
      right
      rw [h22]
      exact ⟨reallocBlock_length _ _ _, fun k h1 h2 => reallocBlock_take _ _ _ _ h1 h2⟩
  · simp [hlt, writtenBytes, convertedFrames]

theorem drainBuffered_eq (self : AudioConversion) (outFrames : Nat) :
    (drainBuffered self outFrames).1 = outFrames - min outFrames self.mConvOutFrames ∧
      (drainBuffered self outFrames).2.mConvOutBufferIndex =
        self.mConvOutBufferIndex +
          self.mSsDst.convertFramesToBytes (min outFrames self.mConvOutFrames) ∧
      (drainBuffered self outFrames).2.mConvOutBuffer = self.mConvOutBuffer ∧
      (drainBuffered self outFrames).2.mConvOutFrames = self.mConvOutFrames ∧
      (drainBuffered self outFrames).2.mSsDst = self.mSsDst ∧
      (drainBuffered self outFrames).2.mSsSrc = self.mSsSrc ∧
      (drainBuffered self outFrames).2.mActiveAudioConvList = self.mActiveAudioConvList ∧
      (drainBuffered self outFrames).2.mConvOutBufferSizeInFrames =
        self.mConvOutBufferSizeInFrames := by
  unfold drainBuffered
  by_cases h : self.mConvOutFrames = 0
  · simp [h, SampleSpec.convertFramesToBytes]
  · simp [h]

/-- What the final block does when it goes through. -/
theorem copyOut_ok (self self1 : AudioConversion) (outFrames : Nat) (dst : List Nat)
    (h : copyOut self outFrames = Except.ok (dst, self1)) :
    self.mSsDst.convertFramesToBytes outFrames ≤ self.mConvOutBuffer.length ∧
      dst = self.mConvOutBuffer.take (self.mSsDst.convertFramesToBytes outFrames) ∧
      self1.mConvOutFrames = self.mConvOutFrames - outFrames ∧
      self1.mConvOutBufferIndex = 0 ∧
      self1.mSsDst = self.mSsDst ∧ self1.mSsSrc = self.mSsSrc ∧
      self1.mActiveAudioConvList = self.mActiveAudioConvList ∧
      self1.mConvOutBufferSizeInFrames = self.mConvOutBufferSizeInFrames ∧
      self.mSsDst.convertFramesToBytes outFrames +
          self.mSsDst.convertFramesToBytes (self.mConvOutFrames - outFrames) ≤
        self.mConvOutBuffer.length ∧
      self1.mConvOutBuffer.take (self.mSsDst.convertFramesToBytes
          (self.mConvOutFrames - outFrames)) =
        (self.mConvOutBuffer.drop (self.mSsDst.convertFramesToBytes outFrames)).take
          (self.mSsDst.convertFramesToBytes (self.mConvOutFrames - outFrames)) := by
  unfold copyOut at h
  by_cases h1 : self.mSsDst.convertFramesToBytes outFrames > self.mConvOutBuffer.length
  · simp [h1] at h
  · simp only [h1, if_false] at h
    by_cases h2 : self.mConvOutFrames - outFrames = 0
    · simp only [h2, ne_eq, not_true_eq_false, if_false, Except.ok.injEq, Prod.mk.injEq] at h
      obtain ⟨hd, hs⟩ := h
      subst hd hs
      have hz : self.mSsDst.convertFramesToBytes 0 = 0 := by
        simp [SampleSpec.convertFramesToBytes]
      simp only [h2, hz, List.take_zero, Nat.add_zero, and_true, true_and]
      omega
    · simp only [h2, ne_eq, not_false_eq_true, if_true] at h
      by_cases h3 : self.mSsDst.convertFramesToBytes outFrames +
          self.mSsDst.convertFramesToBytes (self.mConvOutFrames - outFrames) >
            self.mConvOutBuffer.length
      · simp [h3] at h
      · simp only [h3, if_false, Except.ok.injEq, Prod.mk.injEq] at h
        obtain ⟨hd, hs⟩ := h
        subst hd hs
        refine ⟨by omega, rfl, rfl, rfl, rfl, rfl, rfl, rfl, by omega, ?_⟩
        dsimp only
        rw [List.take_append_of_le_length]
        · rw [List.take_take, Nat.min_self]
        · simp only [List.length_take, List.length_drop]
          omega

theorem take_drop_eq (l : List Nat) (i j : Nat) :
    (l.drop i).take j = (l.take (i + j)).drop i := by
  rw [List.drop_take]
  congr 1
  omega

/-- A call of `getConvertedBuffer` that ends with NO_ERROR, from a state with index 0 whose
buffered frames are inside the buffer: what is delivered and what is kept. -/
theorem getConvertedBuffer_ok {ω : Type} (ext : Externals ω) (fuel : Nat)
    (self : AudioConversion) (w : ω) (dstValid providerValid : Bool) (outFrames : Nat)
    (r : PullResult ω) (hidx : self.mConvOutBufferIndex = 0)
    (hinv : self.mSsDst.convertFramesToBytes self.mConvOutFrames ≤ self.mConvOutBuffer.length)
    (h : getConvertedBuffer ext fuel self w dstValid providerValid outFrames = Except.ok r)
    (hs : r.status = NO_ERROR) :
    r.dst = some ((self.mConvOutBuffer.take (self.mSsDst.convertFramesToBytes
        self.mConvOutFrames) ++ writtenBytes r.events).take
          (self.mSsDst.convertFramesToBytes outFrames)) ∧
      self.mSsDst.convertFramesToBytes outFrames ≤
        (self.mConvOutBuffer.take (self.mSsDst.convertFramesToBytes self.mConvOutFrames) ++
          writtenBytes r.events).length ∧
      r.self.mConvOutBuffer.take (self.mSsDst.convertFramesToBytes r.self.mConvOutFrames) =
        (self.mConvOutBuffer.take (self.mSsDst.convertFramesToBytes self.mConvOutFrames) ++
          writtenBytes r.events).drop (self.mSsDst.convertFramesToBytes outFrames) ∧
      r.self.mConvOutFrames + outFrames = self.mConvOutFrames + convertedFrames r.events ∧
      r.self.mConvOutBufferIndex = 0 ∧
      r.self.mSsDst = self.mSsDst ∧ r.self.mSsSrc = self.mSsSrc ∧
      r.self.mActiveAudioConvList = self.mActiveAudioConvList ∧
      self.mSsDst.convertFramesToBytes r.self.mConvOutFrames ≤ r.self.mConvOutBuffer.length := by
  unfold getConvertedBuffer at h
  by_cases hnull : (!providerValid || !dstValid) = true
  · simp only [hnull, if_true, Except.ok.injEq] at h
    subst h
    simp [BAD_VALUE, NO_INIT, NO_MEMORY, NO_ERROR] at hs
  simp only [hnull, Bool.false_eq_true, if_false] at h
  by_cases hemp : self.mActiveAudioConvList.isEmpty = true
  · simp only [hemp, if_true, Except.ok.injEq] at h
    subst h
    simp [BAD_VALUE, NO_INIT, NO_MEMORY, NO_ERROR] at hs
  simp only [hemp, Bool.false_eq_true, if_false] at h
  by_cases hgrow : (growBuffer ext self w outFrames).1 = true
  swap
  · simp only [hgrow, Bool.not_false, if_true, Except.ok.injEq] at h
    subst h
    simp [BAD_VALUE, NO_INIT, NO_MEMORY, NO_ERROR] at hs
  simp only [hgrow, Bool.not_true, Bool.false_eq_true, if_false] at h
  obtain ⟨g1, g2, g3, g4, g5, g6, g7, g8⟩ := growBuffer_ok ext self w outFrames hgrow
  obtain ⟨d1, d2, d3, d4, d5, d6, d7, d8⟩ :=
    drainBuffered_eq (growBuffer ext self w outFrames).2.1 outFrames
  rw [g1, hidx, g2, g3, Nat.zero_add] at d2
  rw [g2] at d1 d4
  rw [g3] at d5
  cases hloop : pullLoop ext fuel (drainBuffered (growBuffer ext self w outFrames).2.1 outFrames).2
      (growBuffer ext self w outFrames).2.2.1
      (drainBuffered (growBuffer ext self w outFrames).2.1 outFrames).1
      (growBuffer ext self w outFrames).2.2.2 with
  | error e => simp [hloop] at h
  | ok val =>
    obtain ⟨st, s4, w3, ev3⟩ := val
    simp only [hloop] at h
    by_cases hst : st = NO_ERROR
    swap
    · simp only [hst, ne_eq, not_false_eq_true, if_true, Except.ok.injEq] at h
      subst h
      exact absurd hs hst
    subst hst
    simp only [ne_eq, not_true_eq_false, if_false] at h
    cases hco : copyOut s4 outFrames with
    | error e => simp [hco] at h
    | ok val2 =>
      obtain ⟨dst, s5⟩ := val2
      simp only [hco, Except.ok.injEq] at h
      subst h
      dsimp only
      obtain ⟨c1, c2, c3, c4, c5, c6, c7, c8, c9, c10⟩ := copyOut_ok s4 s5 outFrames dst hco
      have hbb : (self.mConvOutBuffer.take
          (self.mSsDst.convertFramesToBytes self.mConvOutFrames)).length =
            self.mSsDst.convertFramesToBytes self.mConvOutFrames := by
        rw [List.length_take]; omega
      -- the state reached by the loop holds the pending bytes at the start of the buffer
      have key : s4.mSsDst = self.mSsDst ∧ s4.mSsSrc = self.mSsSrc ∧
          s4.mActiveAudioConvList = self.mActiveAudioConvList ∧
          s4.mConvOutFrames = self.mConvOutFrames + convertedFrames ev3 ∧
          outFrames ≤ self.mConvOutFrames + convertedFrames ev3 ∧
          (writtenBytes ev3).length = self.mSsDst.convertFramesToBytes (convertedFrames ev3) ∧
          s4.mConvOutBuffer.take (self.mSsDst.convertFramesToBytes
              (self.mConvOutFrames + convertedFrames ev3)) =
            self.mConvOutBuffer.take (self.mSsDst.convertFramesToBytes self.mConvOutFrames) ++
              writtenBytes ev3 := by
        by_cases hcase : outFrames ≤ self.mConvOutFrames
        · have hfr : (drainBuffered (growBuffer ext self w outFrames).2.1 outFrames).1 = 0 := by
            rw [d1, Nat.min_eq_left hcase]; omega
          rw [hfr, pullLoop_zero] at hloop
          simp only [Except.ok.injEq, Prod.mk.injEq, true_and] at hloop
          obtain ⟨l1, l2, l3⟩ := hloop
          subst l1 l2 l3
          rw [g6, g7]
          have hz : self.mSsDst.convertFramesToBytes 0 = 0 := by
            simp [SampleSpec.convertFramesToBytes]
          refine ⟨d5, by rw [d6, g4], by rw [d7, g5], by rw [d4]; rfl, by omega,
            by simp [hz], ?_⟩
          rw [Nat.add_zero, List.append_nil, d3]
          rcases g8 with g8 | ⟨g8, g9⟩
          · rw [g8]
          · apply g9 _ hinv
            rw [d5] at c9
            rw [d3, g8, d4] at c9
            have := convertFramesToBytes_add self.mSsDst outFrames
              (self.mConvOutFrames - outFrames)
            rw [Nat.add_sub_cancel' hcase] at this
            omega
        · have hlt : self.mConvOutFrames < outFrames := by omega
          obtain ⟨newEv, e1, e2, e3, e4, e5, e6, e7, e8, e9, e10, e11⟩ :=
            pullLoop_ok ext fuel _ _ _ _ _ _ _ hloop
          rw [d1, Nat.min_eq_right (Nat.le_of_lt hlt)] at e7
          rw [d2, Nat.min_eq_right (Nat.le_of_lt hlt)] at e2 e3
          rw [d5] at e6 e8
          rw [d4] at e5
          rw [d3] at e3
          have hw : writtenBytes ev3 = writtenBytes newEv := by
            rw [e1, writtenBytes_append, g6, List.nil_append]
          have hc : convertedFrames ev3 = convertedFrames newEv := by
            rw [e1, convertedFrames_append, g7, Nat.zero_add]
          rw [hw, hc]
          refine ⟨e8, by rw [e9, d6, g4], by rw [e10, d7, g5], e5, by omega, e6, ?_⟩
          rw [convertFramesToBytes_add, ← e6, ← e2, e3]
          congr 1
          rcases g8 with g8 | ⟨g8, g9⟩
          · rw [g8]
          · apply g9 _ hinv
            have hm := convertFramesToBytes_mono self.mSsDst _ _ (Nat.le_of_lt hlt)
            rw [e8] at c9
            rw [e4, d3, g8] at c9
            omega
      obtain ⟨k1, k2, k3, k4, k5, k6, k7⟩ := key
      rw [k1] at c1 c2 c5 c9 c10
      rw [k4] at c3 c9 c10
      have hlen : (self.mConvOutBuffer.take
            (self.mSsDst.convertFramesToBytes self.mConvOutFrames) ++ writtenBytes ev3).length =
          self.mSsDst.convertFramesToBytes (self.mConvOutFrames + convertedFrames ev3) := by
        rw [List.length_append, hbb, k6, convertFramesToBytes_add]
      have hsplit : self.mSsDst.convertFramesToBytes outFrames +
          self.mSsDst.convertFramesToBytes
            (self.mConvOutFrames + convertedFrames ev3 - outFrames) =
          self.mSsDst.convertFramesToBytes (self.mConvOutFrames + convertedFrames ev3) := by
        rw [← convertFramesToBytes_add, Nat.add_sub_cancel' k5]
      have hbo : self.mSsDst.convertFramesToBytes outFrames ≤
          self.mSsDst.convertFramesToBytes (self.mConvOutFrames + convertedFrames ev3) :=
        convertFramesToBytes_mono _ _ _ k5
      have hdrop : s5.mConvOutBuffer.take (self.mSsDst.convertFramesToBytes s5.mConvOutFrames) =
          (self.mConvOutBuffer.take (self.mSsDst.convertFramesToBytes self.mConvOutFrames) ++
            writtenBytes ev3).drop (self.mSsDst.convertFramesToBytes outFrames) := by
        rw [c3, c10, take_drop_eq, hsplit, k7]
      refine ⟨?_, ?_, hdrop, ?_, c4, ?_, ?_, ?_, ?_⟩
      · rw [c2, ← k7, List.take_take, Nat.min_eq_left hbo]
      · rw [hlen]; exact hbo
      · rw [c3]; omega
      · exact c5
      · rw [c6, k2]
      · rw [c7, k3]
      · have h1 := congrArg List.length hdrop
        rw [List.length_take, List.length_drop, hlen, c3] at h1
        rw [c3]
        omega

/-- C2: when `getConvertedBuffer(dst, outFrames, provider)` returns NO_ERROR, from a state
whose index is 0 (its buffered frames being inside the buffer), the caller's buffer holds
exactly `outFrames` frames: the frames that were buffered, followed by the frames converted
during the call in pull order, cut to `outFrames` frames; the surplus is kept, in order, at
the start of the accumulation buffer, the buffered frame count is that surplus (buffered +
converted - outFrames), and the index is 0. -/
theorem getConvertedBuffer_delivers {ω : Type} (ext : Externals ω) (fuel : Nat)
    (self : AudioConversion) (w : ω) (dstValid providerValid : Bool) (outFrames : Nat)
    (r : PullResult ω) (hidx : self.mConvOutBufferIndex = 0)
    (hinv : self.mSsDst.convertFramesToBytes self.mConvOutFrames ≤ self.mConvOutBuffer.length)
    (h : getConvertedBuffer ext fuel self w dstValid providerValid outFrames = Except.ok r)
    (hs : r.status = NO_ERROR) :
    r.dst = some ((self.mConvOutBuffer.take (self.mSsDst.convertFramesToBytes
        self.mConvOutFrames) ++ writtenBytes r.events).take
          (self.mSsDst.convertFramesToBytes outFrames)) ∧
      ((self.mConvOutBuffer.take (self.mSsDst.convertFramesToBytes self.mConvOutFrames) ++
          writtenBytes r.events).take (self.mSsDst.convertFramesToBytes outFrames)).length =
        self.mSsDst.convertFramesToBytes outFrames ∧
      r.self.mConvOutBuffer.take (self.mSsDst.convertFramesToBytes r.self.mConvOutFrames) =
        (self.mConvOutBuffer.take (self.mSsDst.convertFramesToBytes self.mConvOutFrames) ++
          writtenBytes r.events).drop (self.mSsDst.convertFramesToBytes outFrames) ∧
      r.self.mConvOutFrames = self.mConvOutFrames + convertedFrames r.events - outFrames ∧
      outFrames ≤ self.mConvOutFrames + convertedFrames r.events ∧
      r.self.mConvOutBufferIndex = 0 := by
  obtain ⟨a1, a2, a3, a4, a5, _⟩ :=
    getConvertedBuffer_ok ext fuel self w dstValid providerValid outFrames r hidx hinv h hs
  refine ⟨a1, ?_, a3, by omega, by omega, a5⟩
  rw [List.length_take]
  omega

theorem getConvertedBuffer_delivers_witness :
    firstPull.self.mConvOutBufferIndex = 0 ∧
      getConvertedBuffer streamExternals 10 firstPull.self firstPull.world true true 3 =
        Except.ok secondPull ∧
      secondPull.status = NO_ERROR ∧
      secondPull.dst = some [3, 3, 4, 4, 5, 5] ∧
      secondPull.dst = some ((firstPull.self.mConvOutBuffer.take
        (firstPull.self.mSsDst.convertFramesToBytes firstPull.self.mConvOutFrames) ++
          writtenBytes secondPull.events).take
            (firstPull.self.mSsDst.convertFramesToBytes 3)) :=
  ⟨by decide, rfl, by decide, by decide,
    (getConvertedBuffer_delivers streamExternals 10 firstPull.self firstPull.world true true 3
      secondPull (by decide) (by decide) rfl (by decide)).1⟩

/-- A successful run of the pull loop over a provider that serves a fixed stream, with a
conversion that works frame by frame: the destination bytes of the stream are those written
followed by those of what is left of the stream. -/
theorem pullLoop_stream {ω : Type} (ext : Externals ω) (stream : ω → List Nat)
    (f : List Nat → List Nat) (ssDst : SampleSpec)
    (hf : ∀ x y, f (x ++ y) = f x ++ f y)
    (hget : ∀ w n, (ext.getNextBuffer w n).1 = NO_ERROR →
      stream w = (ext.getNextBuffer w n).2.1.raw ++ stream (ext.getNextBuffer w n).2.2)
    (hconv : ∀ w b, (ext.convert w b).1 = NO_ERROR →
      (List.range (ssDst.convertFramesToBytes (ext.convert w b).2.1)).map
          (ext.convert w b).2.2.1 = f b.raw ∧
        stream (ext.convert w b).2.2.2 = stream w)
    (hrel : ∀ w b, stream (ext.releaseBuffer w b) = stream w) :
    ∀ (fuel : Nat) (self : AudioConversion) (w : ω) (framesRequested : Nat)
      (events : List Event) (self1 : AudioConversion) (w1 : ω) (events1 : List Event),
      self.mSsDst = ssDst →
      pullLoop ext fuel self w framesRequested events = Except.ok (NO_ERROR, self1, w1, events1) →
      ∃ new, events1 = events ++ new ∧ f (stream w) = writtenBytes new ++ f (stream w1) := by
  intro fuel
  induction fuel with
  | zero =>
    intro self w fr events self1 w1 events1 _ h
    cases fr with
    | zero =>
      simp only [pullLoop, Except.ok.injEq, Prod.mk.injEq, true_and] at h
      obtain ⟨_, h2, h3⟩ := h
      subst h2 h3
      exact ⟨[], by simp, by simp [writtenBytes]⟩
    | succ n => simp [pullLoop] at h
  | succ fuel ih =>
    intro self w fr events self1 w1 events1 hdst h
    cases fr with
    | zero =>
      simp only [pullLoop, Except.ok.injEq, Prod.mk.injEq, true_and] at h
      obtain ⟨_, h2, h3⟩ := h
      subst h2 h3
      exact ⟨[], by simp, by simp [writtenBytes]⟩
    | succ n =>
      simp only [pullLoop] at h
      have hget1 := hget w (convertSrcToDstInFrames (n + 1) self.mSsDst self.mSsSrc)
      rcases hgd : ext.getNextBuffer w
          (convertSrcToDstInFrames (n + 1) self.mSsDst self.mSsSrc) with ⟨gs, gb, gw⟩
      simp only [hgd] at h hget1
      by_cases hg : gs = NO_ERROR
      · simp only [hg, ne_eq, not_true_eq_false, if_false] at h
        have hconv1 := hconv gw gb
        rcases hcd : ext.convert gw gb with ⟨cs, cf, content, cw⟩
        simp only [hcd] at h hconv1
        by_cases hc : cs = NO_ERROR
        · simp only [hc, not_true_eq_false, if_false] at h
          cases hw : writeAt self.mConvOutBuffer self.mConvOutBufferIndex
              ((List.range (self.mSsDst.convertFramesToBytes cf)).map content) with
          | none => simp [hw] at h
          | some buf =>
            simp only [hw] at h
            have hrec := fun hd => ih _ _ _ _ _ _ _ hd h
            obtain ⟨new, e1, e2⟩ := hrec hdst
            obtain ⟨v1, v2⟩ := hconv1 hc
            refine ⟨Event.getNextBuffer
                (convertSrcToDstInFrames (n + 1) self.mSsDst self.mSsSrc) NO_ERROR gb ::
              Event.convert gb NO_ERROR cf
                ((List.range (self.mSsDst.convertFramesToBytes cf)).map content) ::
              Event.releaseBuffer gb :: new, ?_, ?_⟩
            · rw [e1]; simp
            · rw [hrel, v2] at e2
              rw [hget1 hg, hf, e2, hdst, v1]
              simp [writtenBytes]
        · simp only [hc, not_false_eq_true, if_true, Except.ok.injEq, Prod.mk.injEq] at h
          exact h.1.elim
      · simp only [hg, ne_eq, not_false_eq_true, if_true, Except.ok.injEq, Prod.mk.injEq] at h
        exact h.1.elim

/-- The parts of a call of `getConvertedBuffer` that ends with NO_ERROR. -/
theorem getConvertedBuffer_parts {ω : Type} (ext : Externals ω) (fuel : Nat)
    (self : AudioConversion) (w : ω) (dstValid providerValid : Bool) (outFrames : Nat)
    (r : PullResult ω)
    (h : getConvertedBuffer ext fuel self w dstValid providerValid outFrames = Except.ok r)
    (hs : r.status = NO_ERROR) :
    (growBuffer ext self w outFrames).1 = true ∧
      ∃ s4 dst,
        pullLoop ext fuel (drainBuffered (growBuffer ext self w outFrames).2.1 outFrames).2
            (growBuffer ext self w outFrames).2.2.1
            (drainBuffered (growBuffer ext self w outFrames).2.1 outFrames).1
            (growBuffer ext self w outFrames).2.2.2 =
          Except.ok (NO_ERROR, s4, r.world, r.events) ∧
        copyOut s4 outFrames = Except.ok (dst, r.self) ∧ r.dst = some dst := by
  unfold getConvertedBuffer at h
  by_cases hnull : (!providerValid || !dstValid) = true
  · simp only [hnull, if_true, Except.ok.injEq] at h
    subst h
    simp [BAD_VALUE, NO_INIT, NO_MEMORY, NO_ERROR] at hs
  simp only [hnull, Bool.false_eq_true, if_false] at h
  by_cases hemp : self.mActiveAudioConvList.isEmpty = true
  · simp only [hemp, if_true, Except.ok.injEq] at h
    subst h
    simp [BAD_VALUE, NO_INIT, NO_MEMORY, NO_ERROR] at hs
  simp only [hemp, Bool.false_eq_true, if_false] at h
  by_cases hgrow : (growBuffer ext self w outFrames).1 = true
  swap
  · simp only [hgrow, Bool.not_false, if_true, Except.ok.injEq] at h
    subst h
    simp [BAD_VALUE, NO_INIT, NO_MEMORY, NO_ERROR] at hs
  simp only [hgrow, Bool.not_true, Bool.false_eq_true, if_false] at h
  refine ⟨hgrow, ?_⟩
  cases hloop : pullLoop ext fuel (drainBuffered (growBuffer ext self w outFrames).2.1 outFrames).2
      (growBuffer ext self w outFrames).2.2.1
      (drainBuffered (growBuffer ext self w outFrames).2.1 outFrames).1
      (growBuffer ext self w outFrames).2.2.2 with
  | error e => simp [hloop] at h
  | ok val =>
    obtain ⟨st, s4, w3, ev3⟩ := val
    simp only [hloop] at h
    by_cases hst : st = NO_ERROR
    swap
    · simp only [hst, ne_eq, not_false_eq_true, if_true, Except.ok.injEq] at h
      subst h
      exact absurd hs hst
    subst hst
    simp only [ne_eq, not_true_eq_false, if_false] at h
    cases hco : copyOut s4 outFrames with
    | error e => simp [hco] at h
    | ok val2 =>
      obtain ⟨dst, s5⟩ := val2
      simp only [hco, Except.ok.injEq] at h
      subst h
      exact ⟨s4, dst, rfl, hco, rfl⟩

theorem growBuffer_world {ω : Type} (ext : Externals ω) (self : AudioConversion) (w : ω)
    (outFrames : Nat) :
    (growBuffer ext self w outFrames).2.2.1 = w ∨
      ∃ n, (growBuffer ext self w outFrames).2.2.1 = (ext.realloc w n).2 := by
  unfold growBuffer
  by_cases hlt : self.mConvOutBufferSizeInFrames < outFrames
  · right
    simp only [hlt, if_true]
    refine ⟨sizeT (self.mSsDst.convertFramesToBytes
      (sizeT (outFrames + mMaxRate / mMinRate * mAllocBufferMultFactor))), ?_⟩
    cases (ext.realloc w (sizeT (self.mSsDst.convertFramesToBytes
      (sizeT (outFrames + mMaxRate / mMinRate * mAllocBufferMultFactor))))).1 <;> rfl
  · left
    simp [hlt]

/-- A call that ends with NO_ERROR delivers the first bytes of the pending destination
stream (the buffered frames, then the conversion of what is left of the source stream) and
leaves the rest of it pending. -/
theorem getConvertedBuffer_pending {ω : Type} (ext : Externals ω) (stream : ω → List Nat)
    (f : List Nat → List Nat) (ssDst : SampleSpec)
    (hf : ∀ x y, f (x ++ y) = f x ++ f y)
    (hget : ∀ w n, (ext.getNextBuffer w n).1 = NO_ERROR →
      stream w = (ext.getNextBuffer w n).2.1.raw ++ stream (ext.getNextBuffer w n).2.2)
    (hconv : ∀ w b, (ext.convert w b).1 = NO_ERROR →
      (List.range (ssDst.convertFramesToBytes (ext.convert w b).2.1)).map
          (ext.convert w b).2.2.1 = f b.raw ∧
        stream (ext.convert w b).2.2.2 = stream w)
    (hrel : ∀ w b, stream (ext.releaseBuffer w b) = stream w)
    (hre : ∀ w n, stream (ext.realloc w n).2 = stream w)
    (fuel : Nat) (self : AudioConversion) (w : ω) (outFrames : Nat) (r : PullResult ω)
    (hdst : self.mSsDst = ssDst) (hidx : self.mConvOutBufferIndex = 0)
    (hinv : ssDst.convertFramesToBytes self.mConvOutFrames ≤ self.mConvOutBuffer.length)
    (h : getConvertedBuffer ext fuel self w true true outFrames = Except.ok r)
    (hs : r.status = NO_ERROR) :
    r.dst = some ((self.mConvOutBuffer.take (ssDst.convertFramesToBytes self.mConvOutFrames) ++
        f (stream w)).take (ssDst.convertFramesToBytes outFrames)) ∧
      r.self.mConvOutBuffer.take (ssDst.convertFramesToBytes r.self.mConvOutFrames) ++
          f (stream r.world) =
        (self.mConvOutBuffer.take (ssDst.convertFramesToBytes self.mConvOutFrames) ++
          f (stream w)).drop (ssDst.convertFramesToBytes outFrames) ∧
      r.self.mSsDst = ssDst ∧ r.self.mConvOutBufferIndex = 0 ∧
      ssDst.convertFramesToBytes r.self.mConvOutFrames ≤ r.self.mConvOutBuffer.length := by
  subst hdst
  obtain ⟨a1, a2, a3, _, a5, a6, _, _, a9⟩ :=
    getConvertedBuffer_ok ext fuel self w true true outFrames r hidx hinv h hs
  obtain ⟨hgrow, s4, dst, hloop, _, _⟩ :=
    getConvertedBuffer_parts ext fuel self w true true outFrames r h hs
  obtain ⟨g1, g2, g3, g4, g5, g6, g7, g8⟩ := growBuffer_ok ext self w outFrames hgrow
  obtain ⟨_, _, _, _, d5, _⟩ :=
    drainBuffered_eq (growBuffer ext self w outFrames).2.1 outFrames
  obtain ⟨new, e1, e2⟩ := pullLoop_stream ext stream f self.mSsDst hf hget hconv hrel fuel
    _ _ _ _ _ _ _ (by rw [d5, g3]) hloop
  have hworld : stream (growBuffer ext self w outFrames).2.2.1 = stream w := by
    rcases growBuffer_world ext self w outFrames with hw | ⟨n, hw⟩
    · rw [hw]
    · rw [hw, hre]
  have hwr : writtenBytes r.events = writtenBytes new := by
    rw [e1, writtenBytes_append, g6, List.nil_append]
  rw [hworld, ← hwr] at e2
  refine ⟨?_, ?_, a6, a5, a9⟩
  · rw [a1, e2, ← List.append_assoc, List.take_append_of_le_length a2]
  · rw [a3, e2, ← List.append_assoc, List.drop_append_of_le_length a2]

/-- C3: pull accounting. For an engine whose conversion works frame by frame (the output for
a concatenation of source buffers is the concatenation of the outputs) and a provider that
serves one fixed source stream, a successful request for `N` frames followed by a successful
request for `M` frames delivers, concatenated, the same bytes in the same order as a single
successful request for `N + M` frames from the same initial state. The initial state has
index 0 and its buffered frames inside the buffer, as every state of an engine driven by
such a provider and conversion (`getConvertedBuffer_keeps_index`). -/
theorem pull_accounting {ω : Type} (ext : Externals ω) (stream : ω → List Nat)
    (f : List Nat → List Nat)
    (fuel1 fuel2 fuel3 : Nat) (self : AudioConversion) (w : ω) (N M : Nat)
    (r1 r2 r : PullResult ω)
    (hf : ∀ x y, f (x ++ y) = f x ++ f y)
    (hget : ∀ w n, (ext.getNextBuffer w n).1 = NO_ERROR →
      stream w = (ext.getNextBuffer w n).2.1.raw ++ stream (ext.getNextBuffer w n).2.2)
    (hconv : ∀ w b, (ext.convert w b).1 = NO_ERROR →
      (List.range (self.mSsDst.convertFramesToBytes (ext.convert w b).2.1)).map
          (ext.convert w b).2.2.1 = f b.raw ∧
        stream (ext.convert w b).2.2.2 = stream w)
    (hrel : ∀ w b, stream (ext.releaseBuffer w b) = stream w)
    (hre : ∀ w n, stream (ext.realloc w n).2 = stream w)
    (hidx : self.mConvOutBufferIndex = 0)
    (hinv : self.mSsDst.convertFramesToBytes self.mConvOutFrames ≤ self.mConvOutBuffer.length)
    (h1 : getConvertedBuffer ext fuel1 self w true true N = Except.ok r1)
    (hs1 : r1.status = NO_ERROR)
    (h2 : getConvertedBuffer ext fuel2 r1.self r1.world true true M = Except.ok r2)
    (hs2 : r2.status = NO_ERROR)
    (h3 : getConvertedBuffer ext fuel3 self w true true (N + M) = Except.ok r)
    (hs3 : r.status = NO_ERROR) :
    ∃ d1 d2, r1.dst = some d1 ∧ r2.dst = some d2 ∧ r.dst = some (d1 ++ d2) := by
  obtain ⟨p1, p2, p3, p4, p5⟩ := getConvertedBuffer_pending ext stream f self.mSsDst hf hget
    hconv hrel hre fuel1 self w N r1 rfl hidx hinv h1 hs1
  obtain ⟨q1, _⟩ := getConvertedBuffer_pending ext stream f self.mSsDst hf hget
    hconv hrel hre fuel2 r1.self r1.world M r2 p3 p4 p5 h2 hs2
  obtain ⟨t1, _⟩ := getConvertedBuffer_pending ext stream f self.mSsDst hf hget
    hconv hrel hre fuel3 self w (N + M) r rfl hidx hinv h3 hs3
  refine ⟨_, _, p1, q1, ?_⟩
  rw [t1, p2, convertFramesToBytes_add, List.take_add]

theorem twice_append (x y : List Nat) : twice (x ++ y) = twice x ++ twice y := by
  induction x with
  | nil => rfl
  | cons a rest ih => simp [twice, ih]

theorem twice_length (x : List Nat) : (twice x).length = x.length * 2 := by
  induction x with
  | nil => rfl
  | cons a rest ih => simp [twice, ih]; omega

theorem range_map_getD (l : List Nat) :
    (List.range l.length).map (fun i => l.getD i 0) = l := by
  apply List.ext_getElem
  · simp
  · intro i h1 h2
    simp [List.getD_eq_getElem?_getD, List.getElem?_eq_getElem h2]

theorem streamExternals_get (w : List Nat) (n : Nat)
    (h : (streamExternals.getNextBuffer w n).1 = NO_ERROR) :
    id w = (streamExternals.getNextBuffer w n).2.1.raw ++
      id (streamExternals.getNextBuffer w n).2.2 := by
  unfold streamExternals at h ⊢
  by_cases hw : w = []
  · simp [hw, NO_ERROR] at h
  · simp [hw]

theorem streamExternals_convert (w : List Nat) (b : Buffer) :
    (List.range (pullEngine.mSsDst.convertFramesToBytes
        (streamExternals.convert w b).2.1)).map (streamExternals.convert w b).2.2.1 =
        twice b.raw ∧
      id (streamExternals.convert w b).2.2.2 = id w := by
  have hb : ∀ n, pullEngine.mSsDst.convertFramesToBytes n = n * 2 := fun n => rfl
  refine ⟨?_, rfl⟩
  show (List.range (pullEngine.mSsDst.convertFramesToBytes b.raw.length)).map
    (fun i => (twice b.raw).getD i 0) = twice b.raw
  rw [hb, ← twice_length]
  exact range_map_getD _

theorem pull_accounting_witness :
    getConvertedBuffer streamExternals 10 pullEngine [1, 2, 3, 4, 5, 6, 7, 8, 9] true true 2 =
        Except.ok firstPull ∧
      getConvertedBuffer streamExternals 10 firstPull.self firstPull.world true true 3 =
        Except.ok secondPull ∧
      getConvertedBuffer streamExternals 10 pullEngine [1, 2, 3, 4, 5, 6, 7, 8, 9] true true
        (2 + 3) = Except.ok singlePull ∧
      firstPull.dst = some [1, 1, 2, 2] ∧ secondPull.dst = some [3, 3, 4, 4, 5, 5] ∧
      ∃ d1 d2, firstPull.dst = some d1 ∧ secondPull.dst = some d2 ∧
        singlePull.dst = some (d1 ++ d2) :=
  ⟨rfl, rfl, rfl, by decide, by decide,
    pull_accounting streamExternals id twice 10 10 10 pullEngine [1, 2, 3, 4, 5, 6, 7, 8, 9]
      2 3 firstPull secondPull singlePull twice_append streamExternals_get
      (fun w b _ => streamExternals_convert w b) (fun _ _ => rfl) (fun _ _ => rfl)
      (by decide) (by decide) rfl (by decide) rfl (by decide) rfl (by decide)⟩

theorem flakyExternals_get (w : List Nat × Nat) (n : Nat)
    (h : (flakyExternals.getNextBuffer w n).1 = NO_ERROR) :
    w.1 = (flakyExternals.getNextBuffer w n).2.1.raw ++
      (flakyExternals.getNextBuffer w n).2.2.1 := by
  unfold flakyExternals at h ⊢
  by_cases h1 : w.2 = 1
  · simp [h1, NO_ERROR] at h
  · by_cases hw : w.1 = []
    · simp [h1, hw, NO_ERROR] at h
    · simp [h1, hw]

/-- The state left by a failed request. On an engine configured from mono to stereo, with a
provider that serves the stream 1, 2, ..., 9 and fails once, a first request succeeds and
leaves a frame buffered, a second request fails with the status of the provider and returns
with the index at 2; from that state a request for 1 frame followed by a request for 1 frame
delivers 3 3 then 4 4, while a single request for 2 frames delivers 3 3 2 2. -/
theorem requests_after_failed_request :
    (∀ x y, twice (x ++ y) = twice x ++ twice y) ∧
      (∀ (w : List Nat × Nat) (n : Nat), (flakyExternals.getNextBuffer w n).1 = NO_ERROR →
        w.1 = (flakyExternals.getNextBuffer w n).2.1.raw ++
          (flakyExternals.getNextBuffer w n).2.2.1) ∧
      getConvertedBuffer flakyExternals 10 pullEngine ([1, 2, 3, 4, 5, 6, 7, 8, 9], 2)
        true true 2 = Except.ok flakyFirst ∧
      flakyFirst.status = NO_ERROR ∧
      getConvertedBuffer flakyExternals 10 flakyFirst.self flakyFirst.world true true 3 =
        Except.ok flakyFailed ∧
      flakyFailed.status = -11 ∧
      flakyFailed.self.mConvOutBufferIndex = 2 ∧ flakyFailed.self.mConvOutFrames = 1 ∧
      getConvertedBuffer flakyExternals 10 flakyFailed.self flakyFailed.world true true 1 =
        Except.ok afterFailureN ∧
      afterFailureN.status = NO_ERROR ∧
      getConvertedBuffer flakyExternals 10 afterFailureN.self afterFailureN.world true true 1 =
        Except.ok afterFailureM ∧
      afterFailureM.status = NO_ERROR ∧
      getConvertedBuffer flakyExternals 10 flakyFailed.self flakyFailed.world true true
        (1 + 1) = Except.ok afterFailureSingle ∧
      afterFailureSingle.status = NO_ERROR ∧
      afterFailureN.dst = some [3, 3] ∧ afterFailureM.dst = some [4, 4] ∧
      afterFailureSingle.dst = some [3, 3, 2, 2] ∧
      ¬ ∃ d1 d2, afterFailureN.dst = some d1 ∧ afterFailureM.dst = some d2 ∧
        afterFailureSingle.dst = some (d1 ++ d2) := by
  refine ⟨twice_append, flakyExternals_get, rfl, by decide, rfl, by decide, by decide, by decide,
    rfl, by decide, rfl, by decide, rfl, by decide, by decide, by decide, by decide, ?_⟩
  rintro ⟨d1, d2, h1, h2, h3⟩
  have e1 : afterFailureN.dst = some [3, 3] := by decide
  have e2 : afterFailureM.dst = some [4, 4] := by decide
  have e3 : afterFailureSingle.dst = some [3, 3, 2, 2] := by decide
  rw [e1] at h1
  rw [e2] at h2
  rw [e3] at h3
  cases h1
  cases h2
  exact absurd h3 (by decide)

/-- With a provider and a conversion that do not fail, the pull loop ends with NO_ERROR
whenever it ends. -/
theorem pullLoop_status {ω : Type} (ext : Externals ω)
    (hget0 : ∀ w n, (ext.getNextBuffer w n).1 = NO_ERROR)
    (hconv0 : ∀ w b, (ext.convert w b).1 = NO_ERROR) :
    ∀ (fuel : Nat) (self : AudioConversion) (w : ω) (framesRequested : Nat)
      (events : List Event) (st : status_t) (self1 : AudioConversion) (w1 : ω)
      (events1 : List Event),
      pullLoop ext fuel self w framesRequested events = Except.ok (st, self1, w1, events1) →
      st = NO_ERROR := by
  intro fuel
  induction fuel with
  | zero =>
    intro self w fr events st self1 w1 events1 h
    cases fr with
    | zero =>
      simp only [pullLoop, Except.ok.injEq, Prod.mk.injEq] at h
      exact h.1.symm
    | succ n => simp [pullLoop] at h
  | succ fuel ih =>
    intro self w fr events st self1 w1 events1 h
    cases fr with
    | zero =>
      simp only [pullLoop, Except.ok.injEq, Prod.mk.injEq] at h
      exact h.1.symm
    | succ n =>
      simp only [pullLoop, hget0, hconv0, ne_eq, not_true_eq_false, if_false] at h
      cases hw : writeAt self.mConvOutBuffer self.mConvOutBufferIndex
          ((List.range (self.mSsDst.convertFramesToBytes (ext.convert (ext.getNextBuffer w
            (convertSrcToDstInFrames (n + 1) self.mSsDst self.mSsSrc)).2.2
            (ext.getNextBuffer w
              (convertSrcToDstInFrames (n + 1) self.mSsDst self.mSsSrc)).2.1).2.1)).map
            (ext.convert (ext.getNextBuffer w
              (convertSrcToDstInFrames (n + 1) self.mSsDst self.mSsSrc)).2.2
              (ext.getNextBuffer w
                (convertSrcToDstInFrames (n + 1) self.mSsDst self.mSsSrc)).2.1).2.2.1) with
      | none => simp [hw] at h
      | some buf =>
        simp only [hw] at h
        exact ih _ _ _ _ _ _ _ _ h

/-- The outcomes of `getConvertedBuffer`: an early exit that leaves the object as it was, a
failed `realloc`, a failed pull loop, or NO_ERROR. -/
theorem getConvertedBuffer_cases {ω : Type} (ext : Externals ω) (fuel : Nat)
    (self : AudioConversion) (w : ω) (dstValid providerValid : Bool) (outFrames : Nat)
    (r : PullResult ω)
    (h : getConvertedBuffer ext fuel self w dstValid providerValid outFrames = Except.ok r) :
    (r.self = self ∧ r.world = w ∧ r.events = [] ∧ r.dst = none ∧
        (r.status = BAD_VALUE ∨ r.status = NO_INIT)) ∨
      (r.status = NO_MEMORY ∧ (growBuffer ext self w outFrames).1 = false ∧
        r.self = (growBuffer ext self w outFrames).2.1 ∧ r.dst = none) ∨
      (r.status ≠ NO_ERROR ∧ r.dst = none ∧ (growBuffer ext self w outFrames).1 = true ∧
        pullLoop ext fuel (drainBuffered (growBuffer ext self w outFrames).2.1 outFrames).2
            (growBuffer ext self w outFrames).2.2.1
            (drainBuffered (growBuffer ext self w outFrames).2.1 outFrames).1
            (growBuffer ext self w outFrames).2.2.2 =
          Except.ok (r.status, r.self, r.world, r.events)) ∨
      r.status = NO_ERROR := by
  unfold getConvertedBuffer at h
  by_cases hnull : (!providerValid || !dstValid) = true
  · simp only [hnull, if_true, Except.ok.injEq] at h
    subst h
    exact Or.inl ⟨rfl, rfl, rfl, rfl, Or.inl rfl⟩
  simp only [hnull, Bool.false_eq_true, if_false] at h
  by_cases hemp : self.mActiveAudioConvList.isEmpty = true
  · simp only [hemp, if_true, Except.ok.injEq] at h
    subst h
    exact Or.inl ⟨rfl, rfl, rfl, rfl, Or.inr rfl⟩
  simp only [hemp, Bool.false_eq_true, if_false] at h
  by_cases hgrow : (growBuffer ext self w outFrames).1 = true
  swap
  · simp only [hgrow, Bool.not_false, if_true, Except.ok.injEq] at h
    subst h
    exact Or.inr (Or.inl ⟨rfl, by simpa using hgrow, rfl, rfl⟩)
  simp only [hgrow, Bool.not_true, Bool.false_eq_true, if_false] at h
  cases hloop : pullLoop ext fuel (drainBuffered (growBuffer ext self w outFrames).2.1 outFrames).2
      (growBuffer ext self w outFrames).2.2.1
      (drainBuffered (growBuffer ext self w outFrames).2.1 outFrames).1
      (growBuffer ext self w outFrames).2.2.2 with
  | error e => simp [hloop] at h
  | ok val =>
    obtain ⟨st, s4, w3, ev3⟩ := val
    simp only [hloop] at h
    by_cases hst : st = NO_ERROR
    swap
    · simp only [hst, ne_eq, not_false_eq_true, if_true, Except.ok.injEq] at h
      subst h
      exact Or.inr (Or.inr (Or.inl ⟨hst, rfl, hgrow, rfl⟩))
    subst hst
    simp only [ne_eq, not_true_eq_false, if_false] at h
    cases hco : copyOut s4 outFrames with
    | error e => simp [hco] at h
    | ok val2 =>
      obtain ⟨dst, s5⟩ := val2
      simp only [hco, Except.ok.injEq] at h
      subst h
      exact Or.inr (Or.inr (Or.inr rfl))

/-- The buffer and the frame count are untouched by a failed growth block, but for the
recorded capacity. -/
theorem growBuffer_failed {ω : Type} (ext : Externals ω) (self : AudioConversion) (w : ω)
    (outFrames : Nat) (h : (growBuffer ext self w outFrames).1 = false) :
    (growBuffer ext self w outFrames).2.1.mConvOutBufferIndex = self.mConvOutBufferIndex ∧
      (growBuffer ext self w outFrames).2.1.mConvOutFrames = self.mConvOutFrames ∧
      (growBuffer ext self w outFrames).2.1.mConvOutBuffer = self.mConvOutBuffer ∧
      (growBuffer ext self w outFrames).2.1.mSsDst = self.mSsDst := by
  unfold growBuffer at h ⊢
  by_cases hlt : self.mConvOutBufferSizeInFrames < outFrames
  · simp only [hlt, if_true] at h ⊢
    cases hre : (ext.realloc w (sizeT (self.mSsDst.convertFramesToBytes
        (sizeT (outFrames + mMaxRate / mMinRate * mAllocBufferMultFactor))))).1 with
    | none => simp [hre]
    | some fresh => simp [hre] at h
  · simp [hlt] at h

/-- With a provider and a conversion that do not fail, every call of `getConvertedBuffer`
that returns, whatever its status, keeps the index at 0 and the buffered frames inside the
buffer; `configure` establishes both. -/
theorem getConvertedBuffer_keeps_index {ω : Type} (ext : Externals ω)
    (hget0 : ∀ w n, (ext.getNextBuffer w n).1 = NO_ERROR)
    (hconv0 : ∀ w b, (ext.convert w b).1 = NO_ERROR)
    (fuel : Nat) (self : AudioConversion) (w : ω) (dstValid providerValid : Bool)
    (outFrames : Nat) (r : PullResult ω) (hidx : self.mConvOutBufferIndex = 0)
    (hinv : self.mSsDst.convertFramesToBytes self.mConvOutFrames ≤ self.mConvOutBuffer.length)
    (h : getConvertedBuffer ext fuel self w dstValid providerValid outFrames = Except.ok r) :
    r.self.mConvOutBufferIndex = 0 ∧ r.self.mSsDst = self.mSsDst ∧
      r.self.mSsDst.convertFramesToBytes r.self.mConvOutFrames ≤
        r.self.mConvOutBuffer.length := by
  rcases getConvertedBuffer_cases ext fuel self w dstValid providerValid outFrames r h with
    ⟨h1, _⟩ | ⟨_, h2, h3, _⟩ | ⟨h4, _, _, h5⟩ | h6
  · rw [h1]; exact ⟨hidx, rfl, hinv⟩
  · obtain ⟨f1, f2, f3, f4⟩ := growBuffer_failed ext self w outFrames h2
    rw [h3, f1, f2, f3, f4]
    exact ⟨hidx, rfl, hinv⟩
  · exact absurd (pullLoop_status ext hget0 hconv0 _ _ _ _ _ _ _ _ _ h5) h4
  · obtain ⟨_, _, _, _, a5, a6, _, _, a9⟩ :=
      getConvertedBuffer_ok ext fuel self w dstValid providerValid outFrames r hidx hinv h h6
    rw [a6]
    exact ⟨a5, rfl, a9⟩

theorem configure_index_zero (cfg : ConverterConfigure) (self : AudioConversion)
    (src dst : SampleSpec) :
    (configure cfg self src dst).2.mConvOutBufferIndex = 0 ∧
      (configure cfg self src dst).2.mConvOutFrames = 0 := by
  by_cases hne : src = dst
  · subst hne
    rw [configure_same]
    exact ⟨rfl, rfl⟩
  · rw [configure_state cfg self src dst hne]
    have hb := runItems_sameBuffering cfg dst (planItems src dst) (resetState self src dst) src
    exact ⟨hb.2.1, hb.2.2.1⟩

/-! ### Remapper: the 32 bit container, the other strategies, configure -/

theorem average_uint32_two (a b : Int) (ha : 0 ≤ a ∧ a < 4294967296)
    (hb : 0 ≤ b ∧ b < 4294967296) :
    SampleType.uint32.ofUInt64 (((0 + toUInt64 a) % 2 ^ 64 + toUInt64 b) % 2 ^ 64 / 2) =
      Int.fdiv (a + b) 2 := by
  rw [Int.fdiv_eq_ediv _ (by decide)]
  unfold SampleType.ofUInt64 toUInt64
  have hA : (((a % 2 ^ 64).toNat : Nat) : Int) = a % 2 ^ 64 :=
    Int.toNat_of_nonneg (Int.emod_nonneg _ (by norm_num))
  have hB : (((b % 2 ^ 64).toNat : Nat) : Int) = b % 2 ^ 64 :=
    Int.toNat_of_nonneg (Int.emod_nonneg _ (by norm_num))
  generalize (a % 2 ^ 64).toNat = x at hA ⊢
  generalize (b % 2 ^ 64).toNat = y at hB ⊢
  norm_num at hA hB ⊢
  omega

theorem average_uint32_one (a : Int) (ha : 0 ≤ a ∧ a < 4294967296) :
    SampleType.uint32.ofUInt64 ((0 + toUInt64 a) % 2 ^ 64 / 1) = a := by
  unfold SampleType.ofUInt64 toUInt64
  have hA : (((a % 2 ^ 64).toNat : Nat) : Int) = a % 2 ^ 64 :=
    Int.toNat_of_nonneg (Int.emod_nonneg _ (by norm_num))
  generalize (a % 2 ^ 64).toNat = x at hA ⊢
  norm_num at hA ⊢
  omega

/-- The average of a stereo frame for the 32 bit container, by the channel policies of the
source: the floor mean of the container values, which are unsigned. -/
theorem getAveragedSrcFrame_uint32_stereo (self : AudioRemapper) (src : Nat → Int)
    (p0 p1 : ChannelsPolicy) (hch : self.mSsSrc.channelCount = 2)
    (hpol : self.mSsSrc.channelsPolicy = [p0, p1])
    (ha : 0 ≤ src 0 ∧ src 0 < 4294967296) (hb : 0 ≤ src 1 ∧ src 1 < 4294967296) :
    getAveragedSrcFrame SampleType.uint32 self src = averageOfCounted p0 p1 (src 0) (src 1) := by
  unfold getAveragedSrcFrame averageOfCounted
  have hr : List.range 2 = [0, 1] := by decide
  have h0 : self.mSsSrc.getChannelsPolicy 0 = p0 := by
    simp [SampleSpec.getChannelsPolicy, hpol]
  have h1 : self.mSsSrc.getChannelsPolicy 1 = p1 := by
    simp [SampleSpec.getChannelsPolicy, hpol]
  simp only [hch, hr, List.foldl_cons, List.foldl_nil, h0, h1]
  by_cases c0 : p0 = ChannelsPolicy.Ignore <;> by_cases c1 : p1 = ChannelsPolicy.Ignore
  · simp [c0, c1, SampleType.ofUInt64]
  · have := average_uint32_one (src 1) hb
    simpa [c0, c1] using this
  · have := average_uint32_one (src 0) ha
    simpa [c0, c1] using this
  · have := average_uint32_two (src 0) (src 1) ha hb
    simpa [c0, c1] using this

/-- The average of a stereo frame, for both container types, is the average of the counted
container values. -/
theorem getAveragedSrcFrame_stereo (ty : SampleType) (self : AudioRemapper) (src : Nat → Int)
    (p0 p1 : ChannelsPolicy) (hch : self.mSsSrc.channelCount = 2)
    (hpol : self.mSsSrc.channelsPolicy = [p0, p1])
    (ha : ty.holds (src 0)) (hb : ty.holds (src 1)) :
    getAveragedSrcFrame ty self src = averageOfCounted p0 p1 (src 0) (src 1) := by
  cases ty with
  | int16 => exact getAveragedSrcFrame_int16_stereo self src p0 p1 hch hpol ha hb
  | uint32 => exact getAveragedSrcFrame_uint32_stereo self src p0 p1 hch hpol ha hb

/-- A loop over frames whose step `k` writes only the samples of frame `k` (two samples per
frame), the samples written not depending on the samples of other frames. -/
theorem foldl_frames {α : Type} (g : Nat → (Nat → α) → (Nat → α))
    (hloc : ∀ k d j, j / 2 ≠ k → g k d j = d j)
    (hval : ∀ k d d1 j, j / 2 = k → (∀ i, i / 2 = k → d i = d1 i) → g k d j = g k d1 j) :
    ∀ (n : Nat) (d : Nat → α) (j : Nat),
      ((List.range n).foldl (fun d k => g k d) d) j = if j / 2 < n then g (j / 2) d j else d j := by
  intro n
  induction n with
  | zero => intro d j; simp
  | succ n ih =>
    intro d j
    rw [List.range_succ, List.foldl_append]
    simp only [List.foldl_cons, List.foldl_nil]
    by_cases hj : j / 2 = n
    · have h1 : j / 2 < n + 1 := by omega
      rw [if_pos h1, hj]
      apply hval n _ _ j hj
      intro i hi
      rw [ih]
      have : ¬ i / 2 < n := by omega
      simp [this]
    · rw [hloc n _ j hj, ih]
      by_cases h1 : j / 2 < n
      · have : j / 2 < n + 1 := by omega
        simp [h1, this]
      · have : ¬ j / 2 < n + 1 := by omega
        simp [h1, this]

/-- Every destination sample after `convertMonoToStereo` to a stereo destination. -/
theorem convertMonoToStereo_sample (ty : SampleType) (self : AudioRemapper)
    (src dst : Nat → Int) (inFrames : Nat) (hch : self.mSsDst.channelCount = 2) (j : Nat) :
    (convertMonoToStereo ty self src dst inFrames).2.1 j =
      if j / 2 < inFrames ∧ self.mSsDst.getChannelsPolicy (j % 2) ≠ ChannelsPolicy.Ignore then
        src (j / 2)
      else dst j := by
  unfold convertMonoToStereo
  have hr : List.range 2 = [0, 1] := by decide
  simp only [hch, hr, List.foldl_cons, List.foldl_nil, Nat.add_zero]
  have key := foldl_frames
    (fun k (d : Nat → Int) =>
      if self.mSsDst.getChannelsPolicy 1 ≠ ChannelsPolicy.Ignore then
        Function.update
          (if self.mSsDst.getChannelsPolicy 0 ≠ ChannelsPolicy.Ignore then
            Function.update d (2 * k) (src k) else d) (2 * k + 1) (src k)
      else
        (if self.mSsDst.getChannelsPolicy 0 ≠ ChannelsPolicy.Ignore then
          Function.update d (2 * k) (src k) else d))
    (by
      intro k d i hi
      have h0 : i ≠ 2 * k := by omega
      have h1 : i ≠ 2 * k + 1 := by omega
      by_cases c0 : self.mSsDst.getChannelsPolicy 0 = ChannelsPolicy.Ignore <;>
        by_cases c1 : self.mSsDst.getChannelsPolicy 1 = ChannelsPolicy.Ignore <;>
        simp [c0, c1, Function.update_apply, h0, h1])
    (by
      intro k d d1 i hi hagree
      have hd := hagree i hi
      by_cases c0 : self.mSsDst.getChannelsPolicy 0 = ChannelsPolicy.Ignore <;>
        by_cases c1 : self.mSsDst.getChannelsPolicy 1 = ChannelsPolicy.Ignore <;>
        simp [c0, c1, Function.update_apply, hd])
    inFrames dst j
  rw [key]
  by_cases hlt : j / 2 < inFrames
  · have hj : j % 2 = 0 ∨ j % 2 = 1 := by omega
    rcases hj with hj | hj
    · have e0 : j = 2 * (j / 2) := by omega
      have n1 : j ≠ 2 * (j / 2) + 1 := by omega
      by_cases c0 : self.mSsDst.getChannelsPolicy 0 = ChannelsPolicy.Ignore <;>
        by_cases c1 : self.mSsDst.getChannelsPolicy 1 = ChannelsPolicy.Ignore <;>
        simp [hlt, hj, c0, c1, Function.update_apply, n1, ← e0]
    · have e1 : j = 2 * (j / 2) + 1 := by omega
      have n0 : j ≠ 2 * (j / 2) := by omega
      by_cases c0 : self.mSsDst.getChannelsPolicy 0 = ChannelsPolicy.Ignore <;>
        by_cases c1 : self.mSsDst.getChannelsPolicy 1 = ChannelsPolicy.Ignore <;>
        simp [hlt, hj, c0, c1, Function.update_apply, n0, ← e1]
  · simp [hlt]

/-- Every destination sample after `convertChannelsPolicyInStereo`. -/
theorem convertChannelsPolicyInStereo_sample (ty : SampleType) (self : AudioRemapper)
    (src dst : Nat → Int) (inFrames : Nat) (j : Nat) :
    (convertChannelsPolicyInStereo ty self src dst inFrames).2.1 j =
      if j / 2 < inFrames then
        convertSample ty self (fun i => src (self.mSsSrc.channelCount * (j / 2) + i)) (j % 2)
      else dst j := by
  simp only [convertChannelsPolicyInStereo]
  have key := foldl_frames
    (fun k (d : Nat → Int) =>
      Function.update
        (Function.update d (2 * k)
          (convertSample ty self (fun i => src (self.mSsSrc.channelCount * k + i)) Left))
        (2 * k + 1)
        (convertSample ty self (fun i => src (self.mSsSrc.channelCount * k + i)) Right))
    (by
      intro k d i hi
      have h0 : i ≠ 2 * k := by omega
      have h1 : i ≠ 2 * k + 1 := by omega
      simp [Function.update_apply, h0, h1])
    (by
      intro k d d1 i hi hagree
      have hd := hagree i hi
      simp [Function.update_apply, hd])
    inFrames dst j
  rw [key]
  by_cases hlt : j / 2 < inFrames
  · have hj : j % 2 = 0 ∨ j % 2 = 1 := by omega
    rcases hj with hj | hj
    · have e0 : j = 2 * (j / 2) := by omega
      have n1 : j ≠ 2 * (j / 2) + 1 := by omega
      simp [hlt, hj, Function.update_apply, n1, ← e0, Left]
    · have e1 : j = 2 * (j / 2) + 1 := by omega
      simp [hlt, hj, Function.update_apply, ← e1, Right]
  · simp [hlt]

/-- C11: evaluation of the code. The averaging code instantiated for the 32 bit container adds
and halves the container values as unsigned numbers: for the stereo 8.24 frame (-1, 1), held
as (0xFFFFFFFF, 0x00000001), stereo to mono with both channels at Copy writes 0x80000000,
the sample -2147483648, while floor((-1 + 1) / 2) is 0. -/
theorem stereoToMono_824_opposite_signs :
    signed32 (oppositeSigns 0) = -1 ∧ signed32 (oppositeSigns 1) = 1 ∧
      (convertStereoToMono SampleType.uint32 stereo824Remapper oppositeSigns (fun _ => 0) 1).2.1 0
        = 2147483648 ∧
      signed32 ((convertStereoToMono SampleType.uint32 stereo824Remapper oppositeSigns
        (fun _ => 0) 1).2.1 0) = -2147483648 ∧
      Int.fdiv (signed32 (oppositeSigns 0) + signed32 (oppositeSigns 1)) 2 = 0 := by
  have h : (convertStereoToMono SampleType.uint32 stereo824Remapper oppositeSigns
      (fun _ => 0) 1).2.1 0 = 2147483648 := by
    rw [convertStereoToMono_frame, if_pos (by decide)]
    rw [getAveragedSrcFrame_uint32_stereo stereo824Remapper _ ChannelsPolicy.Copy
      ChannelsPolicy.Copy rfl rfl (by decide) (by decide)]
    decide
  refine ⟨by decide, by decide, h, ?_, by decide⟩
  rw [h]
  decide

/-- C12: evaluation of the code. `configure` from stereo 8.24 PCM with both channels at Copy
to stereo 8.24 PCM with the left channel at Average selects the stereo to stereo strategy
for the 32 bit container; on the frame (-1, 1), held as (0xFFFFFFFF, 0x00000001), that
strategy writes 0x80000000, the sample -2147483648, in the left channel, while the average
of the two source samples is floor((-1 + 1) / 2) = 0. The right channel, at Copy, receives
the right source sample. -/
theorem policyInStereo_824_average_opposite_signs :
    (AudioRemapper.configure basePasses stereo824Remapper stereo824at48k stereo824Averaged).1 =
        OK ∧
      average824Remapper.mConvertSamplesFct =
        some (SampleConverter.convertChannelsPolicyInStereo SampleType.uint32) ∧
      average824Remapper.mSsSrc = stereo824at48k ∧
      average824Remapper.mSsDst = stereo824Averaged ∧
      signed32 (oppositeSigns 0) = -1 ∧ signed32 (oppositeSigns 1) = 1 ∧
      (convertChannelsPolicyInStereo SampleType.uint32 average824Remapper oppositeSigns
        (fun _ => 0) 1).2.1 0 = 2147483648 ∧
      signed32 ((convertChannelsPolicyInStereo SampleType.uint32 average824Remapper
        oppositeSigns (fun _ => 0) 1).2.1 0) = -2147483648 ∧
      Int.fdiv (signed32 (oppositeSigns 0) + signed32 (oppositeSigns 1)) 2 = 0 ∧
      (convertChannelsPolicyInStereo SampleType.uint32 average824Remapper oppositeSigns
        (fun _ => 0) 1).2.1 1 = oppositeSigns 1 := by
  have hl : (convertChannelsPolicyInStereo SampleType.uint32 average824Remapper oppositeSigns
      (fun _ => 0) 1).2.1 0 = 2147483648 := by
    rw [convertChannelsPolicyInStereo_sample, if_pos (by decide)]
    have hp : average824Remapper.mSsDst.getChannelsPolicy (0 % 2) = ChannelsPolicy.Average := by
      decide
    unfold convertSample
    simp only [hp, reduceCtorEq, if_false, if_true]
    rw [getAveragedSrcFrame_uint32_stereo average824Remapper _ ChannelsPolicy.Copy
      ChannelsPolicy.Copy rfl rfl (by decide) (by decide)]
    decide
  have hr : (convertChannelsPolicyInStereo SampleType.uint32 average824Remapper oppositeSigns
      (fun _ => 0) 1).2.1 1 = oppositeSigns 1 := by
    rw [convertChannelsPolicyInStereo_sample, if_pos (by decide)]
    have hp : average824Remapper.mSsDst.getChannelsPolicy (1 % 2) = ChannelsPolicy.Copy := by
      decide
    have hq : average824Remapper.mSsSrc.getChannelsPolicy (1 % 2) = ChannelsPolicy.Copy := by
      decide
    unfold convertSample
    simp only [hp, hq, reduceCtorEq, if_false, ne_eq, not_false_eq_true, if_true]
    decide
  refine ⟨by decide, by decide, by decide, by decide, by decide, by decide, hl, ?_, by decide,
    hr⟩
  rw [hl]
  decide

/-- The policy selection of the stereo to stereo strategy, over the values held in the
containers: the destination sample of channel `c` of every
frame is 0 when the destination policy of `c` is Ignore; the average of the source channels
that are not ignored when it is Average, whatever the source policy; the source sample of
channel `c` when it is Copy and the source policy of `c` is not Ignore; the average of the
source channels that are not ignored when it is Copy and the source policy of `c` is
Ignore, which is the sample of the other channel when that one is not ignored. The average
is the floor mean of the counted container values. -/
theorem policyInStereo_channel (ty : SampleType) (self : AudioRemapper) (src dst : Nat → Int)
    (inFrames f c : Nat) (p0 p1 : ChannelsPolicy)
    (hch : self.mSsSrc.channelCount = 2) (hpol : self.mSsSrc.channelsPolicy = [p0, p1])
    (hf : f < inFrames) (hc : c < 2)
    (ha : ty.holds (src (2 * f))) (hb : ty.holds (src (2 * f + 1))) :
    (self.mSsDst.getChannelsPolicy c = ChannelsPolicy.Ignore →
        (convertChannelsPolicyInStereo ty self src dst inFrames).2.1 (2 * f + c) = 0) ∧
      (self.mSsDst.getChannelsPolicy c = ChannelsPolicy.Average →
        (convertChannelsPolicyInStereo ty self src dst inFrames).2.1 (2 * f + c) =
          averageOfCounted p0 p1 (src (2 * f)) (src (2 * f + 1))) ∧
      (self.mSsDst.getChannelsPolicy c = ChannelsPolicy.Copy →
        self.mSsSrc.getChannelsPolicy c ≠ ChannelsPolicy.Ignore →
        (convertChannelsPolicyInStereo ty self src dst inFrames).2.1 (2 * f + c) =
          src (2 * f + c)) ∧
      (self.mSsDst.getChannelsPolicy c = ChannelsPolicy.Copy →
        self.mSsSrc.getChannelsPolicy c = ChannelsPolicy.Ignore →
        (convertChannelsPolicyInStereo ty self src dst inFrames).2.1 (2 * f + c) =
            averageOfCounted p0 p1 (src (2 * f)) (src (2 * f + 1)) ∧
          (self.mSsSrc.getChannelsPolicy (1 - c) ≠ ChannelsPolicy.Ignore →
            (convertChannelsPolicyInStereo ty self src dst inFrames).2.1 (2 * f + c) =
              src (2 * f + (1 - c)))) := by
  have hdiv : (2 * f + c) / 2 = f := by omega
  have hmod : (2 * f + c) % 2 = c := by omega
  have havg : getAveragedSrcFrame ty self (fun i => src (2 * f + i)) =
      averageOfCounted p0 p1 (src (2 * f)) (src (2 * f + 1)) :=
    getAveragedSrcFrame_stereo ty self (fun i => src (2 * f + i)) p0 p1 hch hpol ha hb
  have key : (convertChannelsPolicyInStereo ty self src dst inFrames).2.1 (2 * f + c) =
      convertSample ty self (fun i => src (2 * f + i)) c := by
    rw [convertChannelsPolicyInStereo_sample, hdiv, hmod, if_pos hf, hch]
  rw [key]
  unfold convertSample
  refine ⟨?_, ?_, ?_, ?_⟩
  · intro h; simp [h]
  · intro h; simp [h, havg]
  · intro h h2; simp [h, h2]
  · intro h h2
    have h0 : self.mSsSrc.getChannelsPolicy 0 = p0 := by
      simp [SampleSpec.getChannelsPolicy, hpol]
    have h1 : self.mSsSrc.getChannelsPolicy 1 = p1 := by
      simp [SampleSpec.getChannelsPolicy, hpol]
    refine ⟨by simp [h, h2, havg], ?_⟩
    intro h3
    simp only [h, h2, havg, reduceCtorEq, if_false, ne_eq, not_true_eq_false]
    have hc2 : c = 0 ∨ c = 1 := by omega
    rcases hc2 with hc2 | hc2
    · subst hc2
      rw [h0] at h2
      rw [show 1 - 0 = 1 from rfl, h1] at h3
      simp [averageOfCounted, h2, h3]
    · subst hc2
      rw [h1] at h2
      rw [show 1 - 1 = 0 from rfl, h0] at h3
      simp [averageOfCounted, h2, h3]

theorem policyInStereo_channel_witness :
    (0 : Nat) < 1 ∧ (0 : Nat) < 2 ∧
      (convertChannelsPolicyInStereo SampleType.int16
        (policyRemapper ChannelsPolicy.Ignore ChannelsPolicy.Copy ChannelsPolicy.Copy
          ChannelsPolicy.Ignore) sampleStereo (fun _ => 7) 1).2.1 (2 * 0 + 0) =
        sampleStereo (2 * 0 + (1 - 0)) :=
  ⟨by decide, by decide,
    ((policyInStereo_channel SampleType.int16
      (policyRemapper ChannelsPolicy.Ignore ChannelsPolicy.Copy ChannelsPolicy.Copy
        ChannelsPolicy.Ignore) sampleStereo (fun _ => 7) 1 0 0 ChannelsPolicy.Ignore
      ChannelsPolicy.Copy rfl rfl (by decide) (by decide) (by decide) (by decide)).2.2.2
        rfl rfl).2 (by decide)⟩

/-- C13: in the mono to stereo conversion, for every frame `f < inFrames` and every
destination channel `c` whose policy is not Ignore, `dst[2f + c] = src[f]`; the destination
samples of the channels whose policy is Ignore, and every destination sample at or after
frame `inFrames`, are the ones that were in the destination buffer before the call. -/
theorem monoToStereo_frame_effect (ty : SampleType) (self : AudioRemapper)
    (src dst : Nat → Int) (inFrames : Nat) (hch : self.mSsDst.channelCount = 2) :
    (∀ f c, f < inFrames → c < 2 →
        self.mSsDst.getChannelsPolicy c ≠ ChannelsPolicy.Ignore →
        (convertMonoToStereo ty self src dst inFrames).2.1 (2 * f + c) = src f) ∧
      (∀ f c, c < 2 → self.mSsDst.getChannelsPolicy c = ChannelsPolicy.Ignore →
        (convertMonoToStereo ty self src dst inFrames).2.1 (2 * f + c) = dst (2 * f + c)) ∧
      (∀ j, 2 * inFrames ≤ j →
        (convertMonoToStereo ty self src dst inFrames).2.1 j = dst j) := by
  refine ⟨?_, ?_, ?_⟩
  · intro f c hf hc hp
    have hdiv : (2 * f + c) / 2 = f := by omega
    have hmod : (2 * f + c) % 2 = c := by omega
    rw [convertMonoToStereo_sample ty self src dst inFrames hch, hdiv, hmod, if_pos ⟨hf, hp⟩]
  · intro f c hc hp
    have hmod : (2 * f + c) % 2 = c := by omega
    rw [convertMonoToStereo_sample ty self src dst inFrames hch, hmod, if_neg]
    intro h
    exact h.2 hp
  · intro j hj
    rw [convertMonoToStereo_sample ty self src dst inFrames hch, if_neg]
    intro h
    omega

theorem monoToStereo_frame_effect_witness :
    (convertMonoToStereo SampleType.int16
        (monoToStereoRemapper ChannelsPolicy.Copy ChannelsPolicy.Ignore) sampleStereo
        (fun _ => 7) 2).2.1 (2 * 1 + 0) = sampleStereo 1 ∧
      (convertMonoToStereo SampleType.int16
        (monoToStereoRemapper ChannelsPolicy.Copy ChannelsPolicy.Ignore) sampleStereo
        (fun _ => 7) 2).2.1 (2 * 1 + 1) = (fun _ => 7) (2 * 1 + 1) ∧
      (convertMonoToStereo SampleType.int16
        (monoToStereoRemapper ChannelsPolicy.Copy ChannelsPolicy.Ignore) sampleStereo
        (fun _ => 7) 2).2.1 4 = (fun _ => 7) 4 :=
  ⟨(monoToStereo_frame_effect SampleType.int16
      (monoToStereoRemapper ChannelsPolicy.Copy ChannelsPolicy.Ignore) sampleStereo
      (fun _ => 7) 2 rfl).1 1 0 (by decide) (by decide) (by decide),
    (monoToStereo_frame_effect SampleType.int16
      (monoToStereoRemapper ChannelsPolicy.Copy ChannelsPolicy.Ignore) sampleStereo
      (fun _ => 7) 2 rfl).2.1 1 1 (by decide) (by decide),
    (monoToStereo_frame_effect SampleType.int16
      (monoToStereoRemapper ChannelsPolicy.Copy ChannelsPolicy.Ignore) sampleStereo
      (fun _ => 7) 2 rfl).2.2 4 (by decide)⟩

/-- C14: each of the three remapper strategies (mono to stereo, stereo to mono, stereo policy
change) returns NO_ERROR and reports `*outFrames = inFrames`, for every `inFrames` (0
included), every remapper state, every source and destination buffer and both sample
container types. -/
theorem remapper_strategies_preserve_frames (ty : SampleType) (self : AudioRemapper)
    (src dst : Nat → Int) (inFrames : Nat) :
    ((convertMonoToStereo ty self src dst inFrames).1 = NO_ERROR ∧
        (convertMonoToStereo ty self src dst inFrames).2.2 = inFrames) ∧
      ((convertStereoToMono ty self src dst inFrames).1 = NO_ERROR ∧
        (convertStereoToMono ty self src dst inFrames).2.2 = inFrames) ∧
      ((convertChannelsPolicyInStereo ty self src dst inFrames).1 = NO_ERROR ∧
        (convertChannelsPolicyInStereo ty self src dst inFrames).2.2 = inFrames) := by
  refine ⟨⟨rfl, rfl⟩, ⟨rfl, rfl⟩, ⟨rfl, rfl⟩⟩

/-- The status of `configure<type>()`. -/
theorem configureTyped_status (ty : SampleType) (self : AudioRemapper) :
    (AudioRemapper.configureTyped ty self).1 =
      if (self.mSsSrc.channelCount = 1 ∧ self.mSsDst.channelCount = 2) ∨
          (self.mSsSrc.channelCount = 2 ∧ self.mSsDst.channelCount = 1) ∨
          (self.mSsSrc.channelCount = 2 ∧ self.mSsDst.channelCount = 2) then OK
      else INVALID_OPERATION := by
  unfold AudioRemapper.configureTyped
  simp only [SampleSpec.isMono, SampleSpec.isStereo, Bool.and_eq_true, decide_eq_true_eq]
  by_cases h1 : self.mSsSrc.channelCount = 1 ∧ self.mSsDst.channelCount = 2
  · simp [h1]
  · by_cases h2 : self.mSsSrc.channelCount = 2 ∧ self.mSsDst.channelCount = 1
    · simp [h2]
    · by_cases h3 : self.mSsSrc.channelCount = 2 ∧ self.mSsDst.channelCount = 2
      · rw [if_neg h1, if_neg h2, if_pos h3]
        simp only [h1, h2, h3, or_true, if_true]
        split <;> rfl
      · simp [h1, h2, h3]

/-- C15: once the check of the base class has passed, `AudioRemapper::configure` returns OK
exactly when the source format is 16 bit PCM or 8.24 PCM and the channel counts are
mono to stereo, stereo to mono or stereo to stereo; for every other pair of channel counts
and every other source format it returns INVALID_OPERATION. -/
theorem remapper_configure_status (baseCheck : SampleSpec → SampleSpec → status_t)
    (self : AudioRemapper) (ssSrc ssDst : SampleSpec)
    (hbase : baseCheck ssSrc ssDst = NO_ERROR) :
    (AudioRemapper.configure baseCheck self ssSrc ssDst).1 =
      if (ssSrc.format = AUDIO_FORMAT_PCM_16_BIT ∨ ssSrc.format = AUDIO_FORMAT_PCM_8_24_BIT) ∧
          ((ssSrc.channelCount = 1 ∧ ssDst.channelCount = 2) ∨
            (ssSrc.channelCount = 2 ∧ ssDst.channelCount = 1) ∨
            (ssSrc.channelCount = 2 ∧ ssDst.channelCount = 2)) then OK
      else INVALID_OPERATION := by
  unfold AudioRemapper.configure
  simp only [AudioConverter.configure, hbase, ne_eq, not_true_eq_false, if_false]
  by_cases h16 : ssSrc.format = AUDIO_FORMAT_PCM_16_BIT
  · simp only [h16, if_true, true_or, true_and]
    rw [configureTyped_status]
  · by_cases h824 : ssSrc.format = AUDIO_FORMAT_PCM_8_24_BIT
    · have hne : ¬ (AUDIO_FORMAT_PCM_8_24_BIT = AUDIO_FORMAT_PCM_16_BIT) := by decide
      simp only [h824, hne, if_true, if_false, or_true, true_and]
      rw [configureTyped_status]
    · simp [h16, h824]

theorem remapper_configure_status_witness :
    (AudioRemapper.configure basePasses stereo824Remapper mono16at8k mono16at8k).1 =
        INVALID_OPERATION ∧
      (AudioRemapper.configure basePasses stereo824Remapper
        { mono16at8k with channelCount := 3 } mono16at8k).1 = INVALID_OPERATION ∧
      (AudioRemapper.configure basePasses stereo824Remapper
        { mono16at8k with channelCount := 2 } { mono16at8k with channelCount := 4 }).1 =
        INVALID_OPERATION ∧
      (AudioRemapper.configure basePasses stereo824Remapper
        { stereo824at48k with format := 3 } mono16at8k).1 = INVALID_OPERATION ∧
      (AudioRemapper.configure basePasses stereo824Remapper stereo824at48k mono16at8k).1 = OK :=
  ⟨(remapper_configure_status basePasses stereo824Remapper mono16at8k mono16at8k rfl).trans
      (by decide),
    (remapper_configure_status basePasses stereo824Remapper
      { mono16at8k with channelCount := 3 } mono16at8k rfl).trans (by decide),
    (remapper_configure_status basePasses stereo824Remapper
      { mono16at8k with channelCount := 2 } { mono16at8k with channelCount := 4 } rfl).trans
      (by decide),
    (remapper_configure_status basePasses stereo824Remapper
      { stereo824at48k with format := 3 } mono16at8k rfl).trans (by decide),
    (remapper_configure_status basePasses stereo824Remapper stereo824at48k mono16at8k rfl).trans
      (by decide)⟩

/-- C16: with an empty chain and non-null arguments, `getConvertedBuffer` returns NO_INIT,
copies nothing, makes no external call (the provider is not called) and leaves the object as
it was; this is the case of the object left by `configure(s, s)`, which returns OK. On the
same empty chain `convert` with a non-null source returns NO_ERROR with
`*outFrames = inFrames`, calls no converter, and the buffer it returns holds the bytes of the
`inFrames` source frames. -/
theorem getConvertedBuffer_empty_chain {ω σ : Type} (ext : Externals ω) (fuel : Nat)
    (self : AudioConversion) (w : ω) (outFrames : Nat) (cfg : ConverterConfigure)
    (s : SampleSpec) (stage : StageConvert σ) (conv : σ) (mem : Mem)
    (src dst inFrames outFrames0 : Nat)
    (hchain : self.mActiveAudioConvList = []) (hsrc : src ≠ 0) :
    getConvertedBuffer ext fuel self w true true outFrames =
        Except.ok { status := NO_INIT, dst := none, self := self, world := w, events := [] } ∧
      ((configure cfg self s s).1 = OK ∧
        getConvertedBuffer ext fuel (configure cfg self s s).2 w true true outFrames =
          Except.ok { status := NO_INIT, dst := none, self := (configure cfg self s s).2,
                      world := w, events := [] }) ∧
      (convert stage self conv mem src dst inFrames outFrames0).status = NO_ERROR ∧
      (convert stage self conv mem src dst inFrames outFrames0).outFrames = inFrames ∧
      (convert stage self conv mem src dst inFrames outFrames0).calls = [] ∧
      (∀ i, i < self.mSsSrc.convertFramesToBytes inFrames →
        (convert stage self conv mem src dst inFrames outFrames0).mem
          ((convert stage self conv mem src dst inFrames outFrames0).dst + i) = mem (src + i)) := by
  refine ⟨?_, ⟨?_, ?_⟩, ?_⟩
  · unfold getConvertedBuffer
    simp [hchain]
  · rw [configure_same]
    rfl
  · rw [configure_same]
    unfold getConvertedBuffer
    simp [resetState]
  · unfold convert
    simp only [hsrc, hchain, if_false, List.isEmpty_nil, if_true]
    by_cases hd : dst = 0
    · simp [hd]
    · simp only [hd, ne_eq, not_false_eq_true, if_true, true_and, memcpy]
      intro i hi
      have : dst ≤ dst + i ∧ dst + i < dst + self.mSsSrc.convertFramesToBytes inFrames :=
        ⟨Nat.le_add_right _ _, by omega⟩
      simp [this]

theorem getConvertedBuffer_empty_chain_witness :
    newAudioConversion.mActiveAudioConvList = [] ∧ (5 : Nat) ≠ 0 ∧
      getConvertedBuffer streamExternals 10 newAudioConversion [1, 2, 3] true true 2 =
        Except.ok { status := NO_INIT, dst := none, self := newAudioConversion,
                    world := [1, 2, 3], events := [] } :=
  ⟨rfl, by decide,
    (getConvertedBuffer_empty_chain streamExternals 10 newAudioConversion [1, 2, 3] 2
      acceptAll mono16at8k (sampleStage false) () (fun x => x) 5 0 3 0 rfl (by decide)).1⟩

/-- C17: when the buffer provider or the destination pointer is null, `getConvertedBuffer`
returns BAD_VALUE whatever the chain (an empty chain included, where a call with valid
arguments gives NO_INIT), makes no external call (the provider is not called) and leaves the
object, hence the accumulation buffer, its capacity, its index and the buffered frame count,
as they were. -/
theorem getConvertedBuffer_null_argument {ω : Type} (ext : Externals ω) (fuel : Nat)
    (self : AudioConversion) (w : ω) (dstValid providerValid : Bool) (outFrames : Nat)
    (h : providerValid = false ∨ dstValid = false) :
    getConvertedBuffer ext fuel self w dstValid providerValid outFrames =
      Except.ok { status := BAD_VALUE, dst := none, self := self, world := w, events := [] } := by
  unfold getConvertedBuffer
  rcases h with h | h <;> simp [h]

theorem getConvertedBuffer_null_argument_witness :
    getConvertedBuffer streamExternals 10 newAudioConversion [1, 2, 3] false true 2 =
        Except.ok { status := BAD_VALUE, dst := none, self := newAudioConversion,
                    world := [1, 2, 3], events := [] } ∧
      getConvertedBuffer streamExternals 10 pullEngine [1, 2, 3] true false 2 =
        Except.ok { status := BAD_VALUE, dst := none, self := pullEngine,
                    world := [1, 2, 3], events := [] } :=
  ⟨getConvertedBuffer_null_argument streamExternals 10 newAudioConversion [1, 2, 3] false true 2
      (Or.inr rfl),
    getConvertedBuffer_null_argument streamExternals 10 pullEngine [1, 2, 3] true false 2
      (Or.inl rfl)⟩

theorem releasesBalanced_append (a b : List Event) :
    ∀ held, releasesBalanced held a = true → releasesBalanced none b = true →
      releasesBalanced held (a ++ b) = true := by
  induction a with
  | nil =>
    intro held ha hb
    cases held with
    | none => simpa using hb
    | some x => simp [releasesBalanced] at ha
  | cons e rest ih =>
    intro held ha hb
    cases e with
    | realloc n ok =>
      simp only [List.cons_append, releasesBalanced] at ha ⊢
      exact ih _ ha hb
    | getNextBuffer n st buf =>
      simp only [List.cons_append, releasesBalanced, Bool.and_eq_true] at ha ⊢
      exact ⟨ha.1, ih _ ha.2 hb⟩
    | convert buf st n wr =>
      simp only [List.cons_append, releasesBalanced] at ha ⊢
      exact ih _ ha hb
    | releaseBuffer buf =>
      simp only [List.cons_append, releasesBalanced, Bool.and_eq_true] at ha ⊢
      exact ⟨ha.1, ih _ ha.2 hb⟩

/-- On a list of calls that follows the provider protocol there are as many `releaseBuffer`
calls as `getNextBuffer` calls that returned NO_ERROR, plus one for the buffer held at the
start. -/
theorem releasesBalanced_count (l : List Event) :
    ∀ held, releasesBalanced held l = true →
      releasedCount l = acquiredCount l + (if held.isSome then 1 else 0) := by
  induction l with
  | nil =>
    intro held h
    cases held with
    | none => simp [releasedCount, acquiredCount]
    | some x => simp [releasesBalanced] at h
  | cons e rest ih =>
    intro held h
    cases e with
    | realloc n ok =>
      simp only [releasesBalanced] at h
      simpa [releasedCount, acquiredCount] using ih _ h
    | getNextBuffer n st buf =>
      simp only [releasesBalanced, Bool.and_eq_true] at h
      have hn : held = none := by
        cases held with
        | none => rfl
        | some x => simp at h
      subst hn
      have := ih _ h.2
      by_cases hs : st = NO_ERROR
      · simp only [hs, if_true, Option.isSome_some] at this
        simp only [releasedCount, acquiredCount, hs, if_true, this, Option.isSome_none,
          Bool.false_eq_true, if_false]
        omega
      · simp only [hs, if_false, Option.isSome_none, Bool.false_eq_true] at this
        simp only [releasedCount, acquiredCount, hs, if_false, this, Option.isSome_none,
          Bool.false_eq_true]
        omega
    | convert buf st n wr =>
      simp only [releasesBalanced] at h
      simpa [releasedCount, acquiredCount] using ih _ h
    | releaseBuffer buf =>
      simp only [releasesBalanced, Bool.and_eq_true, decide_eq_true_eq] at h
      have := ih _ h.2
      simp only [Option.isSome_none, Bool.false_eq_true, if_false] at this
      simp only [releasedCount, acquiredCount, this, h.1, Option.isSome_some, if_true]
      omega

/-- Every run of the pull loop that returns, with whatever status, adds calls that follow the
provider protocol. -/
theorem pullLoop_releases {ω : Type} (ext : Externals ω) :
    ∀ (fuel : Nat) (self : AudioConversion) (w : ω) (framesRequested : Nat)
      (events : List Event) (st : status_t) (self1 : AudioConversion) (w1 : ω)
      (events1 : List Event),
      pullLoop ext fuel self w framesRequested events = Except.ok (st, self1, w1, events1) →
      ∃ new, events1 = events ++ new ∧ releasesBalanced none new = true := by
  intro fuel
  induction fuel with
  | zero =>
    intro self w fr events st self1 w1 events1 h
    cases fr with
    | zero =>
      simp only [pullLoop, Except.ok.injEq, Prod.mk.injEq] at h
      exact ⟨[], by simp [h.2.2.2.symm], rfl⟩
    | succ n => simp [pullLoop] at h
  | succ fuel ih =>
    intro self w fr events st self1 w1 events1 h
    cases fr with
    | zero =>
      simp only [pullLoop, Except.ok.injEq, Prod.mk.injEq] at h
      exact ⟨[], by simp [h.2.2.2.symm], rfl⟩
    | succ n =>
      simp only [pullLoop] at h
      rcases hgd : ext.getNextBuffer w
          (convertSrcToDstInFrames (n + 1) self.mSsDst self.mSsSrc) with ⟨gs, gb, gw⟩
      simp only [hgd] at h
      by_cases hg : gs = NO_ERROR
      · simp only [hg, ne_eq, not_true_eq_false, if_false] at h
        rcases hcd : ext.convert gw gb with ⟨cs, cf, content, cw⟩
        simp only [hcd] at h
        by_cases hc : cs = NO_ERROR
        · simp only [hc, not_true_eq_false, if_false] at h
          cases hw : writeAt self.mConvOutBuffer self.mConvOutBufferIndex
              ((List.range (self.mSsDst.convertFramesToBytes cf)).map content) with
          | none => simp [hw] at h
          | some buf =>
            simp only [hw] at h
            obtain ⟨new, e1, e2⟩ := ih _ _ _ _ _ _ _ _ h
            refine ⟨Event.getNextBuffer
                (convertSrcToDstInFrames (n + 1) self.mSsDst self.mSsSrc) NO_ERROR gb ::
              Event.convert gb NO_ERROR cf
                ((List.range (self.mSsDst.convertFramesToBytes cf)).map content) ::
              Event.releaseBuffer gb :: new, ?_, ?_⟩
            · rw [e1]; simp
            · simp [releasesBalanced, e2]
        · simp only [hc, not_false_eq_true, if_true, Except.ok.injEq, Prod.mk.injEq] at h
          refine ⟨[Event.getNextBuffer
                (convertSrcToDstInFrames (n + 1) self.mSsDst self.mSsSrc) NO_ERROR gb,
              Event.convert gb cs cf [], Event.releaseBuffer gb], ?_, ?_⟩
          · rw [← h.2.2.2]; simp
          · simp [releasesBalanced]
      · simp only [hg, ne_eq, not_false_eq_true, if_true, Except.ok.injEq, Prod.mk.injEq] at h
        refine ⟨[Event.getNextBuffer
              (convertSrcToDstInFrames (n + 1) self.mSsDst self.mSsSrc) gs gb], ?_, ?_⟩
        · rw [← h.2.2.2]
        · simp [releasesBalanced, hg]

theorem growBuffer_releases {ω : Type} (ext : Externals ω) (self : AudioConversion) (w : ω)
    (outFrames : Nat) : releasesBalanced none (growBuffer ext self w outFrames).2.2.2 = true := by
  unfold growBuffer
  by_cases hlt : self.mConvOutBufferSizeInFrames < outFrames
  · simp only [hlt, if_true]
    cases (ext.realloc w (sizeT (self.mSsDst.convertFramesToBytes
      (sizeT (outFrames + mMaxRate / mMinRate * mAllocBufferMultFactor))))).1 <;> rfl
  · simp [hlt, releasesBalanced]

/-- Every call of `getConvertedBuffer` that returns, with whatever status, made calls that
follow the provider protocol. -/
theorem getConvertedBuffer_releases {ω : Type} (ext : Externals ω) (fuel : Nat)
    (self : AudioConversion) (w : ω) (dstValid providerValid : Bool) (outFrames : Nat)
    (r : PullResult ω)
    (h : getConvertedBuffer ext fuel self w dstValid providerValid outFrames = Except.ok r) :
    releasesBalanced none r.events = true := by
  unfold getConvertedBuffer at h
  by_cases hnull : (!providerValid || !dstValid) = true
  · simp only [hnull, if_true, Except.ok.injEq] at h
    subst h
    rfl
  simp only [hnull, Bool.false_eq_true, if_false] at h
  by_cases hemp : self.mActiveAudioConvList.isEmpty = true
  · simp only [hemp, if_true, Except.ok.injEq] at h
    subst h
    rfl
  simp only [hemp, Bool.false_eq_true, if_false] at h
  by_cases hgrow : (growBuffer ext self w outFrames).1 = true
  swap
  · simp only [hgrow, Bool.not_false, if_true, Except.ok.injEq] at h
    subst h
    exact growBuffer_releases ext self w outFrames
  simp only [hgrow, Bool.not_true, Bool.false_eq_true, if_false] at h
  cases hloop : pullLoop ext fuel (drainBuffered (growBuffer ext self w outFrames).2.1 outFrames).2
      (growBuffer ext self w outFrames).2.2.1
      (drainBuffered (growBuffer ext self w outFrames).2.1 outFrames).1
      (growBuffer ext self w outFrames).2.2.2 with
  | error e => simp [hloop] at h
  | ok val =>
    obtain ⟨st, s4, w3, ev3⟩ := val
    obtain ⟨new, e1, e2⟩ := pullLoop_releases ext _ _ _ _ _ _ _ _ _ hloop
    have hev : releasesBalanced none ev3 = true := by
      rw [e1]
      exact releasesBalanced_append _ _ _ (growBuffer_releases ext self w outFrames) e2
    simp only [hloop] at h
    by_cases hst : st = NO_ERROR
    swap
    · simp only [hst, ne_eq, not_false_eq_true, if_true, Except.ok.injEq] at h
      subst h
      exact hev
    subst hst
    simp only [ne_eq, not_true_eq_false, if_false] at h
    cases hco : copyOut s4 outFrames with
    | error e => simp [hco] at h
    | ok val2 =>
      obtain ⟨dst, s5⟩ := val2
      simp only [hco, Except.ok.injEq] at h
      subst h
      exact hev

/-- C18: over every call of `getConvertedBuffer` that returns, on whatever exit path, the
calls made on the provider follow the protocol: `getNextBuffer` is called with no buffer
held, each call that returned NO_ERROR is followed by one `releaseBuffer` of the buffer it
gave before any other provider call and before the return (also when the conversion in
between failed), and `releaseBuffer` is called on nothing else, in particular not after a
`getNextBuffer` that failed; hence there are as many `releaseBuffer` calls as successful
`getNextBuffer` calls. -/
theorem getConvertedBuffer_release_protocol {ω : Type} (ext : Externals ω) (fuel : Nat)
    (self : AudioConversion) (w : ω) (dstValid providerValid : Bool) (outFrames : Nat)
    (r : PullResult ω)
    (h : getConvertedBuffer ext fuel self w dstValid providerValid outFrames = Except.ok r) :
    releasesBalanced none r.events = true ∧
      releasedCount r.events = acquiredCount r.events := by
  have hb := getConvertedBuffer_releases ext fuel self w dstValid providerValid outFrames r h
  refine ⟨hb, ?_⟩
  simpa using releasesBalanced_count r.events none hb

theorem getConvertedBuffer_release_protocol_witness :
    getConvertedBuffer failingConvertExternals 10 pullEngine [1, 2, 3, 4, 5, 6, 7, 8, 9]
        true true 2 = Except.ok failedConvertPull ∧
      failedConvertPull.status = -5 ∧
      failedConvertPull.events =
        [Event.realloc 48 true, Event.getNextBuffer 4 0 ⟨[1, 2, 3], 3⟩,
          Event.convert ⟨[1, 2, 3], 3⟩ (-5) 0 [], Event.releaseBuffer ⟨[1, 2, 3], 3⟩] ∧
      releasesBalanced none failedConvertPull.events = true ∧
      releasedCount failedConvertPull.events = acquiredCount failedConvertPull.events :=
  ⟨rfl, by decide, by decide,
    getConvertedBuffer_release_protocol failingConvertExternals 10 pullEngine
      [1, 2, 3, 4, 5, 6, 7, 8, 9] true true 2 failedConvertPull rfl⟩

/-- C19: evaluation of the code. On an engine configured from mono to stereo, with a provider
that serves the stream 1, 2, ..., 9 and fails once: a first request succeeds and leaves the
frame 3 3 buffered; a second request fails with the status of the provider, the frame 3 3
is still buffered but the request returns with the index at 2 instead of 0; the next
request, for 2 frames, succeeds, converts the new frames 4 4 and 5 5, and delivers
3 3 2 2, which is not the buffered frame followed by the newly converted frames. -/
theorem failed_request_then_stale_frames :
    getConvertedBuffer flakyExternals 10 pullEngine ([1, 2, 3, 4, 5, 6, 7, 8, 9], 2)
        true true 2 = Except.ok flakyFirst ∧
      flakyFirst.status = NO_ERROR ∧ flakyFirst.dst = some [1, 1, 2, 2] ∧
      flakyFirst.self.mConvOutBuffer.take
        (flakyFirst.self.mSsDst.convertFramesToBytes flakyFirst.self.mConvOutFrames) = [3, 3] ∧
      flakyFirst.self.mConvOutBufferIndex = 0 ∧
      getConvertedBuffer flakyExternals 10 flakyFirst.self flakyFirst.world true true 3 =
        Except.ok flakyFailed ∧
      flakyFailed.status = -11 ∧ flakyFailed.dst = none ∧
      flakyFailed.events = [Event.getNextBuffer 4 (-11) ⟨[], 0⟩] ∧
      flakyFailed.self.mConvOutBuffer.take
        (flakyFailed.self.mSsDst.convertFramesToBytes flakyFailed.self.mConvOutFrames) = [3, 3] ∧
      flakyFailed.self.mConvOutBufferIndex = 2 ∧
      getConvertedBuffer flakyExternals 10 flakyFailed.self flakyFailed.world true true
        (1 + 1) = Except.ok afterFailureSingle ∧
      afterFailureSingle.status = NO_ERROR ∧
      writtenBytes afterFailureSingle.events = [4, 4, 5, 5] ∧
      afterFailureSingle.dst = some [3, 3, 2, 2] ∧
      afterFailureSingle.dst ≠
        some (([3, 3] ++ writtenBytes afterFailureSingle.events).take
          (flakyFailed.self.mSsDst.convertFramesToBytes (1 + 1))) := by
  refine ⟨rfl, by decide, by decide, by decide, by decide, rfl, by decide, by decide,
    by decide, by decide, by decide, rfl, by decide, by decide, by decide, by decide⟩

theorem specAfter_planItems (a d : SampleSpec) : specAfter d (planItems a d) a = d := by
  obtain ⟨ac, af, ar, ap⟩ := a
  obtain ⟨dc, df, dr, dp⟩ := d
  unfold planItems
  simp only [ChannelCountSampleSpecItem, FormatSampleSpecItem, RateSampleSpecItem]
  have hc : (ac > dc ∧ ¬ ac < dc ∧ ac ≠ dc) ∨ (¬ ac > dc ∧ ac < dc ∧ ac ≠ dc) ∨
      (¬ ac > dc ∧ ¬ ac < dc ∧ ac = dc) := by omega
  have hf : (af > df ∧ ¬ af < df ∧ af ≠ df) ∨ (¬ af > df ∧ af < df ∧ af ≠ df) ∨
      (¬ af > df ∧ ¬ af < df ∧ af = df) := by omega
  by_cases hr : ar = dr <;> by_cases hp : ap = dp <;>
    rcases hc with ⟨c1, c2, c3⟩ | ⟨c1, c2, c3⟩ | ⟨c1, c2, c3⟩ <;>
    rcases hf with ⟨f1, f2, f3⟩ | ⟨f1, f2, f3⟩ | ⟨f1, f2, f3⟩ <;>
    simp [c1, c2, c3, f1, f2, f3, hr, hp, specAfter]

/-- A failing run of insertions: the chain gained the items before the first one whose
converter rejected its configuration, and the status is the status of that converter. -/
theorem runItems_fail (cfg : ConverterConfigure) (d : SampleSpec) (items : List Nat) :
    ∀ (self : AudioConversion) (a : SampleSpec),
      (runItems cfg d items self a).1 ≠ NO_ERROR →
      ∃ done i rest, items = done ++ i :: rest ∧
        (runItems cfg d items self a).2.1.mActiveAudioConvList =
          self.mActiveAudioConvList ++ done ∧
        (runItems cfg d items self a).1 =
          cfg i (specAfter d done a) (nextSpec i (specAfter d done a) d) ∧
        cfg i (specAfter d done a) (nextSpec i (specAfter d done a) d) ≠ NO_ERROR := by
  induction items with
  | nil => intro self a h; simp [runItems] at h
  | cons j rest ih =>
    intro self a
    simp only [runItems]
    by_cases h : (doConfigureAndAddConverter cfg j self a d).1 = NO_ERROR
    · simp only [h, ne_eq, not_true_eq_false, if_false]
      intro hfail
      obtain ⟨done, i, rest2, e1, e2, e3, e4⟩ := ih _ _ hfail
      have hs := doConfigure_spec_ok cfg j self a d h
      refine ⟨j :: done, i, rest2, by rw [e1]; rfl, ?_, ?_, ?_⟩
      · rw [e2, doConfigure_chain_ok cfg j self a d h]; simp
      · rw [e3, hs]; rfl
      · rw [hs] at e4; exact e4
    · simp only [h, ne_eq, not_false_eq_true, if_true]
      intro _
      rw [doConfigure_eq] at h ⊢
      by_cases c : cfg j a (nextSpec j a d) = NO_ERROR
      · simp [c] at h
      · refine ⟨[], j, rest, rfl, ?_, ?_, ?_⟩
        · simp [c]
        · simp [c, specAfter]
        · simpa [specAfter] using c

/-- C20, counterexample: a `configure` from stereo 8.24 48 kHz to mono 16 bit 8 kHz whose
reformatter rejects its configuration returns an error and leaves the remapper, inserted
before the failure, in the chain; a later `getConvertedBuffer` then does not report NO_INIT
but converts and returns NO_ERROR, and a later `convert` runs the remapper alone, the first
of the three planned stages. -/
theorem configure_failure_keeps_partial_chain :
    (configure rejectReformat newAudioConversion stereo824at48k mono16at8k).1 = BAD_VALUE ∧
      (configure rejectReformat newAudioConversion stereo824at48k mono16at8k).1 ≠ OK ∧
      planItems stereo824at48k mono16at8k =
        [ChannelCountSampleSpecItem, FormatSampleSpecItem, RateSampleSpecItem] ∧
      (configure rejectReformat newAudioConversion stereo824at48k
        mono16at8k).2.mActiveAudioConvList = [ChannelCountSampleSpecItem] ∧
      getConvertedBuffer streamExternals 10 partialAudioConversion [1, 2, 3, 4, 5, 6, 7, 8, 9]
        true true 1 = Except.ok partialPull ∧
      partialPull.status = NO_ERROR ∧ partialPull.status ≠ NO_INIT ∧
      (convert (sampleStage false) partialAudioConversion () (fun x => x) 5 70 3 0).status =
        NO_ERROR ∧
      (convert (sampleStage false) partialAudioConversion () (fun x => x) 5 70 3 0).calls =
        [⟨ChannelCountSampleSpecItem, 5, 70, 3⟩] := by
  refine ⟨by decide, by decide, by decide, by decide, rfl, by decide, by decide, by decide,
    by decide⟩

/-- A `configure` that returns an error stopped at a converter of the plan that rejected its
configuration: the chain holds the converters of the plan before that one, and the status
is the status of that converter. -/
theorem configure_failure_plan (cfg : ConverterConfigure) (self : AudioConversion)
    (src dst : SampleSpec) (h : (configure cfg self src dst).1 ≠ OK) :
    ∃ done i rest, planItems src dst = done ++ i :: rest ∧
      (configure cfg self src dst).2.mActiveAudioConvList = done ∧
      (configure cfg self src dst).1 =
        cfg i (specAfter dst done src) (nextSpec i (specAfter dst done src) dst) ∧
      cfg i (specAfter dst done src) (nextSpec i (specAfter dst done src) dst) ≠ NO_ERROR := by
  by_cases hne : src = dst
  · subst hne
    rw [configure_same] at h
    exact absurd rfl h
  · have hst := configure_status cfg self src dst hne
    by_cases h1 : (runItems cfg dst (planItems src dst) (resetState self src dst) src).1 =
        NO_ERROR
    · have h2 := (runItems_ok cfg dst _ _ _ h1).2
      rw [specAfter_planItems] at h2
      simp only [h1, ne_eq, not_true_eq_false, if_false, h2, if_true] at hst
      exact absurd hst h
    · obtain ⟨done, i, rest, e1, e2, e3, e4⟩ := runItems_fail cfg dst _ _ _ h1
      refine ⟨done, i, rest, e1, ?_, ?_, e4⟩
      · rw [configure_state cfg self src dst hne, e2]
        simp [resetState]
      · simp only [h1, ne_eq, not_false_eq_true, if_true] at hst
        rw [hst, e3]

/-- The state left by `configure`, whatever its outcome, has the buffering fields of the state
right after the resets. -/
theorem configure_sameBuffering (cfg : ConverterConfigure) (self : AudioConversion)
    (src dst : SampleSpec) :
    sameBuffering (resetState self src dst) (configure cfg self src dst).2 := by
  by_cases hne : src = dst
  · subst hne
    rw [configure_same]
    simp [sameBuffering]
  · rw [configure_state cfg self src dst hne]
    exact runItems_sameBuffering cfg dst (planItems src dst) (resetState self src dst) src

/-! ### The pull loop on every exit: what it keeps, what it asks -/

/-- Every run of the pull loop that returns, with whatever status: the calls it adds hold no
`realloc`, each provider request is the projection of the frames still needed, and the
object keeps its recorded capacity, its specs, its chain and the size of its buffer. -/
theorem pullLoop_frame {ω : Type} (ext : Externals ω) :
    ∀ (fuel : Nat) (self : AudioConversion) (w : ω) (framesRequested : Nat)
      (events : List Event) (st : status_t) (self1 : AudioConversion) (w1 : ω)
      (events1 : List Event),
      pullLoop ext fuel self w framesRequested events = Except.ok (st, self1, w1, events1) →
      ∃ new, events1 = events ++ new ∧ new.filter isRealloc = [] ∧
        requestsFollow self.mSsDst self.mSsSrc framesRequested new = true ∧
        self1.mConvOutBufferSizeInFrames = self.mConvOutBufferSizeInFrames ∧
        self1.mSsDst = self.mSsDst ∧ self1.mSsSrc = self.mSsSrc ∧
        self1.mActiveAudioConvList = self.mActiveAudioConvList ∧
        self1.mConvOutBuffer.length = self.mConvOutBuffer.length := by
  intro fuel
  induction fuel with
  | zero =>
    intro self w fr events st self1 w1 events1 h
    cases fr with
    | zero =>
      simp only [pullLoop, Except.ok.injEq, Prod.mk.injEq] at h
      obtain ⟨_, h2, _, h4⟩ := h
      subst h2 h4
      exact ⟨[], by simp, rfl, rfl, rfl, rfl, rfl, rfl, rfl⟩
    | succ n => simp [pullLoop] at h
  | succ fuel ih =>
    intro self w fr events st self1 w1 events1 h
    cases fr with
    | zero =>
      simp only [pullLoop, Except.ok.injEq, Prod.mk.injEq] at h
      obtain ⟨_, h2, _, h4⟩ := h
      subst h2 h4
      exact ⟨[], by simp, rfl, rfl, rfl, rfl, rfl, rfl, rfl⟩
    | succ n =>
      simp only [pullLoop] at h
      rcases hgd : ext.getNextBuffer w
          (convertSrcToDstInFrames (n + 1) self.mSsDst self.mSsSrc) with ⟨gs, gb, gw⟩
      simp only [hgd] at h
      by_cases hg : gs = NO_ERROR
      · simp only [hg, ne_eq, not_true_eq_false, if_false] at h
        rcases hcd : ext.convert gw gb with ⟨cs, cf, content, cw⟩
        simp only [hcd] at h
        by_cases hc : cs = NO_ERROR
        · simp only [hc, not_true_eq_false, if_false] at h
          cases hw : writeAt self.mConvOutBuffer self.mConvOutBufferIndex
              ((List.range (self.mSsDst.convertFramesToBytes cf)).map content) with
          | none => simp [hw] at h
          | some buf =>
            simp only [hw] at h
            obtain ⟨new, e1, e2, e3, e4, e5, e6, e7, e8⟩ := ih _ _ _ _ _ _ _ _ h
            dsimp only at e3 e4 e5 e6 e7 e8
            obtain ⟨_, t2⟩ := writeAt_take _ _ _ _ hw
            refine ⟨Event.getNextBuffer
                (convertSrcToDstInFrames (n + 1) self.mSsDst self.mSsSrc) NO_ERROR gb ::
              Event.convert gb NO_ERROR cf
                ((List.range (self.mSsDst.convertFramesToBytes cf)).map content) ::
              Event.releaseBuffer gb :: new, ?_, ?_, ?_, e4, e5, e6, e7, ?_⟩
            · rw [e1]; simp
            · simp [isRealloc, e2]
            · simp [requestsFollow, e3]
            · rw [e8, t2]
        · simp only [hc, not_false_eq_true, if_true, Except.ok.injEq, Prod.mk.injEq] at h
          obtain ⟨_, h2, _, h4⟩ := h
          subst h2
          refine ⟨[Event.getNextBuffer
                (convertSrcToDstInFrames (n + 1) self.mSsDst self.mSsSrc) NO_ERROR gb,
              Event.convert gb cs cf [], Event.releaseBuffer gb], ?_, ?_, ?_, rfl, rfl, rfl,
              rfl, rfl⟩
          · rw [← h4]; simp
          · simp [isRealloc]
          · simp [requestsFollow]
      · simp only [hg, ne_eq, not_false_eq_true, if_true, Except.ok.injEq, Prod.mk.injEq] at h
        obtain ⟨_, h2, _, h4⟩ := h
        subst h2
        refine ⟨[Event.getNextBuffer
              (convertSrcToDstInFrames (n + 1) self.mSsDst self.mSsSrc) gs gb], ?_, ?_, ?_,
            rfl, rfl, rfl, rfl, rfl⟩
        · rw [← h4]
        · simp [isRealloc]
        · simp [requestsFollow]

/-- The growth block: when the request plus the margin fits `size_t`, the recorded capacity
does not decrease and is at least the request afterwards (also when `realloc` failed); the
block does nothing when the recorded capacity already covers the request, and otherwise
calls `realloc` once; it keeps the specs, the chain, the index and the buffered frame
count. -/
theorem growBuffer_capacity {ω : Type} (ext : Externals ω) (self : AudioConversion) (w : ω)
    (outFrames : Nat) :
    (outFrames + mMaxRate / mMinRate * mAllocBufferMultFactor < 2 ^ 64 →
        self.mConvOutBufferSizeInFrames ≤
          (growBuffer ext self w outFrames).2.1.mConvOutBufferSizeInFrames) ∧
      (outFrames + mMaxRate / mMinRate * mAllocBufferMultFactor < 2 ^ 64 →
        outFrames ≤ (growBuffer ext self w outFrames).2.1.mConvOutBufferSizeInFrames) ∧
      (outFrames ≤ self.mConvOutBufferSizeInFrames →
        growBuffer ext self w outFrames = (true, self, w, [])) ∧
      ((growBuffer ext self w outFrames).2.2.2 = [] ∨
        ∃ bytes ok, (growBuffer ext self w outFrames).2.2.2 = [Event.realloc bytes ok]) ∧
      (growBuffer ext self w outFrames).2.1.mSsDst = self.mSsDst ∧
      (growBuffer ext self w outFrames).2.1.mSsSrc = self.mSsSrc ∧
      (growBuffer ext self w outFrames).2.1.mConvOutFrames = self.mConvOutFrames ∧
      (growBuffer ext self w outFrames).2.1.mConvOutBufferIndex = self.mConvOutBufferIndex := by
  unfold growBuffer
  by_cases hlt : self.mConvOutBufferSizeInFrames < outFrames
  · simp only [hlt, if_true]
    have hnot : ¬ outFrames ≤ self.mConvOutBufferSizeInFrames := by omega
    have hsz : outFrames + mMaxRate / mMinRate * mAllocBufferMultFactor < 2 ^ 64 →
        sizeT (outFrames + mMaxRate / mMinRate * mAllocBufferMultFactor) =
          outFrames + mMaxRate / mMinRate * mAllocBufferMultFactor :=
      fun hb => Nat.mod_eq_of_lt hb
    cases hre : (ext.realloc w (sizeT (self.mSsDst.convertFramesToBytes
        (sizeT (outFrames + mMaxRate / mMinRate * mAllocBufferMultFactor))))).1 with
    | none =>
      refine ⟨?_, ?_, ?_, ?_, rfl, rfl, rfl, rfl⟩
      · intro hb; dsimp only; rw [hsz hb]; omega
      · intro hb; dsimp only; rw [hsz hb]; omega
      · intro h; exact absurd h hnot
      · exact Or.inr ⟨_, _, rfl⟩
    | some fresh =>
      refine ⟨?_, ?_, ?_, ?_, rfl, rfl, rfl, rfl⟩
      · intro hb; dsimp only; rw [hsz hb]; omega
      · intro hb; dsimp only; rw [hsz hb]; omega
      · intro h; exact absurd h hnot
      · exact Or.inr ⟨_, _, rfl⟩
  · rw [if_neg hlt]
    refine ⟨fun _ => Nat.le_refl _, fun _ => by dsimp only; omega, fun _ => rfl, Or.inl rfl,
      rfl, rfl, rfl, rfl⟩

/-- A request above the recorded capacity makes the growth block call `realloc`. -/
theorem growBuffer_calls_realloc {ω : Type} (ext : Externals ω) (self : AudioConversion)
    (w : ω) (outFrames : Nat) (hlt : self.mConvOutBufferSizeInFrames < outFrames) :
    ∃ bytes ok, (growBuffer ext self w outFrames).2.2.2 = [Event.realloc bytes ok] ∧
      (growBuffer ext self w outFrames).1 = ok := by
  unfold growBuffer
  simp only [hlt, if_true]
  cases hre : (ext.realloc w (sizeT (self.mSsDst.convertFramesToBytes
      (sizeT (outFrames + mMaxRate / mMinRate * mAllocBufferMultFactor))))).1 with
  | none => exact ⟨_, false, rfl, rfl⟩
  | some fresh => exact ⟨_, true, rfl, rfl⟩

/-- The exits of `getConvertedBuffer`: the argument and chain checks, the failed growth, the
loop ended by an error, the copy reached. -/
theorem getConvertedBuffer_exits {ω : Type} (ext : Externals ω) (fuel : Nat)
    (self : AudioConversion) (w : ω) (dstValid providerValid : Bool) (outFrames : Nat)
    (r : PullResult ω)
    (h : getConvertedBuffer ext fuel self w dstValid providerValid outFrames = Except.ok r) :
    (r.self = self ∧ r.events = [] ∧
        (dstValid = false ∨ providerValid = false ∨ self.mActiveAudioConvList = [])) ∨
      (dstValid = true ∧ providerValid = true ∧ self.mActiveAudioConvList ≠ [] ∧
        (growBuffer ext self w outFrames).1 = false ∧ r.status = NO_MEMORY ∧
        r.self = (growBuffer ext self w outFrames).2.1 ∧
        r.events = (growBuffer ext self w outFrames).2.2.2) ∨
      (dstValid = true ∧ providerValid = true ∧ self.mActiveAudioConvList ≠ [] ∧
        (growBuffer ext self w outFrames).1 = true ∧
        ∃ st s3,
          pullLoop ext fuel (drainBuffered (growBuffer ext self w outFrames).2.1 outFrames).2
              (growBuffer ext self w outFrames).2.2.1
              (drainBuffered (growBuffer ext self w outFrames).2.1 outFrames).1
              (growBuffer ext self w outFrames).2.2.2 =
            Except.ok (st, s3, r.world, r.events) ∧
          ((st ≠ NO_ERROR ∧ r.status = st ∧ r.self = s3) ∨
            (st = NO_ERROR ∧ r.status = NO_ERROR ∧
              ∃ dst, copyOut s3 outFrames = Except.ok (dst, r.self)))) := by
  unfold getConvertedBuffer at h
  by_cases hnull : (!providerValid || !dstValid) = true
  · simp only [hnull, if_true, Except.ok.injEq] at h
    subst h
    refine Or.inl ⟨rfl, rfl, ?_⟩
    cases dstValid <;> cases providerValid <;> simp at hnull ⊢
  have hv : dstValid = true ∧ providerValid = true := by
    cases dstValid <;> cases providerValid <;> simp at hnull ⊢
  simp only [hnull, Bool.false_eq_true, if_false] at h
  by_cases hemp : self.mActiveAudioConvList.isEmpty = true
  · simp only [hemp, if_true, Except.ok.injEq] at h
    subst h
    exact Or.inl ⟨rfl, rfl, Or.inr (Or.inr (List.isEmpty_iff.mp hemp))⟩
  have hne : self.mActiveAudioConvList ≠ [] := fun e => hemp (List.isEmpty_iff.mpr e)
  simp only [hemp, Bool.false_eq_true, if_false] at h
  by_cases hgrow : (growBuffer ext self w outFrames).1 = true
  swap
  · simp only [hgrow, Bool.not_false, if_true, Except.ok.injEq] at h
    subst h
    exact Or.inr (Or.inl ⟨hv.1, hv.2, hne, by simpa using hgrow, rfl, rfl, rfl⟩)
  simp only [hgrow, Bool.not_true, Bool.false_eq_true, if_false] at h
  cases hloop : pullLoop ext fuel (drainBuffered (growBuffer ext self w outFrames).2.1 outFrames).2
      (growBuffer ext self w outFrames).2.2.1
      (drainBuffered (growBuffer ext self w outFrames).2.1 outFrames).1
      (growBuffer ext self w outFrames).2.2.2 with
  | error e => simp [hloop] at h
  | ok val =>
    obtain ⟨st, s4, w3, ev3⟩ := val
    simp only [hloop] at h
    by_cases hst : st = NO_ERROR
    swap
    · simp only [hst, ne_eq, not_false_eq_true, if_true, Except.ok.injEq] at h
      subst h
      exact Or.inr (Or.inr ⟨hv.1, hv.2, hne, hgrow, st, s4, rfl, Or.inl ⟨hst, rfl, rfl⟩⟩)
    subst hst
    simp only [ne_eq, not_true_eq_false, if_false] at h
    cases hco : copyOut s4 outFrames with
    | error e => simp [hco] at h
    | ok val2 =>
      obtain ⟨dst, s5⟩ := val2
      simp only [hco, Except.ok.injEq] at h
      subst h
      exact Or.inr (Or.inr ⟨hv.1, hv.2, hne, hgrow, NO_ERROR, s4, rfl,
        Or.inr ⟨rfl, rfl, dst, hco⟩⟩)

/-- C22: evaluation of the code. On an engine configured from mono to stereo, a first request
of 1 frame allocates 1 + 22 = 23 frames (46 bytes) and leaves one frame buffered. For a
second request, of 23 frames, the growth step goes through without any `realloc`, because
the recorded capacity 23 is not below the request: the capacity stays 23, which is less than
23 + 22. With a conversion that yields one frame more than still needed on the last pull,
the 24 frames then held do not fit and the loop writes past the end of the allocation. -/
theorem second_request_has_no_margin :
    getConvertedBuffer streamExternals 20 pullEngine longStream true true 1 =
        Except.ok smallPull ∧
      smallPull.status = NO_ERROR ∧
      smallPull.events.filter isRealloc = [Event.realloc 46 true] ∧
      smallPull.self.mConvOutBufferSizeInFrames = 1 + 22 ∧
      smallPull.self.mConvOutBuffer.length = 46 ∧
      smallPull.self.mConvOutFrames = 1 ∧ smallPull.self.mConvOutBufferIndex = 0 ∧
      (growBuffer streamExternals smallPull.self smallPull.world 23).1 = true ∧
      (growBuffer streamExternals smallPull.self smallPull.world 23).2.2.2 = [] ∧
      (growBuffer streamExternals smallPull.self smallPull.world
        23).2.1.mConvOutBufferSizeInFrames = 23 ∧
      (growBuffer streamExternals smallPull.self smallPull.world 23).2.1.mConvOutBuffer.length =
        46 ∧
      (growBuffer streamExternals smallPull.self smallPull.world
        23).2.1.mConvOutBufferSizeInFrames <
        23 + mMaxRate / mMinRate * mAllocBufferMultFactor ∧
      getConvertedBuffer streamExternals 20 smallPull.self smallPull.world true true 23 =
        Except.error Abort.outOfBounds := by
  refine ⟨rfl, by decide, by decide, by decide, by decide, by decide, by decide, by decide,
    by decide, by decide, by decide, by decide, rfl⟩

/-- C24: evaluation of the code. On an engine configured from mono to stereo (2 bytes per
destination frame), fresh from `configure` (no buffer, no frame, index 0), a request of 25
frames allocates 47 frames (94 bytes); the provider serves 3 frames per call and its ninth
call fails. Every conversion fitted in the buffer, and the request returns the provider's
status with 24 frames buffered and the index at 48: 24 x 2 + 48 = 96 exceeds the 94 bytes
allocated. -/
theorem invariant_broken_at_failed_return :
    pullEngine.mSsDst.convertFramesToBytes pullEngine.mConvOutFrames +
        pullEngine.mConvOutBufferIndex ≤ pullEngine.mConvOutBuffer.length ∧
      getConvertedBuffer flakyExternals 20 pullEngine (longStream, 9) true true 25 =
        Except.ok longFailed ∧
      longFailed.status = -11 ∧
      longFailed.events.filter isRealloc = [Event.realloc 94 true] ∧
      longFailed.self.mConvOutBuffer.length = 94 ∧
      pullCount longFailed.events = 9 ∧
      (writtenBytes longFailed.events).length = 48 ∧
      longFailed.self.mConvOutFrames = 24 ∧
      longFailed.self.mConvOutBufferIndex = 48 ∧
      longFailed.self.mSsDst.getFrameSize = 2 ∧
      ¬ (longFailed.self.mSsDst.convertFramesToBytes longFailed.self.mConvOutFrames +
        longFailed.self.mConvOutBufferIndex ≤ longFailed.self.mConvOutBuffer.length) := by
  refine ⟨by decide, rfl, by decide, by decide, by decide, by decide, by decide, by decide,
    by decide, by decide, by decide⟩

/-- The request made to the provider, `convertSrcToDstInFrames remaining ssDst ssSrc`, is the
least frame count whose duration at the source rate covers `remaining` frames at the
destination rate. -/
theorem convertSrcToDstInFrames_ceil (remaining : Nat) (ssDst ssSrc : SampleSpec)
    (hd : 0 < ssDst.sampleRate) :
    remaining * ssSrc.sampleRate ≤
        convertSrcToDstInFrames remaining ssDst ssSrc * ssDst.sampleRate ∧
      (∀ n, remaining * ssSrc.sampleRate ≤ n * ssDst.sampleRate →
        convertSrcToDstInFrames remaining ssDst ssSrc ≤ n) := by
  unfold convertSrcToDstInFrames
  constructor
  · have h1 := Nat.div_add_mod (remaining * ssSrc.sampleRate + ssDst.sampleRate - 1)
      ssDst.sampleRate
    have h2 := Nat.mod_lt (remaining * ssSrc.sampleRate + ssDst.sampleRate - 1) hd
    rw [Nat.mul_comm] at h1
    omega
  · intro n hn
    have h3 : remaining * ssSrc.sampleRate + ssDst.sampleRate - 1 <
        (n + 1) * ssDst.sampleRate := by
      rw [Nat.add_mul]
      omega
    exact Nat.le_of_lt_succ ((Nat.div_lt_iff_lt_mul hd).mpr h3)

theorem convertSrcToDstInFrames_pos (remaining : Nat) (ssDst ssSrc : SampleSpec)
    (hr : 0 < remaining) (hs : 0 < ssSrc.sampleRate) (hd : 0 < ssDst.sampleRate) :
    1 ≤ convertSrcToDstInFrames remaining ssDst ssSrc := by
  unfold convertSrcToDstInFrames
  have hp : 0 < remaining * ssSrc.sampleRate := Nat.mul_pos hr hs
  rw [Nat.le_div_iff_mul_le hd]
  omega

theorem convertSrcToDstInFrames_same_rate (remaining : Nat) (ssDst ssSrc : SampleSpec)
    (he : ssSrc.sampleRate = ssDst.sampleRate) (hd : 0 < ssDst.sampleRate) :
    convertSrcToDstInFrames remaining ssDst ssSrc = remaining := by
  have h := convertSrcToDstInFrames_ceil remaining ssDst ssSrc hd
  rw [he] at h
  have h1 : remaining ≤ convertSrcToDstInFrames remaining ssDst ssSrc :=
    Nat.le_of_mul_le_mul_right h.1 hd
  have h2 := h.2 remaining (Nat.le_refl _)
  omega

/-- C26: over every call of `getConvertedBuffer` that returns, each `getNextBuffer` call
asks for `convertSrcToDstInFrames remaining mSsDst mSsSrc` frames, `remaining` being the
destination frames still needed: the request less the frames already buffered at first,
less the frames of each successful conversion afterwards. This count is
ceil(remaining x srcRate / dstRate), the least count `n` with
`remaining x srcRate ≤ n x dstRate`; it is at least 1 when frames remain (rates not 0) and
it is `remaining` when the two rates are equal. -/
theorem provider_request_projection {ω : Type} (ext : Externals ω) (fuel : Nat)
    (self : AudioConversion) (w : ω) (dstValid providerValid : Bool) (outFrames : Nat)
    (r : PullResult ω) (remaining : Nat)
    (h : getConvertedBuffer ext fuel self w dstValid providerValid outFrames = Except.ok r) :
    requestsFollow self.mSsDst self.mSsSrc (outFrames - min outFrames self.mConvOutFrames)
        r.events = true ∧
      (0 < self.mSsDst.sampleRate →
        remaining * self.mSsSrc.sampleRate ≤
            convertSrcToDstInFrames remaining self.mSsDst self.mSsSrc *
              self.mSsDst.sampleRate ∧
          ∀ n, remaining * self.mSsSrc.sampleRate ≤ n * self.mSsDst.sampleRate →
            convertSrcToDstInFrames remaining self.mSsDst self.mSsSrc ≤ n) ∧
      (0 < remaining → 0 < self.mSsSrc.sampleRate → 0 < self.mSsDst.sampleRate →
        1 ≤ convertSrcToDstInFrames remaining self.mSsDst self.mSsSrc) ∧
      (self.mSsSrc.sampleRate = self.mSsDst.sampleRate → 0 < self.mSsDst.sampleRate →
        convertSrcToDstInFrames remaining self.mSsDst self.mSsSrc = remaining) := by
  refine ⟨?_, convertSrcToDstInFrames_ceil remaining _ _,
    convertSrcToDstInFrames_pos remaining _ _,
    convertSrcToDstInFrames_same_rate remaining _ _⟩
  obtain ⟨_, _, _, g4, g5, g6, g7, _⟩ := growBuffer_capacity ext self w outFrames
  rcases getConvertedBuffer_exits ext fuel self w dstValid providerValid outFrames r h with
    ⟨_, e2, _⟩ | ⟨_, _, _, _, _, _, e7⟩ | ⟨_, _, _, _, st, s3, hloop, _⟩
  · rw [e2]; rfl
  · rw [e7]
    rcases g4 with g4 | ⟨b, ok, g4⟩ <;> rw [g4] <;> rfl
  · obtain ⟨new, c1, _, c3, _⟩ := pullLoop_frame ext _ _ _ _ _ _ _ _ _ hloop
    obtain ⟨d1, _, _, d4, d5, d6, _, _⟩ :=
      drainBuffered_eq (growBuffer ext self w outFrames).2.1 outFrames
    rw [d5, d6, d1, g5, g6, g7] at c3
    rw [c1]
    rcases g4 with g4 | ⟨b, ok, g4⟩ <;> rw [g4]
    · simpa using c3
    · simpa [requestsFollow] using c3

theorem provider_request_projection_witness :
    requestsFollow firstPull.self.mSsDst firstPull.self.mSsSrc
        (3 - min 3 firstPull.self.mConvOutFrames) secondPull.events = true ∧
      secondPull.events =
        [Event.getNextBuffer 4 0 ⟨[4, 5, 6], 3⟩,
          Event.convert ⟨[4, 5, 6], 3⟩ 0 3 [4, 4, 5, 5, 6, 6],
          Event.releaseBuffer ⟨[4, 5, 6], 3⟩] ∧
      convertSrcToDstInFrames 2 firstPull.self.mSsDst firstPull.self.mSsSrc = 4 :=
  ⟨(provider_request_projection streamExternals 10 firstPull.self firstPull.world true true 3
      secondPull 2 rfl).1, by decide, by decide⟩

/-- C27: on every path where `getConvertedBuffer` reaches its final copy (the growth block
went through and the loop ended with NO_ERROR), the buffered frame count found by the copy
is the count buffered before the call plus the frames converted during the call, and it is
at least `outFrames`, so that `mConvOutFrames -= outFrames` does not wrap: after the copy,
the count plus `outFrames` is the count before it. This holds from every state, the index
being 0 or not. -/
theorem copy_out_count_covers_request {ω : Type} (ext : Externals ω) (fuel : Nat)
    (self : AudioConversion) (w : ω) (outFrames : Nat) (s3 : AudioConversion) (w3 : ω)
    (ev3 : List Event)
    (hloop : pullLoop ext fuel (drainBuffered (growBuffer ext self w outFrames).2.1 outFrames).2
        (growBuffer ext self w outFrames).2.2.1
        (drainBuffered (growBuffer ext self w outFrames).2.1 outFrames).1
        (growBuffer ext self w outFrames).2.2.2 = Except.ok (NO_ERROR, s3, w3, ev3)) :
    s3.mConvOutFrames = self.mConvOutFrames + convertedFrames ev3 ∧
      outFrames ≤ s3.mConvOutFrames ∧
      ∀ dst s4, copyOut s3 outFrames = Except.ok (dst, s4) →
        s4.mConvOutFrames + outFrames = s3.mConvOutFrames := by
  obtain ⟨new, e1, _, _, _, e5, _, e7, _⟩ := pullLoop_ok ext _ _ _ _ _ _ _ _ hloop
  obtain ⟨_, _, _, g4, _, _, g7, _⟩ := growBuffer_capacity ext self w outFrames
  obtain ⟨d1, _, _, d4, _⟩ := drainBuffered_eq (growBuffer ext self w outFrames).2.1 outFrames
  rw [d4, g7] at e5
  rw [d1, g7] at e7
  have hc : convertedFrames ev3 = convertedFrames new := by
    rw [e1, convertedFrames_append]
    rcases g4 with g4 | ⟨b, ok, g4⟩ <;> rw [g4] <;> simp [convertedFrames]
  have hcover : outFrames ≤ s3.mConvOutFrames := by
    rw [e5]
    omega
  refine ⟨by rw [e5, hc], hcover, ?_⟩
  intro dst s4 hco
  rw [(copyOut_ok _ _ _ _ hco).2.2.1]
  omega

theorem copy_out_count_covers_request_witness :
    secondLoop.2.1.mConvOutFrames = firstPull.self.mConvOutFrames +
        convertedFrames secondLoop.2.2.2 ∧
      3 ≤ secondLoop.2.1.mConvOutFrames ∧ secondLoop.2.1.mConvOutFrames = 4 :=
  ⟨(copy_out_count_covers_request streamExternals 10 firstPull.self firstPull.world 3
      secondLoop.2.1 secondLoop.2.2.1 secondLoop.2.2.2 rfl).1,
    (copy_out_count_covers_request streamExternals 10 firstPull.self firstPull.world 3
      secondLoop.2.1 secondLoop.2.2.1 secondLoop.2.2.2 rfl).2.1, by decide⟩

theorem pullCount_append (xs ys : List Event) :
    pullCount (xs ++ ys) = pullCount xs + pullCount ys := by
  induction xs with
  | nil => simp [pullCount]
  | cons e rest ih => cases e <;> simp [pullCount, ih]; omega

/-- When every successful pull and conversion made for a request still open yields at least
one frame, the pull loop ends within as many iterations as frames requested. -/
theorem pullLoop_terminates {ω : Type} (ext : Externals ω) (ssDst ssSrc : SampleSpec)
    (hprog : ∀ w remaining, 0 < remaining →
      (ext.getNextBuffer w (convertSrcToDstInFrames remaining ssDst ssSrc)).1 = NO_ERROR →
      (ext.convert (ext.getNextBuffer w (convertSrcToDstInFrames remaining ssDst ssSrc)).2.2
        (ext.getNextBuffer w (convertSrcToDstInFrames remaining ssDst ssSrc)).2.1).1 =
          NO_ERROR →
      1 ≤ (ext.convert (ext.getNextBuffer w (convertSrcToDstInFrames remaining ssDst ssSrc)).2.2
        (ext.getNextBuffer w (convertSrcToDstInFrames remaining ssDst ssSrc)).2.1).2.1) :
    ∀ (fuel : Nat) (self : AudioConversion) (w : ω) (framesRequested : Nat)
      (events : List Event),
      self.mSsDst = ssDst → self.mSsSrc = ssSrc → framesRequested ≤ fuel →
      pullLoop ext fuel self w framesRequested events ≠ Except.error Abort.outOfFuel ∧
        ∀ st self1 w1 events1,
          pullLoop ext fuel self w framesRequested events =
            Except.ok (st, self1, w1, events1) →
          ∃ new, events1 = events ++ new ∧ pullCount new ≤ framesRequested := by
  intro fuel
  induction fuel with
  | zero =>
    intro self w fr events _ _ hle
    have h0 : fr = 0 := by omega
    subst h0
    simp only [pullLoop]
    refine ⟨by simp, ?_⟩
    intro st self1 w1 events1 h
    simp only [Except.ok.injEq, Prod.mk.injEq] at h
    exact ⟨[], by simp [h.2.2.2.symm], by simp [pullCount]⟩
  | succ fuel ih =>
    intro self w fr events hd hs hle
    cases fr with
    | zero =>
      simp only [pullLoop]
      refine ⟨by simp, ?_⟩
      intro st self1 w1 events1 h
      simp only [Except.ok.injEq, Prod.mk.injEq] at h
      exact ⟨[], by simp [h.2.2.2.symm], by simp [pullCount]⟩
    | succ n =>
      have hp := hprog w (n + 1) (Nat.succ_pos n)
      rw [← hd, ← hs] at hp
      simp only [pullLoop]
      rcases hgd : ext.getNextBuffer w
          (convertSrcToDstInFrames (n + 1) self.mSsDst self.mSsSrc) with ⟨gs, gb, gw⟩
      simp only [hgd] at hp ⊢
      by_cases hg : gs = NO_ERROR
      · simp only [hg, ne_eq, not_true_eq_false, if_false]
        rcases hcd : ext.convert gw gb with ⟨cs, cf, content, cw⟩
        simp only [hcd] at hp ⊢
        by_cases hc : cs = NO_ERROR
        · simp only [hc, not_true_eq_false, if_false]
          have hcf : 1 ≤ cf := hp hg hc
          cases hw : writeAt self.mConvOutBuffer self.mConvOutBufferIndex
              ((List.range (self.mSsDst.convertFramesToBytes cf)).map content) with
          | none =>
            simp only
            refine ⟨by simp, ?_⟩
            intro st self1 w1 events1 h
            simp at h
          | some buf =>
            simp only
            have hrem : n + 1 - min (n + 1) cf ≤ fuel := by omega
            obtain ⟨i1, i2⟩ := ih
              { self with
                mConvOutBuffer := buf
                mConvOutFrames := self.mConvOutFrames + cf
                mConvOutBufferIndex :=
                  self.mConvOutBufferIndex + self.mSsDst.convertFramesToBytes cf }
              (ext.releaseBuffer cw gb) (n + 1 - min (n + 1) cf)
              (events ++ [Event.getNextBuffer
                  (convertSrcToDstInFrames (n + 1) self.mSsDst self.mSsSrc) NO_ERROR gb] ++
                [Event.convert gb NO_ERROR cf
                  ((List.range (self.mSsDst.convertFramesToBytes cf)).map content),
                  Event.releaseBuffer gb]) hd hs hrem
            refine ⟨i1, ?_⟩
            intro st self1 w1 events1 h
            obtain ⟨new, e1, e2⟩ := i2 st self1 w1 events1 h
            refine ⟨Event.getNextBuffer
                (convertSrcToDstInFrames (n + 1) self.mSsDst self.mSsSrc) NO_ERROR gb ::
              Event.convert gb NO_ERROR cf
                ((List.range (self.mSsDst.convertFramesToBytes cf)).map content) ::
              Event.releaseBuffer gb :: new, ?_, ?_⟩
            · rw [e1]; simp
            · simp only [pullCount]
              omega
        · simp only [hc, not_false_eq_true, if_true]
          refine ⟨by simp, ?_⟩
          intro st self1 w1 events1 h
          simp only [Except.ok.injEq, Prod.mk.injEq] at h
          refine ⟨[Event.getNextBuffer
                (convertSrcToDstInFrames (n + 1) self.mSsDst self.mSsSrc) NO_ERROR gb,
              Event.convert gb cs cf [], Event.releaseBuffer gb], ?_, ?_⟩
          · rw [← h.2.2.2]; simp
          · simp only [pullCount]; omega
      · simp only [hg, ne_eq, not_false_eq_true, if_true]
        refine ⟨by simp, ?_⟩
        intro st self1 w1 events1 h
        simp only [Except.ok.injEq, Prod.mk.injEq] at h
        refine ⟨[Event.getNextBuffer
              (convertSrcToDstInFrames (n + 1) self.mSsDst self.mSsSrc) gs gb], ?_, ?_⟩
        · rw [← h.2.2.2]
        · simp only [pullCount]; omega

theorem copyOut_not_outOfFuel (self : AudioConversion) (outFrames : Nat) :
    copyOut self outFrames ≠ Except.error Abort.outOfFuel := by
  unfold copyOut
  dsimp only
  split_ifs <;> simp

/-- On the engine of the examples every pull made for a request still open, when it and the
conversion succeed, yields at least one frame. -/
theorem streamExternals_progress (w : List Nat) (remaining : Nat) (hr : 0 < remaining)
    (hg : (streamExternals.getNextBuffer w
      (convertSrcToDstInFrames remaining pullEngine.mSsDst pullEngine.mSsSrc)).1 = NO_ERROR)
    (_hc : (streamExternals.convert (streamExternals.getNextBuffer w
        (convertSrcToDstInFrames remaining pullEngine.mSsDst pullEngine.mSsSrc)).2.2
      (streamExternals.getNextBuffer w
        (convertSrcToDstInFrames remaining pullEngine.mSsDst pullEngine.mSsSrc)).2.1).1 =
        NO_ERROR) :
    1 ≤ (streamExternals.convert (streamExternals.getNextBuffer w
        (convertSrcToDstInFrames remaining pullEngine.mSsDst pullEngine.mSsSrc)).2.2
      (streamExternals.getNextBuffer w
        (convertSrcToDstInFrames remaining pullEngine.mSsDst pullEngine.mSsSrc)).2.1).2.1 := by
  have hn := convertSrcToDstInFrames_pos remaining pullEngine.mSsDst pullEngine.mSsSrc hr
    (by decide) (by decide)
  generalize convertSrcToDstInFrames remaining pullEngine.mSsDst pullEngine.mSsSrc = n at hn hg ⊢
  unfold streamExternals at hg ⊢
  by_cases hw : w = []
  · simp [hw, NO_ERROR] at hg
  · have hl : 0 < w.length := List.length_pos.mpr hw
    simp only [hw, if_false, List.length_take]
    omega

/-- C30: when every successful pull and conversion made for a request still open yields at
least one destination frame, the pull loop of `getConvertedBuffer` ends: with a bound of
`outFrames` iterations or more the call never stops for lack of iterations, and a call that
returns made at most `outFrames` calls of `getNextBuffer`, hence none for a request of 0
frames. -/
theorem pull_loop_terminates {ω : Type} (ext : Externals ω) (fuel : Nat)
    (self : AudioConversion) (w : ω) (dstValid providerValid : Bool) (outFrames : Nat)
    (hprog : ∀ w remaining, 0 < remaining →
      (ext.getNextBuffer w
        (convertSrcToDstInFrames remaining self.mSsDst self.mSsSrc)).1 = NO_ERROR →
      (ext.convert
        (ext.getNextBuffer w (convertSrcToDstInFrames remaining self.mSsDst self.mSsSrc)).2.2
        (ext.getNextBuffer w
          (convertSrcToDstInFrames remaining self.mSsDst self.mSsSrc)).2.1).1 = NO_ERROR →
      1 ≤ (ext.convert
        (ext.getNextBuffer w (convertSrcToDstInFrames remaining self.mSsDst self.mSsSrc)).2.2
        (ext.getNextBuffer w
          (convertSrcToDstInFrames remaining self.mSsDst self.mSsSrc)).2.1).2.1)
    (hfuel : outFrames ≤ fuel) :
    getConvertedBuffer ext fuel self w dstValid providerValid outFrames ≠
        Except.error Abort.outOfFuel ∧
      ∀ r, getConvertedBuffer ext fuel self w dstValid providerValid outFrames = Except.ok r →
        pullCount r.events ≤ outFrames := by
  obtain ⟨_, _, _, g4, g5, g6, _, _⟩ := growBuffer_capacity ext self w outFrames
  obtain ⟨d1, _, _, _, d5, d6, _, _⟩ :=
    drainBuffered_eq (growBuffer ext self w outFrames).2.1 outFrames
  have hrem : (drainBuffered (growBuffer ext self w outFrames).2.1 outFrames).1 ≤ fuel := by
    rw [d1]; omega
  obtain ⟨t1, t2⟩ := pullLoop_terminates ext self.mSsDst self.mSsSrc hprog fuel
    (drainBuffered (growBuffer ext self w outFrames).2.1 outFrames).2
    (growBuffer ext self w outFrames).2.2.1
    (drainBuffered (growBuffer ext self w outFrames).2.1 outFrames).1
    (growBuffer ext self w outFrames).2.2.2 (by rw [d5, g5]) (by rw [d6, g6]) hrem
  have hgrowCount : pullCount (growBuffer ext self w outFrames).2.2.2 = 0 := by
    rcases g4 with g4 | ⟨b, ok, g4⟩ <;> rw [g4] <;> rfl
  constructor
  · unfold getConvertedBuffer
    by_cases hnull : (!providerValid || !dstValid) = true
    · simp [hnull]
    simp only [hnull, Bool.false_eq_true, if_false]
    by_cases hemp : self.mActiveAudioConvList.isEmpty = true
    · simp [hemp]
    simp only [hemp, Bool.false_eq_true, if_false]
    by_cases hgrow : (growBuffer ext self w outFrames).1 = true
    swap
    · simp [hgrow]
    simp only [hgrow, Bool.not_true, Bool.false_eq_true, if_false]
    cases hloop : pullLoop ext fuel
        (drainBuffered (growBuffer ext self w outFrames).2.1 outFrames).2
        (growBuffer ext self w outFrames).2.2.1
        (drainBuffered (growBuffer ext self w outFrames).2.1 outFrames).1
        (growBuffer ext self w outFrames).2.2.2 with
    | error e =>
      simp only [ne_eq, Except.error.injEq]
      intro he
      rw [hloop, he] at t1
      exact t1 rfl
    | ok val =>
      obtain ⟨st, s4, w3, ev3⟩ := val
      simp only
      by_cases hst : st = NO_ERROR
      swap
      · simp [hst]
      subst hst
      simp only [ne_eq, not_true_eq_false, if_false]
      cases hco : copyOut s4 outFrames with
      | error e =>
        simp only [Except.error.injEq]
        intro he
        rw [he] at hco
        exact copyOut_not_outOfFuel s4 outFrames hco
      | ok val2 => simp
  · intro r h
    rcases getConvertedBuffer_exits ext fuel self w dstValid providerValid outFrames r h with
      ⟨_, e2, _⟩ | ⟨_, _, _, _, _, _, e7⟩ | ⟨_, _, _, _, st, s3, hloop, _⟩
    · rw [e2]; simp [pullCount]
    · rw [e7, hgrowCount]; omega
    · obtain ⟨new, c1, c2⟩ := t2 st s3 r.world r.events hloop
      rw [c1, pullCount_append, hgrowCount, d1] at *
      omega

theorem pull_loop_terminates_witness :
    getConvertedBuffer streamExternals 5 firstPull.self firstPull.world true true 3 ≠
        Except.error Abort.outOfFuel ∧
      getConvertedBuffer streamExternals 5 firstPull.self firstPull.world true true 3 =
        Except.ok secondPull ∧
      pullCount secondPull.events ≤ 3 ∧ pullCount secondPull.events = 1 :=
  ⟨(pull_loop_terminates streamExternals 5 firstPull.self firstPull.world true true 3
      streamExternals_progress (by decide)).1, rfl,
    (pull_loop_terminates streamExternals 5 firstPull.self firstPull.world true true 3
      streamExternals_progress (by decide)).2 secondPull rfl, by decide⟩

/-! ### Planning: statuses and insertions -/

/-- C21, counterexample: with a reformatter that rejects its configuration with BAD_VALUE,
`configure` from stereo 8.24 48 kHz to mono 16 bit 8 kHz returns BAD_VALUE, the status of
the reformatter, and not INVALID_OPERATION. -/
theorem configure_failure_reports_converter_status :
    FormatSampleSpecItem ∈ planItems stereo824at48k mono16at8k ∧
      (∀ a b, rejectReformat FormatSampleSpecItem a b = BAD_VALUE) ∧
      (configure rejectReformat newAudioConversion stereo824at48k mono16at8k).1 = BAD_VALUE ∧
      (configure rejectReformat newAudioConversion stereo824at48k mono16at8k).1 ≠
        INVALID_OPERATION := by
  refine ⟨by decide, fun _ _ => rfl, by decide, by decide⟩

/-- C21, amended: if, the converters of the plan before converter `i` having accepted their
configuration, converter `i` rejects its own, `configure` returns the status reported by
converter `i`, which is INVALID_OPERATION exactly when the converter reported
INVALID_OPERATION. -/
theorem configure_failure_status (cfg : ConverterConfigure) (self : AudioConversion)
    (src dst : SampleSpec) (done : List Nat) (i : Nat) (rest : List Nat)
    (hplan : planItems src dst = done ++ i :: rest)
    (hdone : (runItems cfg dst done (resetState self src dst) src).1 = NO_ERROR)
    (hfail : cfg i (specAfter dst done src) (nextSpec i (specAfter dst done src) dst) ≠
      NO_ERROR) :
    (configure cfg self src dst).1 =
        cfg i (specAfter dst done src) (nextSpec i (specAfter dst done src) dst) ∧
      ((configure cfg self src dst).1 = INVALID_OPERATION ↔
        cfg i (specAfter dst done src) (nextSpec i (specAfter dst done src) dst) =
          INVALID_OPERATION) := by
  have hne : src ≠ dst := by
    intro e
    rw [e, planItems_same] at hplan
    simp at hplan
  have hrun : (runItems cfg dst (planItems src dst) (resetState self src dst) src).1 =
      cfg i (specAfter dst done src) (nextSpec i (specAfter dst done src) dst) := by
    rw [hplan, runItems_append]
    simp only [hdone, ne_eq, not_true_eq_false, if_false]
    rw [(runItems_ok cfg dst done _ _ hdone).2]
    simp only [runItems]
    rw [doConfigure_eq]
    simp [hfail]
  have hst : (configure cfg self src dst).1 =
      cfg i (specAfter dst done src) (nextSpec i (specAfter dst done src) dst) := by
    rw [configure_status cfg self src dst hne, hrun]
    simp [hfail]
  exact ⟨hst, by rw [hst]⟩

theorem configure_failure_status_witness :
    (configure rejectReformat newAudioConversion stereo824at48k mono16at8k).1 =
      rejectReformat FormatSampleSpecItem
        (specAfter mono16at8k [ChannelCountSampleSpecItem] stereo824at48k)
        (nextSpec FormatSampleSpecItem
          (specAfter mono16at8k [ChannelCountSampleSpecItem] stereo824at48k) mono16at8k) :=
  (configure_failure_status rejectReformat newAudioConversion stereo824at48k mono16at8k
    [ChannelCountSampleSpecItem] FormatSampleSpecItem [RateSampleSpecItem]
    (by decide) (by decide) (by decide)).1

/-- C25: `doConfigureAndAddConverter`, the only place where `configure` inserts a
converter, configures converter `i` from the running source spec `a` to the spec
`nextSpec i a d`, which is `a` but for the attribute of the converter, taken from the
destination `d`: channel count and channel policy for the remapper, format for the
reformatter, rate for the resampler. On success the converter is appended to the chain and
the running source spec becomes that spec; on failure the chain and the running source spec
are unchanged. Hence every converter in the chain left by `configure` was configured with
such a pair. -/
theorem insertion_changes_one_attribute (cfg : ConverterConfigure) (i : Nat)
    (self self0 : AudioConversion) (a d src dst : SampleSpec) :
    (doConfigureAndAddConverter cfg i self a d).2.1.configuredWith i =
        some (a, nextSpec i a d) ∧
      nextSpec ChannelCountSampleSpecItem a d =
        { a with channelCount := d.channelCount, channelsPolicy := d.channelsPolicy } ∧
      nextSpec FormatSampleSpecItem a d = { a with format := d.format } ∧
      nextSpec RateSampleSpecItem a d = { a with sampleRate := d.sampleRate } ∧
      ((doConfigureAndAddConverter cfg i self a d).1 = NO_ERROR →
        (doConfigureAndAddConverter cfg i self a d).2.1.mActiveAudioConvList =
            self.mActiveAudioConvList ++ [i] ∧
          (doConfigureAndAddConverter cfg i self a d).2.2 = nextSpec i a d) ∧
      ((doConfigureAndAddConverter cfg i self a d).1 ≠ NO_ERROR →
        (doConfigureAndAddConverter cfg i self a d).2.1.mActiveAudioConvList =
            self.mActiveAudioConvList ∧
          (doConfigureAndAddConverter cfg i self a d).2.2 = a) ∧
      (∀ j, j ∈ (configure cfg self0 src dst).2.mActiveAudioConvList →
        ∃ s, (configure cfg self0 src dst).2.configuredWith j = some (s, nextSpec j s dst)) := by
  refine ⟨?_, nextSpec_channels a d, nextSpec_format a d, nextSpec_rate a d, ?_, ?_, ?_⟩
  · rw [doConfigure_cw, Function.update_same]
  · intro h
    exact ⟨doConfigure_chain_ok cfg i self a d h, doConfigure_spec_ok cfg i self a d h⟩
  · intro h
    exact ⟨doConfigure_chain_fail cfg i self a d h, doConfigure_spec_fail cfg i self a d h⟩
  · intro j hj
    by_cases hne : src = dst
    · subst hne
      rw [configure_same] at hj
      simp [resetState] at hj
    · rw [configure_state cfg self0 src dst hne] at hj ⊢
      exact ⟨_, runItems_cw_mem cfg dst j (planItems src dst) (resetState self0 src dst) src
        (planItems_nodup src dst) (by simp [resetState]) hj⟩

theorem insertion_changes_one_attribute_witness :
    (doConfigureAndAddConverter rejectReformat FormatSampleSpecItem newAudioConversion
        stereo824at48k mono16at8k).2.1.mActiveAudioConvList =
        newAudioConversion.mActiveAudioConvList ∧
      (doConfigureAndAddConverter rejectReformat FormatSampleSpecItem newAudioConversion
        stereo824at48k mono16at8k).2.2 = stereo824at48k ∧
      (doConfigureAndAddConverter acceptAll FormatSampleSpecItem newAudioConversion
        stereo824at48k mono16at8k).2.2 = { stereo824at48k with format := mono16at8k.format } :=
  ⟨((insertion_changes_one_attribute rejectReformat FormatSampleSpecItem newAudioConversion
      newAudioConversion stereo824at48k mono16at8k stereo824at48k mono16at8k).2.2.2.2.2.1
      (by decide)).1,
    ((insertion_changes_one_attribute rejectReformat FormatSampleSpecItem newAudioConversion
      newAudioConversion stereo824at48k mono16at8k stereo824at48k mono16at8k).2.2.2.2.2.1
      (by decide)).2,
    (((insertion_changes_one_attribute acceptAll FormatSampleSpecItem newAudioConversion
      newAudioConversion stereo824at48k mono16at8k stereo824at48k mono16at8k).2.2.2.2.1
      (by decide)).2).trans (nextSpec_format _ _)⟩

/-- C28: every `configure` call, whatever its arguments, the converters and its outcome,
leaves no accumulation buffer, the buffered frame count, the index and the recorded
capacity at 0, and the specs it was given as the stored source and destination specs. -/
theorem configure_drops_accumulation (cfg : ConverterConfigure) (self : AudioConversion)
    (src dst : SampleSpec) :
    (configure cfg self src dst).2.mConvOutFrames = 0 ∧
      (configure cfg self src dst).2.mConvOutBufferIndex = 0 ∧
      (configure cfg self src dst).2.mConvOutBufferSizeInFrames = 0 ∧
      (configure cfg self src dst).2.mConvOutBuffer = [] ∧
      (configure cfg self src dst).2.mSsSrc = src ∧
      (configure cfg self src dst).2.mSsDst = dst ∧
      (configure cfg self src src).2.mConvOutFrames = 0 ∧
      (configure cfg self src src).2.mConvOutBufferSizeInFrames = 0 := by
  have key : ∀ d, sameBuffering (resetState self src d) (configure cfg self src d).2 := by
    intro d
    by_cases hne : src = d
    · subst hne
      rw [configure_same]
      simp [sameBuffering]
    · rw [configure_state cfg self src d hne]
      exact runItems_sameBuffering cfg d (planItems src d) (resetState self src d) src
  obtain ⟨h1, h2, h3, h4, h5, h6⟩ := key dst
  obtain ⟨_, _, k3, k4, _, _⟩ := key src
  exact ⟨h3, h2, h4, h1, h5, h6, k3, k4⟩

/-- C29: converting a mono buffer to stereo with both destination channels at Copy, then
converting the stereo buffer back to mono with both source channels at Copy, gives back
every sample of the first `inFrames` frames, for every sample value of the container type
and both container types. -/
theorem mono_stereo_round_trip (ty : SampleType) (toStereo toMono : AudioRemapper)
    (src dst0 dst1 : Nat → Int) (inFrames f : Nat)
    (hd : toStereo.mSsDst.channelCount = 2)
    (hdp : toStereo.mSsDst.channelsPolicy = [ChannelsPolicy.Copy, ChannelsPolicy.Copy])
    (hs : toMono.mSsSrc.channelCount = 2)
    (hsp : toMono.mSsSrc.channelsPolicy = [ChannelsPolicy.Copy, ChannelsPolicy.Copy])
    (hval : ty.holds (src f)) (hf : f < inFrames) :
    (convertStereoToMono ty toMono (convertMonoToStereo ty toStereo src dst0 inFrames).2.1
      dst1 inFrames).2.1 f = src f := by
  have h0 : (convertMonoToStereo ty toStereo src dst0 inFrames).2.1 (2 * f + 0) = src f := by
    rw [convertMonoToStereo_sample ty toStereo src dst0 inFrames hd]
    have hdiv : (2 * f + 0) / 2 = f := by omega
    have hmod : (2 * f + 0) % 2 = 0 := by omega
    rw [hdiv, hmod, if_pos]
    exact ⟨hf, by simp [SampleSpec.getChannelsPolicy, hdp]⟩
  have h1 : (convertMonoToStereo ty toStereo src dst0 inFrames).2.1 (2 * f + 1) = src f := by
    rw [convertMonoToStereo_sample ty toStereo src dst0 inFrames hd]
    have hdiv : (2 * f + 1) / 2 = f := by omega
    have hmod : (2 * f + 1) % 2 = 1 := by omega
    rw [hdiv, hmod, if_pos]
    exact ⟨hf, by simp [SampleSpec.getChannelsPolicy, hdp]⟩
  rw [convertStereoToMono_frame, if_pos hf, hs]
  rw [getAveragedSrcFrame_stereo ty toMono _ ChannelsPolicy.Copy ChannelsPolicy.Copy hs hsp
    (by rw [h0]; exact hval) (by rw [h1]; exact hval)]
  rw [h0, h1]
  simp only [averageOfCounted, ne_eq, reduceCtorEq, not_false_eq_true, and_self, if_true]
  rw [Int.fdiv_eq_ediv _ (by decide)]
  omega

theorem mono_stereo_round_trip_witness :
    (convertStereoToMono SampleType.int16
        (policyRemapper ChannelsPolicy.Copy ChannelsPolicy.Copy ChannelsPolicy.Copy
          ChannelsPolicy.Copy)
        (convertMonoToStereo SampleType.int16
          (monoToStereoRemapper ChannelsPolicy.Copy ChannelsPolicy.Copy) sampleStereo
          (fun _ => 7) 3).2.1 (fun _ => 9) 3).2.1 2 = sampleStereo 2 ∧
      sampleStereo 2 = -3 ∧
      (convertStereoToMono SampleType.uint32 stereo824Remapper
        (convertMonoToStereo SampleType.uint32
          (monoToStereoRemapper ChannelsPolicy.Copy ChannelsPolicy.Copy) oppositeSigns
          (fun _ => 7) 1).2.1 (fun _ => 9) 1).2.1 0 = oppositeSigns 0 :=
  ⟨mono_stereo_round_trip SampleType.int16
      (monoToStereoRemapper ChannelsPolicy.Copy ChannelsPolicy.Copy)
      (policyRemapper ChannelsPolicy.Copy ChannelsPolicy.Copy ChannelsPolicy.Copy
        ChannelsPolicy.Copy) sampleStereo (fun _ => 7) (fun _ => 9) 3 2 rfl rfl rfl rfl
      (by decide) (by decide),
    by decide,
    mono_stereo_round_trip SampleType.uint32
      (monoToStereoRemapper ChannelsPolicy.Copy ChannelsPolicy.Copy) stereo824Remapper
      oppositeSigns (fun _ => 7) (fun _ => 9) 1 0 rfl rfl rfl rfl (by decide) (by decide)⟩

/-- C20, amended: if `configure(src, dst)` returns an error, a converter of the plan rejected
its configuration; the chain is left holding the converters of the plan that come before
that one, and the status returned is the status of the failing converter. When the part
kept is empty (the first planned converter failed), a later `getConvertedBuffer` with valid
arguments returns NO_INIT without any external call and a later `convert` with a non-null
source returns NO_ERROR with `*outFrames = inFrames` and calls no converter. When it is not
empty, a later `getConvertedBuffer` with valid arguments for at least one frame goes past
the empty chain check and calls `realloc` (and returns NO_MEMORY when `realloc` fails),
and a later `convert` with a non-null source is the serial application of exactly the
converters kept, a strict part of the planned chain. -/
theorem configure_failure_chain {ω σ : Type} (cfg : ConverterConfigure)
    (self : AudioConversion) (src dst : SampleSpec) (ext : Externals ω) (fuel : Nat) (w : ω)
    (outFrames : Nat) (stage : StageConvert σ) (conv : σ) (mem : Mem)
    (srcBuf dstBuf inFrames outFrames0 : Nat)
    (h : (configure cfg self src dst).1 ≠ OK) (hsrc : srcBuf ≠ 0) :
    ∃ done i rest, planItems src dst = done ++ i :: rest ∧
      (configure cfg self src dst).2.mActiveAudioConvList = done ∧
      (configure cfg self src dst).1 =
        cfg i (specAfter dst done src) (nextSpec i (specAfter dst done src) dst) ∧
      cfg i (specAfter dst done src) (nextSpec i (specAfter dst done src) dst) ≠ NO_ERROR ∧
      (done = [] →
        getConvertedBuffer ext fuel (configure cfg self src dst).2 w true true outFrames =
            Except.ok { status := NO_INIT, dst := none, self := (configure cfg self src dst).2,
                        world := w, events := [] } ∧
          (convert stage (configure cfg self src dst).2 conv mem srcBuf dstBuf inFrames
            outFrames0).status = NO_ERROR ∧
          (convert stage (configure cfg self src dst).2 conv mem srcBuf dstBuf inFrames
            outFrames0).outFrames = inFrames ∧
          (convert stage (configure cfg self src dst).2 conv mem srcBuf dstBuf inFrames
            outFrames0).calls = []) ∧
      (done ≠ [] →
        (∀ r, 0 < outFrames →
          getConvertedBuffer ext fuel (configure cfg self src dst).2 w true true outFrames =
            Except.ok r →
          ∃ bytes ok later, r.events = Event.realloc bytes ok :: later ∧
            (ok = false → r.status = NO_MEMORY)) ∧
          convert stage (configure cfg self src dst).2 conv mem srcBuf dstBuf inFrames
              outFrames0 =
            convertSpec stage dstBuf outFrames0 done srcBuf inFrames conv mem []) := by
  obtain ⟨done, i, rest, e1, e2, e3, e4⟩ := configure_failure_plan cfg self src dst h
  refine ⟨done, i, rest, e1, e2, e3, e4, ?_, ?_⟩
  · intro hd
    rw [hd] at e2
    refine ⟨?_, ?_, ?_, ?_⟩
    · unfold getConvertedBuffer
      simp [e2]
    · unfold convert
      simp only [hsrc, e2, if_false, List.isEmpty_nil, if_true]
      by_cases hz : dstBuf = 0 <;> simp [hz]
    · unfold convert
      simp only [hsrc, e2, if_false, List.isEmpty_nil, if_true]
      by_cases hz : dstBuf = 0 <;> simp [hz]
    · unfold convert
      simp only [hsrc, e2, if_false, List.isEmpty_nil, if_true]
      by_cases hz : dstBuf = 0 <;> simp [hz]
  · intro hd
    have hchain : (configure cfg self src dst).2.mActiveAudioConvList ≠ [] := by
      rw [e2]; exact hd
    refine ⟨?_, ?_⟩
    · intro r hpos hr
      have hcap : (configure cfg self src dst).2.mConvOutBufferSizeInFrames < outFrames := by
        rw [(configure_sameBuffering cfg self src dst).2.2.2.1]
        exact hpos
      obtain ⟨bytes, ok, g1, g2⟩ :=
        growBuffer_calls_realloc ext (configure cfg self src dst).2 w outFrames hcap
      rcases getConvertedBuffer_exits ext fuel _ w true true outFrames r hr with
        ⟨_, _, x3⟩ | ⟨_, _, _, x4, x5, _, x7⟩ | ⟨_, _, _, x4, st, s3, hloop, _⟩
      · rcases x3 with x3 | x3 | x3
        · exact absurd x3 (by decide)
        · exact absurd x3 (by decide)
        · exact absurd x3 hchain
      · exact ⟨bytes, ok, [], by rw [x7, g1], fun _ => x5⟩
      · obtain ⟨new, c1, _⟩ := pullLoop_frame ext _ _ _ _ _ _ _ _ _ hloop
        refine ⟨bytes, ok, new, by rw [c1, g1]; rfl, ?_⟩
        intro hok
        rw [x4] at g2
        rw [← g2] at hok
        exact absurd hok (by decide)
    · unfold convert
      have he : (configure cfg self src dst).2.mActiveAudioConvList.isEmpty = false := by
        rw [e2]
        cases hdl : done with
        | nil => exact absurd hdl hd
        | cons a l => rfl
      simp only [hsrc, if_false, he, Bool.false_eq_true]
      rw [e2]
      have hnd : done.Nodup := by
        have := configure_chain_nodup cfg self src dst
        rw [e2] at this
        exact this
      exact convertLoop_eq_spec stage _ dstBuf outFrames0 _ hd
        (lastIs_of_nodup _ hd hnd) _ _ _ _ _ _ _ _

theorem configure_failure_chain_witness :
    ∃ done i rest, planItems stereo824at48k mono16at8k = done ++ i :: rest ∧
      (configure rejectReformat newAudioConversion stereo824at48k
        mono16at8k).2.mActiveAudioConvList = done ∧
      (configure rejectReformat newAudioConversion stereo824at48k mono16at8k).1 =
        rejectReformat i (specAfter mono16at8k done stereo824at48k)
          (nextSpec i (specAfter mono16at8k done stereo824at48k) mono16at8k) ∧
      rejectReformat i (specAfter mono16at8k done stereo824at48k)
          (nextSpec i (specAfter mono16at8k done stereo824at48k) mono16at8k) ≠ NO_ERROR ∧
      (done = [] →
        getConvertedBuffer streamExternals 10
            (configure rejectReformat newAudioConversion stereo824at48k mono16at8k).2
            [1, 2, 3, 4, 5, 6, 7, 8, 9] true true 1 =
            Except.ok { status := NO_INIT, dst := none,
                        self := (configure rejectReformat newAudioConversion stereo824at48k
                          mono16at8k).2,
                        world := [1, 2, 3, 4, 5, 6, 7, 8, 9], events := [] } ∧
          (convert (sampleStage false)
            (configure rejectReformat newAudioConversion stereo824at48k mono16at8k).2 ()
            (fun x => x) 5 70 3 0).status = NO_ERROR ∧
          (convert (sampleStage false)
            (configure rejectReformat newAudioConversion stereo824at48k mono16at8k).2 ()
            (fun x => x) 5 70 3 0).outFrames = 3 ∧
          (convert (sampleStage false)
            (configure rejectReformat newAudioConversion stereo824at48k mono16at8k).2 ()
            (fun x => x) 5 70 3 0).calls = []) ∧
      (done ≠ [] →
        (∀ r, 0 < 1 →
          getConvertedBuffer streamExternals 10
            (configure rejectReformat newAudioConversion stereo824at48k mono16at8k).2
            [1, 2, 3, 4, 5, 6, 7, 8, 9] true true 1 = Except.ok r →
          ∃ bytes ok later, r.events = Event.realloc bytes ok :: later ∧
            (ok = false → r.status = NO_MEMORY)) ∧
          convert (sampleStage false)
              (configure rejectReformat newAudioConversion stereo824at48k mono16at8k).2 ()
              (fun x => x) 5 70 3 0 =
            convertSpec (sampleStage false) 70 0 done 5 3 () (fun x => x) []) :=
  configure_failure_chain rejectReformat newAudioConversion stereo824at48k mono16at8k
    streamExternals 10 [1, 2, 3, 4, 5, 6, 7, 8, 9] 1 (sampleStage false) () (fun x => x)
    5 70 3 0 (by decide) (by decide)

end intel_audio
